import Mathlib

/-!
# Mir: the policy based window manager (examples/server_example_basic_window_manager.h)

A shallow embedding of `BasicWindowManagerCopy`.

* Sessions and surfaces are held in the C++ maps as `std::weak_ptr` keys ordered by
  `std::owner_less`, that is by the identity of the control block. A handle is
  therefore a natural number (the identity), and a map is an association list kept in
  increasing key order, which is the iteration order of `std::map`.
* The policy is a template parameter of the class. It is a record of callbacks here.
  A callback runs while the controller's data can be reached through the tools
  interface (`info_for` hands out mutable references, `forget` erases, and two callbacks
  receive a map by reference), so a callback returns the two maps as it leaves them,
  together with its result or the exception it raised.
* Every controller operation returns the state it leaves, the calls it made on its
  collaborators (each with the controller state at the moment of the call) and its
  result or the exception that left it.
* Geometry values are C++ `int`: products are reduced to 32 bits, two's complement.
-/

namespace mir.examples

/-! ## Handles, errors, geometry -/

/-- Identity of a `scene::Session` (what `std::owner_less` compares). -/
abbrev Session := Nat

/-- Identity of a `scene::Surface` (what `std::owner_less` compares). -/
abbrev Surface := Nat

/-- Value of a `frontend::SurfaceId`. -/
abbrev SurfaceId := Nat

/-- Exceptions that can leave a controller operation: `std::out_of_range` from
`std::map::at`, or whatever a callback raised (identified by a code). -/
inductive Error where
  | out_of_range
  | raised (code : Nat)
deriving DecidableEq, Repr

/-- Modelled from the spec: `geometry::Point` (mir/geometry/point.h is not among the
sources). Integer coordinates. -/
structure Point where
  x : Int
  y : Int
deriving DecidableEq, Repr

/-- Modelled from the spec: `geometry::Size` (mir/geometry/size.h is not among the
sources). Integer width and height, read with `as_int()`. -/
structure Size where
  width : Int
  height : Int
deriving DecidableEq, Repr

/-- Modelled from the spec: `geometry::Rectangle` (mir/geometry/rectangle.h is not among
the sources). A rectangle in global screen coordinates: top left corner and size. -/
structure Rectangle where
  top_left : Point
  size : Size
deriving DecidableEq, Repr

/-- Modelled from the spec: the default constructed `geometry::Rectangle()`, the
empty rectangle: all zero. -/
instance : Inhabited Rectangle := ⟨⟨⟨0, 0⟩, ⟨0, 0⟩⟩⟩

/-- Modelled from the spec: `geometry::Rectangle::intersection_with` (declared in
mir/geometry/rectangle.h, not among the sources). The common area of two rectangles;
the default rectangle when they do not overlap. -/
def Rectangle.intersection_with (r o : Rectangle) : Rectangle :=
  let a := max r.top_left.x o.top_left.x
  let b := min (r.top_left.x + r.size.width) (o.top_left.x + o.size.width)
  let c := max r.top_left.y o.top_left.y
  let d := min (r.top_left.y + r.size.height) (o.top_left.y + o.size.height)
  if a < b ∧ c < d then ⟨⟨a, c⟩, ⟨b - a, d - c⟩⟩ else default

/-- Modelled from the spec: `geometry::Rectangle::contains(Point)` (declared in
mir/geometry/rectangle.h, not among the sources). The point lies inside the
rectangle, the right and bottom edges excluded. -/
def Rectangle.contains (r : Rectangle) (p : Point) : Bool :=
  decide (r.top_left.x ≤ p.x ∧ p.x < r.top_left.x + r.size.width ∧
    r.top_left.y ≤ p.y ∧ p.y < r.top_left.y + r.size.height)

/-- Value of a C++ `int` expression whose mathematical value is `v`: reduced to
32 bits, two's complement. -/
def as_int32 (v : Int) : Int := (v + 2147483648) % 4294967296 - 2147483648

/-! ## The maps and the surface set -/

/-- A `std::map` keyed by handle identity: entries in increasing key order. -/
abbrev HandleMap (V : Type) := List (Nat × V)

/-- Keys of a map, in iteration order. -/
def HandleMap.keys {V : Type} (m : HandleMap V) : List Nat := m.map Prod.fst

/-- The `std::map::at`: the mapped value, or nothing where C++ throws `std::out_of_range`. -/
def HandleMap.at {V : Type} : HandleMap V → Nat → Option V
  | [], _ => none
  | (k, v) :: rest, key => if k = key then some v else HandleMap.at rest key

/-- The `map[key] = value`: assigns to the entry of `key`, inserting it in key order
when there is none. -/
def HandleMap.assign {V : Type} : HandleMap V → Nat → V → HandleMap V
  | [], key, value => [(key, value)]
  | (k, v) :: rest, key, value =>
    if key < k then (key, value) :: (k, v) :: rest
    else if key = k then (key, value) :: rest
    else (k, v) :: HandleMap.assign rest key value

/-- The `std::map::emplace`: inserts in key order, and leaves the map as it is when
the key already has an entry. -/
def HandleMap.emplace {V : Type} : HandleMap V → Nat → V → HandleMap V
  | [], key, value => [(key, value)]
  | (k, v) :: rest, key, value =>
    if key < k then (key, value) :: (k, v) :: rest
    else if key = k then (k, v) :: rest
    else (k, v) :: HandleMap.emplace rest key value

/-- The `std::map::erase(key)`: removes the entry of `key`, if any. -/
def HandleMap.erase {V : Type} (m : HandleMap V) (key : Nat) : HandleMap V :=
  m.filter (fun e => decide (e.1 ≠ key))

/-- The `shell::SurfaceSet`, a `std::set` of weak surface references ordered by
identity: a list in increasing order. -/
abbrev SurfaceSet := List Surface

/-- The `std::set::insert(value)`: no effect when the value is present. -/
def SurfaceSet.insert : SurfaceSet → Surface → SurfaceSet
  | [], s => [s]
  | x :: rest, s =>
    if s < x then s :: x :: rest
    else if s = x then x :: rest
    else x :: SurfaceSet.insert rest s

/-- The `std::set::insert(first, last)`: inserts every element of the range. -/
def SurfaceSet.insert_range (set : SurfaceSet) (range : List Surface) : SurfaceSet :=
  range.foldl SurfaceSet.insert set

/-! ## Surface metadata, events -/

/-- Modelled from the spec: `CanonicalSurfaceInfoCopy` (declared in
server_example_canonical_surface_info.h, not among the sources). Constructed from
the owning session, the surface and the creation parameters; holds the child
surfaces used for stacking. -/
structure SurfaceInfo (P : Type) where
  session : Session
  surface : Surface
  params : P
  children : List Surface

/-- The constructor `SurfaceInfo{session, surface, params}`. -/
def SurfaceInfo.create {P : Type} (session : Session) (surface : Surface) (params : P) :
    SurfaceInfo P :=
  { session := session, surface := surface, params := params, children := [] }

/-- Modelled from the spec: `MirKeyboardEvent` (the mir_toolkit event headers are not
among the sources). What the controller reads of it: the time
`mir_input_event_get_event_time` reports. -/
structure MirKeyboardEvent where
  event_time : Nat
deriving DecidableEq, Repr

/-- Modelled from the spec: the `MirPointerAction` values (the mir_toolkit event headers
are not among the sources). -/
inductive MirPointerAction where
  | button_up
  | button_down
  | enter
  | leave
  | motion
deriving DecidableEq, Repr

/-- Modelled from the spec: `MirPointerEvent` (the mir_toolkit event headers are not
among the sources). What the controller reads of it: event time, action, and the
point that its x and y axis values give for the cursor. -/
structure MirPointerEvent where
  event_time : Nat
  action : MirPointerAction
  position : Point
deriving DecidableEq, Repr

/-- Modelled from the spec: the `MirTouchAction` values (the mir_toolkit event headers
are not among the sources). -/
inductive MirTouchAction where
  | up
  | down
  | change
deriving DecidableEq, Repr

/-- Modelled from the spec: `MirTouchEvent` (the mir_toolkit event headers are not among
the sources). What the controller reads of it: event time and the action of each
touch point, by index. -/
structure MirTouchEvent where
  event_time : Nat
  actions : List MirTouchAction
deriving DecidableEq, Repr

/-! ## The controller -/

/-- Data members of `BasicWindowManagerCopy` that the mutex guards. -/
structure BasicWindowManagerCopy (SessionInfo P : Type) where
  session_info : HandleMap SessionInfo
  surface_info : HandleMap (SurfaceInfo P)
  displays : List Rectangle
  cursor : Point
  last_input_event_timestamp : Nat

/-- The controller as constructed: empty maps, no display, timestamp 0. -/
def BasicWindowManagerCopy.initial (SessionInfo P : Type) : BasicWindowManagerCopy SessionInfo P :=
  { session_info := [], surface_info := [], displays := [], cursor := ⟨0, 0⟩,
    last_input_event_timestamp := 0 }

/-- What a policy callback leaves behind: the two maps it can reach, and its result
or the exception it raised. -/
structure PolicyOutcome (SessionInfo P α : Type) where
  session_info : HandleMap SessionInfo
  surface_info : HandleMap (SurfaceInfo P)
  result : Except Error α

/-- The `build` callback of `add_surface`. -/
abbrev Builder (P : Type) := Session → P → Except Error SurfaceId

/-- The `WindowManagementPolicy` template parameter: the methods the controller calls.
Each receives the controller state at the call. -/
structure WindowManagementPolicy (SessionInfo P : Type) where
  handle_session_info_updated :
    BasicWindowManagerCopy SessionInfo P → PolicyOutcome SessionInfo P Unit
  handle_displays_updated :
    BasicWindowManagerCopy SessionInfo P → PolicyOutcome SessionInfo P Unit
  handle_place_new_surface :
    BasicWindowManagerCopy SessionInfo P → Session → P → PolicyOutcome SessionInfo P P
  handle_new_surface :
    BasicWindowManagerCopy SessionInfo P → Session → Surface → PolicyOutcome SessionInfo P Unit
  generate_decorations_for :
    BasicWindowManagerCopy SessionInfo P → Session → Surface → Builder P →
      PolicyOutcome SessionInfo P Unit
  handle_delete_surface :
    BasicWindowManagerCopy SessionInfo P → Session → Surface → PolicyOutcome SessionInfo P Unit
  handle_keyboard_event :
    BasicWindowManagerCopy SessionInfo P → MirKeyboardEvent → PolicyOutcome SessionInfo P Bool
  handle_touch_event :
    BasicWindowManagerCopy SessionInfo P → MirTouchEvent → PolicyOutcome SessionInfo P Bool
  handle_pointer_event :
    BasicWindowManagerCopy SessionInfo P → MirPointerEvent → PolicyOutcome SessionInfo P Bool
  handle_raise_surface :
    BasicWindowManagerCopy SessionInfo P → Session → Surface → PolicyOutcome SessionInfo P Unit

/-- A call the controller makes on a collaborator: a policy method, the `build`
callback, or `FocusController::raise`. -/
inductive Call (P : Type) where
  | handle_session_info_updated
  | handle_displays_updated
  | handle_place_new_surface (session : Session) (params : P)
  | build (session : Session) (params : P)
  | handle_new_surface (session : Session) (surface : Surface)
  | generate_decorations_for (session : Session) (surface : Surface)
  | handle_delete_surface (session : Session) (surface : Surface)
  | handle_keyboard_event (event : MirKeyboardEvent)
  | handle_touch_event (event : MirTouchEvent)
  | handle_pointer_event (event : MirPointerEvent)
  | handle_raise_surface (session : Session) (surface : Surface)
  | raise (surfaces : SurfaceSet)

/-- A call together with the controller state at the moment it is made. -/
structure Invocation (SessionInfo P : Type) where
  call : Call P
  seen : BasicWindowManagerCopy SessionInfo P

/-- What a controller operation leaves: the state, the calls made in order, and
the value returned or the exception that left it. -/
structure Outcome (SessionInfo P α : Type) where
  state : BasicWindowManagerCopy SessionInfo P
  trace : List (Invocation SessionInfo P)
  result : Except Error α

/-- The controller state once a policy callback has run. -/
def BasicWindowManagerCopy.after {SessionInfo P α : Type}
    (c : BasicWindowManagerCopy SessionInfo P) (o : PolicyOutcome SessionInfo P α) :
    BasicWindowManagerCopy SessionInfo P :=
  { c with session_info := o.session_info, surface_info := o.surface_info }

/-- The `handle_raise_surface` (lines 218-226): the policy is asked only when the
request is not older than the last input event. -/
def handle_raise_surface {SessionInfo P : Type} (policy : WindowManagementPolicy SessionInfo P)
    (c : BasicWindowManagerCopy SessionInfo P) (session : Session) (surface : Surface)
    (timestamp : Nat) : Outcome SessionInfo P Unit :=
  if timestamp ≥ c.last_input_event_timestamp then
    let o := policy.handle_raise_surface c session surface
    { state := c.after o, trace := [⟨Call.handle_raise_surface session surface, c⟩],
      result := o.result }
  else
    { state := c, trace := [], result := Except.ok () }

/-! ### Sessions, surfaces, displays -/

/-- The `add_session` (lines 125-130). -/
def add_session {SessionInfo P : Type} [Inhabited SessionInfo]
    (policy : WindowManagementPolicy SessionInfo P)
    (c : BasicWindowManagerCopy SessionInfo P) (session : Session) : Outcome SessionInfo P Unit :=
  let c1 := { c with session_info := c.session_info.assign session default }
  let o := policy.handle_session_info_updated c1
  { state := c1.after o, trace := [⟨Call.handle_session_info_updated, c1⟩], result := o.result }

/-- The `remove_session` (lines 132-137). -/
def remove_session {SessionInfo P : Type} (policy : WindowManagementPolicy SessionInfo P)
    (c : BasicWindowManagerCopy SessionInfo P) (session : Session) : Outcome SessionInfo P Unit :=
  let c1 := { c with session_info := c.session_info.erase session }
  let o := policy.handle_session_info_updated c1
  { state := c1.after o, trace := [⟨Call.handle_session_info_updated, c1⟩], result := o.result }

/-- The `add_surface` (lines 139-152). The parameter `surface_of` is
`scene::Session::surface(id)`, which is not among the sources. -/
def add_surface {SessionInfo P : Type} (policy : WindowManagementPolicy SessionInfo P)
    (surface_of : Session → SurfaceId → Except Error Surface)
    (c : BasicWindowManagerCopy SessionInfo P) (session : Session) (params : P)
    (build : Builder P) : Outcome SessionInfo P SurfaceId :=
  let o1 := policy.handle_place_new_surface c session params
  let c1 := c.after o1
  let t1 : List (Invocation SessionInfo P) := [⟨Call.handle_place_new_surface session params, c⟩]
  match o1.result with
  | Except.error e => { state := c1, trace := t1, result := Except.error e }
  | Except.ok placed_params =>
    let t2 := t1 ++ [⟨Call.build session placed_params, c1⟩]
    match build session placed_params with
    | Except.error e => { state := c1, trace := t2, result := Except.error e }
    | Except.ok result =>
      match surface_of session result with
      | Except.error e => { state := c1, trace := t2, result := Except.error e }
      | Except.ok surface =>
        let c2 := { c1 with surface_info :=
          c1.surface_info.emplace surface (SurfaceInfo.create session surface placed_params) }
        let o3 := policy.handle_new_surface c2 session surface
        let c3 := c2.after o3
        let t3 := t2 ++ [⟨Call.handle_new_surface session surface, c2⟩]
        match o3.result with
        | Except.error e => { state := c3, trace := t3, result := Except.error e }
        | Except.ok _ =>
          let o4 := policy.generate_decorations_for c3 session surface build
          let c4 := c3.after o4
          let t4 := t3 ++ [⟨Call.generate_decorations_for session surface, c3⟩]
          match o4.result with
          | Except.error e => { state := c4, trace := t4, result := Except.error e }
          | Except.ok _ => { state := c4, trace := t4, result := Except.ok result }

/-- The `remove_surface` (lines 163-171). -/
def remove_surface {SessionInfo P : Type} (policy : WindowManagementPolicy SessionInfo P)
    (c : BasicWindowManagerCopy SessionInfo P) (session : Session) (surface : Surface) :
    Outcome SessionInfo P Unit :=
  let o := policy.handle_delete_surface c session surface
  let c1 := c.after o
  let t : List (Invocation SessionInfo P) := [⟨Call.handle_delete_surface session surface, c⟩]
  match o.result with
  | Except.error e => { state := c1, trace := t, result := Except.error e }
  | Except.ok _ =>
    { state := { c1 with surface_info := c1.surface_info.erase surface }, trace := t,
      result := Except.ok () }

/-- The `forget` (lines 173-176). -/
def forget {SessionInfo P : Type} (c : BasicWindowManagerCopy SessionInfo P) (surface : Surface) :
    Outcome SessionInfo P Unit :=
  { state := { c with surface_info := c.surface_info.erase surface }, trace := [],
    result := Except.ok () }

/-- Modelled from the spec: `geometry::Rectangles::add` (mir/geometry/rectangles.h is
not among the sources). The set of displays supports add, remove and iterate; a new
rectangle is iterated last. -/
def Rectangles.add (displays : List Rectangle) (area : Rectangle) : List Rectangle :=
  displays ++ [area]

/-- Modelled from the spec: `geometry::Rectangles::remove` (mir/geometry/rectangles.h
is not among the sources). Removes one occurrence of the rectangle, if there is one. -/
def Rectangles.remove (displays : List Rectangle) (area : Rectangle) : List Rectangle :=
  displays.erase area

/-- The `add_display` (lines 178-183). -/
def add_display {SessionInfo P : Type} (policy : WindowManagementPolicy SessionInfo P)
    (c : BasicWindowManagerCopy SessionInfo P) (area : Rectangle) : Outcome SessionInfo P Unit :=
  let c1 := { c with displays := Rectangles.add c.displays area }
  let o := policy.handle_displays_updated c1
  { state := c1.after o, trace := [⟨Call.handle_displays_updated, c1⟩], result := o.result }

/-- The `remove_display` (lines 185-190). -/
def remove_display {SessionInfo P : Type} (policy : WindowManagementPolicy SessionInfo P)
    (c : BasicWindowManagerCopy SessionInfo P) (area : Rectangle) : Outcome SessionInfo P Unit :=
  let c1 := { c with displays := Rectangles.remove c.displays area }
  let o := policy.handle_displays_updated c1
  { state := c1.after o, trace := [⟨Call.handle_displays_updated, c1⟩], result := o.result }

/-! ### Input events and the timestamp of the last one -/

/-- The `update_event_timestamp(MirKeyboardEvent const*)` (lines 374-378). -/
def update_event_timestamp_keyboard {SessionInfo P : Type}
    (c : BasicWindowManagerCopy SessionInfo P) (kev : MirKeyboardEvent) :
    BasicWindowManagerCopy SessionInfo P :=
  { c with last_input_event_timestamp := kev.event_time }

/-- The `update_event_timestamp(MirPointerEvent const*)` (lines 380-390). -/
def update_event_timestamp_pointer {SessionInfo P : Type}
    (c : BasicWindowManagerCopy SessionInfo P) (pev : MirPointerEvent) :
    BasicWindowManagerCopy SessionInfo P :=
  if pev.action = MirPointerAction.button_up ∨ pev.action = MirPointerAction.button_down then
    { c with last_input_event_timestamp := pev.event_time }
  else c

/-- The loop of `update_event_timestamp(MirTouchEvent const*)` (lines 396-405) over
the touch points from index `i` on. Returns the timestamp it leaves and how many
times the assignment statement ran; the `break` ends the loop. -/
def touch_timestamp_loop (event_time : Nat) : List MirTouchAction → Nat → Nat → Nat × Nat
  | [], timestamp, assignments => (timestamp, assignments)
  | touch_action :: rest, timestamp, assignments =>
    if touch_action = MirTouchAction.up ∨ touch_action = MirTouchAction.down then
      (event_time, assignments + 1)
    else touch_timestamp_loop event_time rest timestamp assignments

/-- The `update_event_timestamp(MirTouchEvent const*)` (lines 392-406). -/
def update_event_timestamp_touch {SessionInfo P : Type}
    (c : BasicWindowManagerCopy SessionInfo P) (tev : MirTouchEvent) :
    BasicWindowManagerCopy SessionInfo P :=
  { c with last_input_event_timestamp :=
      (touch_timestamp_loop tev.event_time tev.actions c.last_input_event_timestamp 0).1 }

/-- The `handle_keyboard_event` (lines 192-197). -/
def handle_keyboard_event {SessionInfo P : Type} (policy : WindowManagementPolicy SessionInfo P)
    (c : BasicWindowManagerCopy SessionInfo P) (event : MirKeyboardEvent) :
    Outcome SessionInfo P Bool :=
  let c1 := update_event_timestamp_keyboard c event
  let o := policy.handle_keyboard_event c1 event
  { state := c1.after o, trace := [⟨Call.handle_keyboard_event event, c1⟩], result := o.result }

/-- The `handle_touch_event` (lines 199-204). -/
def handle_touch_event {SessionInfo P : Type} (policy : WindowManagementPolicy SessionInfo P)
    (c : BasicWindowManagerCopy SessionInfo P) (event : MirTouchEvent) :
    Outcome SessionInfo P Bool :=
  let c1 := update_event_timestamp_touch c event
  let o := policy.handle_touch_event c1 event
  { state := c1.after o, trace := [⟨Call.handle_touch_event event, c1⟩], result := o.result }

/-- The `handle_pointer_event` (lines 206-216). -/
def handle_pointer_event {SessionInfo P : Type} (policy : WindowManagementPolicy SessionInfo P)
    (c : BasicWindowManagerCopy SessionInfo P) (event : MirPointerEvent) :
    Outcome SessionInfo P Bool :=
  let c1 := update_event_timestamp_pointer c event
  let c2 := { c1 with cursor := event.position }
  let o := policy.handle_pointer_event c2 event
  { state := c2.after o, trace := [⟨Call.handle_pointer_event event, c2⟩], result := o.result }

/-! ### The tools interface -/

/-- The `info_for(session)` (lines 261-264). -/
def info_for_session {SessionInfo P : Type} (c : BasicWindowManagerCopy SessionInfo P)
    (session : Session) : Except Error SessionInfo :=
  match c.session_info.at session with
  | some info => Except.ok info
  | none => Except.error Error.out_of_range

/-- The `info_for(surface)` (lines 266-269). -/
def info_for_surface {SessionInfo P : Type} (c : BasicWindowManagerCopy SessionInfo P)
    (surface : Surface) : Except Error (SurfaceInfo P) :=
  match c.surface_info.at surface with
  | some info => Except.ok info
  | none => Except.error Error.out_of_range

/-- The `std::weak_ptr::lock()` of a map key: the session while it is alive, and the
empty `std::shared_ptr` (nothing) once it has expired. The parameter `expired` tells
which sessions are gone; the controller holds no session alive. -/
def lock (expired : Session → Bool) (session : Session) : Option Session :=
  if expired session then none else some session

/-- The loop of `find_session` (lines 250-258), over the entries still to visit. Returns
the `std::shared_ptr` handed back (nothing for the empty one) and the keys of the
entries on which the predicate was called, in order. -/
def find_session_loop {SessionInfo : Type} (expired : Session → Bool)
    (predicate : SessionInfo → Bool) : HandleMap SessionInfo → Option Session × List Session
  | [] => (none, [])
  | info :: rest =>
    if predicate info.2 then (lock expired info.1, [info.1])
    else ((find_session_loop expired predicate rest).1,
      info.1 :: (find_session_loop expired predicate rest).2)

/-- The `find_session` (lines 247-259): the result, and the keys of the entries on
which the predicate was called. -/
def find_session {SessionInfo P : Type} (expired : Session → Bool)
    (c : BasicWindowManagerCopy SessionInfo P) (predicate : SessionInfo → Bool) :
    Option Session × List Session :=
  find_session_loop expired predicate c.session_info

/-- Modelled from the spec: `shell::FocusController` (mir/shell/focus_controller.h is not
among the sources). What `active_display` reads from it: the focused session and
surface, if any. -/
structure FocusController where
  focused_session : Option Session
  focused_surface : Option Surface

/-- The first loop of `active_display` (lines 309-317) over the displays still to
visit, with the current `max_overlap_area` and `result`. -/
def active_display_overlap_loop (surface_rect : Rectangle) :
    List Rectangle → Int → Rectangle → Rectangle
  | [], _, result => result
  | display :: rest, max_overlap_area, result =>
    let intersection := (surface_rect.intersection_with display).size
    if as_int32 (intersection.width * intersection.height) > max_overlap_area then
      active_display_overlap_loop surface_rect rest
        (as_int32 (intersection.width * intersection.height)) display
    else active_display_overlap_loop surface_rect rest max_overlap_area result

/-- The second loop of `active_display` (lines 327-334): the display returned from
inside the loop, if any. -/
def active_display_cursor_loop (cursor : Point) : List Rectangle → Option Rectangle
  | [] => none
  | display :: rest =>
    if display.contains cursor then some display else active_display_cursor_loop cursor rest

/-- The `active_display` (lines 298-343). The parameter `input_bounds` is
`scene::Surface::input_bounds()`. -/
def active_display {SessionInfo P : Type} (focus_controller : FocusController)
    (input_bounds : Surface → Rectangle) (c : BasicWindowManagerCopy SessionInfo P) : Rectangle :=
  match focus_controller.focused_surface with
  | some surface => active_display_overlap_loop (input_bounds surface) c.displays (-1) default
  | none =>
    match active_display_cursor_loop c.cursor c.displays with
    | some display => display
    | none =>
      match c.displays with
      | first :: _ => first
      | [] => default

/-- The `for (auto const& child : info.children) add_children(child);` of `raise_tree`
(lines 353-354). An exception or an unfinished recursion ends the loop. -/
def for_each_child (add_children : Surface → SurfaceSet → Option (Except Error SurfaceSet)) :
    List Surface → SurfaceSet → Option (Except Error SurfaceSet)
  | [], surfaces => some (Except.ok surfaces)
  | child :: rest, surfaces =>
    match add_children child surfaces with
    | some (Except.ok surfaces1) => for_each_child add_children rest surfaces1
    | some (Except.error e) => some (Except.error e)
    | none => none

/-- The recursive lambda `add_children` of `raise_tree` (lines 348-355), with the set
`surfaces` it captures by reference passed through. The recursion may nest `depth`
deep; `none` means the walk needs to nest deeper. -/
def add_children {SessionInfo P : Type} (c : BasicWindowManagerCopy SessionInfo P) :
    Nat → Surface → SurfaceSet → Option (Except Error SurfaceSet)
  | 0, _, _ => none
  | depth + 1, surface, surfaces =>
    match info_for_surface c surface with
    | Except.error e => some (Except.error e)
    | Except.ok info =>
      for_each_child (add_children c depth) info.children
        (SurfaceSet.insert_range surfaces info.children)

/-- The `raise_tree` (lines 345-361), with the recursion allowed to nest `depth`
deep; `none` means the walk needs to nest deeper. -/
def raise_tree {SessionInfo P : Type} (depth : Nat) (c : BasicWindowManagerCopy SessionInfo P)
    (root : Surface) : Option (Outcome SessionInfo P Unit) :=
  match add_children c depth root (SurfaceSet.insert [] root) with
  | none => none
  | some (Except.error e) => some { state := c, trace := [], result := Except.error e }
  | some (Except.ok surfaces) =>
    some { state := c, trace := [⟨Call.raise surfaces, c⟩], result := Except.ok () }

/-! ## Vocabulary of the properties, and concrete inputs -/

/-- A policy that leaves both maps as they are and accepts everything: placement
keeps the requested parameters, events are not consumed. -/
def quiet_policy : WindowManagementPolicy Unit Unit :=
  { handle_session_info_updated := fun c => ⟨c.session_info, c.surface_info, Except.ok ()⟩
    handle_displays_updated := fun c => ⟨c.session_info, c.surface_info, Except.ok ()⟩
    handle_place_new_surface := fun c _ params => ⟨c.session_info, c.surface_info, Except.ok params⟩
    handle_new_surface := fun c _ _ => ⟨c.session_info, c.surface_info, Except.ok ()⟩
    generate_decorations_for := fun c _ _ _ => ⟨c.session_info, c.surface_info, Except.ok ()⟩
    handle_delete_surface := fun c _ _ => ⟨c.session_info, c.surface_info, Except.ok ()⟩
    handle_keyboard_event := fun c _ => ⟨c.session_info, c.surface_info, Except.ok false⟩
    handle_touch_event := fun c _ => ⟨c.session_info, c.surface_info, Except.ok false⟩
    handle_pointer_event := fun c _ => ⟨c.session_info, c.surface_info, Except.ok false⟩
    handle_raise_surface := fun c _ _ => ⟨c.session_info, c.surface_info, Except.ok ()⟩ }

/-- A controller whose last input event carried the time 10. -/
def controller_at_10 : BasicWindowManagerCopy Unit Unit :=
  { BasicWindowManagerCopy.initial Unit Unit with last_input_event_timestamp := 10 }

/-- The intersection area of a display with the input bounds: width times height of
their intersection, as a mathematical integer. -/
def overlap_area (surface_rect display : Rectangle) : Int :=
  (surface_rect.intersection_with display).size.width *
    (surface_rect.intersection_with display).size.height

/-- Display D1 = (0,0) 100x100. -/
def display_1 : Rectangle := ⟨⟨0, 0⟩, ⟨100, 100⟩⟩

/-- Display D2 = (100,0) 100x100. -/
def display_2 : Rectangle := ⟨⟨100, 0⟩, ⟨100, 100⟩⟩

/-- Input bounds (60,0) 80x100. -/
def bounds_60_0_80_100 : Rectangle := ⟨⟨60, 0⟩, ⟨80, 100⟩⟩

/-- A focus controller with surface 7 focused. -/
def focus_on_7 : FocusController := { focused_session := some 1, focused_surface := some 7 }

/-- A focus controller with nothing focused. -/
def focus_on_nothing : FocusController := { focused_session := none, focused_surface := none }

/-- A controller with the displays D1, D2 in that order. -/
def controller_two_displays : BasicWindowManagerCopy Unit Unit :=
  { BasicWindowManagerCopy.initial Unit Unit with displays := [display_1, display_2] }

/-- A 1x1 display at the origin. -/
def display_tiny : Rectangle := ⟨⟨0, 0⟩, ⟨1, 1⟩⟩

/-- A 65536x65536 display at the origin: its area is 2^32. -/
def display_huge : Rectangle := ⟨⟨0, 0⟩, ⟨65536, 65536⟩⟩

/-- A controller with the tiny display first and the huge display second. -/
def controller_tiny_huge : BasicWindowManagerCopy Unit Unit :=
  { BasicWindowManagerCopy.initial Unit Unit with displays := [display_tiny, display_huge] }

/-- The controller with the displays D1, D2 and the cursor at (150, 50), inside D2. -/
def controller_cursor_in_2 : BasicWindowManagerCopy Unit Unit :=
  { controller_two_displays with cursor := ⟨150, 50⟩ }

/-- The controller with the displays D1, D2 and the cursor at (500, 500), in neither. -/
def controller_cursor_outside : BasicWindowManagerCopy Unit Unit :=
  { controller_two_displays with cursor := ⟨500, 500⟩ }

/-- The children relation stored in the surface map: `child` is listed among the
children of the `SurfaceInfo` of `parent`. -/
def IsChild {SessionInfo P : Type} (c : BasicWindowManagerCopy SessionInfo P)
    (parent child : Surface) : Prop :=
  ∃ info, c.surface_info.at parent = some info ∧ child ∈ info.children

/-- A surface info for surface `surface` of session 1 with the given children. -/
def info_with_children (surface : Surface) (children : List Surface) : SurfaceInfo Unit :=
  { session := 1, surface := surface, params := (), children := children }

/-- A controller whose surface 1 has the children 2 and 3, each of which has the
child 4: surface 4 is reached along two branches. -/
def controller_diamond : BasicWindowManagerCopy Unit Unit :=
  { BasicWindowManagerCopy.initial Unit Unit with
    surface_info := [(1, info_with_children 1 [2, 3]), (2, info_with_children 2 [4]),
      (3, info_with_children 3 [4]), (4, info_with_children 4 [])] }

/-- A controller whose surface 0 lists itself as a child. -/
def controller_self_child : BasicWindowManagerCopy Unit Unit :=
  { BasicWindowManagerCopy.initial Unit Unit with
    surface_info := [(0, info_with_children 0 [0])] }

/-- A controller whose surfaces 0 and 1 list each other as a child. -/
def controller_two_cycle : BasicWindowManagerCopy Unit Unit :=
  { BasicWindowManagerCopy.initial Unit Unit with
    surface_info := [(0, info_with_children 0 [1]), (1, info_with_children 1 [0])] }

/-- A call of `add_session` or of `remove_session`. -/
inductive SessionCall where
  | add_session (session : Session)
  | remove_session (session : Session)
deriving DecidableEq, Repr

/-- The controller state after one `add_session` or `remove_session` call (whether
the call returned or an exception of the policy left it). -/
def run_session_call {SessionInfo P : Type} [Inhabited SessionInfo]
    (policy : WindowManagementPolicy SessionInfo P)
    (c : BasicWindowManagerCopy SessionInfo P) : SessionCall → BasicWindowManagerCopy SessionInfo P
  | SessionCall.add_session session => (add_session policy c session).state
  | SessionCall.remove_session session => (remove_session policy c session).state

/-- The controller state after a sequence of `add_session` and `remove_session`
calls, made in list order. -/
def run_session_calls {SessionInfo P : Type} [Inhabited SessionInfo]
    (policy : WindowManagementPolicy SessionInfo P) (calls : List SessionCall)
    (c : BasicWindowManagerCopy SessionInfo P) : BasicWindowManagerCopy SessionInfo P :=
  calls.foldl (run_session_call policy) c

/-- The calls add 1, add 2, remove 1, remove 5 (session 5 was never added). -/
def session_calls_example : List SessionCall :=
  [SessionCall.add_session 1, SessionCall.add_session 2, SessionCall.remove_session 1,
    SessionCall.remove_session 5]

/-- A keyboard, touch or pointer event. -/
inductive InputEvent where
  | keyboard (event : MirKeyboardEvent)
  | touch (event : MirTouchEvent)
  | pointer (event : MirPointerEvent)
deriving DecidableEq, Repr

/-- The event time an input event carries. -/
def InputEvent.event_time : InputEvent → Nat
  | InputEvent.keyboard event => event.event_time
  | InputEvent.touch event => event.event_time
  | InputEvent.pointer event => event.event_time

/-- The handler the controller runs for an input event: `handle_keyboard_event`,
`handle_touch_event` or `handle_pointer_event`. -/
def handle_input_event {SessionInfo P : Type} (policy : WindowManagementPolicy SessionInfo P)
    (c : BasicWindowManagerCopy SessionInfo P) : InputEvent → Outcome SessionInfo P Bool
  | InputEvent.keyboard event => handle_keyboard_event policy c event
  | InputEvent.touch event => handle_touch_event policy c event
  | InputEvent.pointer event => handle_pointer_event policy c event

/-- A button press at time 20. -/
def button_down_at_20 : MirPointerEvent :=
  { event_time := 20, action := MirPointerAction.button_down, position := ⟨3, 4⟩ }

/-- A pointer motion at time 20. -/
def motion_at_20 : MirPointerEvent :=
  { event_time := 20, action := MirPointerAction.motion, position := ⟨3, 4⟩ }

/-- A touch event at time 20 with points changing, going down and going up. -/
def touch_down_at_20 : MirTouchEvent :=
  { event_time := 20,
    actions := [MirTouchAction.change, MirTouchAction.down, MirTouchAction.up] }

/-- A touch event at time 20 whose points only change. -/
def touch_change_at_20 : MirTouchEvent :=
  { event_time := 20, actions := [MirTouchAction.change, MirTouchAction.change] }

/-- A touch event at time 20 without touch points. -/
def touch_empty_at_20 : MirTouchEvent := { event_time := 20, actions := [] }

/-- A key event carrying the time 5. -/
def key_at_5 : MirKeyboardEvent := { event_time := 5 }

/-- A key event carrying the time 20. -/
def key_at_20 : MirKeyboardEvent := { event_time := 20 }

/-- A `scene::Session::surface(id)` for the examples: the surface of id `n` has the
identity `n + 100`. -/
def surface_of_example : Session → SurfaceId → Except Error Surface :=
  fun _ id => Except.ok (id + 100)

/-- A `build` callback for the examples: it yields the id 7. -/
def build_7 : Builder Unit := fun _ _ => Except.ok 7

/-- A policy callback left both maps as it was handed them in the state `c`. -/
def PolicyOutcome.leaves {SessionInfo P α : Type} (o : PolicyOutcome SessionInfo P α)
    (c : BasicWindowManagerCopy SessionInfo P) : Prop :=
  o.session_info = c.session_info ∧ o.surface_info = c.surface_info

/-- A policy none of whose callbacks changes the maps: whatever the controller state
is after a call, the controller itself made it so. -/
def WindowManagementPolicy.leaves_maps {SessionInfo P : Type}
    (policy : WindowManagementPolicy SessionInfo P) : Prop :=
  (∀ c, (policy.handle_session_info_updated c).leaves c) ∧
  (∀ c, (policy.handle_displays_updated c).leaves c) ∧
  (∀ c session params, (policy.handle_place_new_surface c session params).leaves c) ∧
  (∀ c session surface, (policy.handle_new_surface c session surface).leaves c) ∧
  (∀ c session surface build,
    (policy.generate_decorations_for c session surface build).leaves c) ∧
  (∀ c session surface, (policy.handle_delete_surface c session surface).leaves c)

/-- The callbacks that `add_surface` runs once the surface is recorded do not drop the
entry of `surface` from the surface map. -/
def WindowManagementPolicy.keeps_entry {SessionInfo P : Type}
    (policy : WindowManagementPolicy SessionInfo P) (surface : Surface) : Prop :=
  ∀ (c : BasicWindowManagerCopy SessionInfo P) (session : Session) (s : Surface)
    (build : Builder P),
    c.surface_info.at surface ≠ none →
      (policy.handle_new_surface c session s).surface_info.at surface ≠ none ∧
      (policy.generate_decorations_for c session s build).surface_info.at surface ≠ none

/-- A policy that leaves both maps as they are and raises from every notification:
only placement succeeds. -/
def refusing_policy : WindowManagementPolicy Unit Unit :=
  { quiet_policy with
    handle_session_info_updated :=
      fun c => ⟨c.session_info, c.surface_info, Except.error (Error.raised 1)⟩
    handle_displays_updated :=
      fun c => ⟨c.session_info, c.surface_info, Except.error (Error.raised 2)⟩
    handle_new_surface :=
      fun c _ _ => ⟨c.session_info, c.surface_info, Except.error (Error.raised 3)⟩
    handle_delete_surface :=
      fun c _ _ => ⟨c.session_info, c.surface_info, Except.error (Error.raised 4)⟩ }

/-- A controller that tracks surface 107 of session 1 and surface 108 of session 2. -/
def controller_two_surfaces : BasicWindowManagerCopy Unit Unit :=
  { BasicWindowManagerCopy.initial Unit Unit with
    session_info := [(1, ()), (2, ())]
    surface_info := [(107, info_with_children 107 []), (108, info_with_children 108 [])] }

/-- A controller whose sessions 1, 2 and 3 carry the flags false, true and true. -/
def controller_flagged_sessions : BasicWindowManagerCopy Bool Unit :=
  { BasicWindowManagerCopy.initial Bool Unit with
    session_info := [(1, false), (2, true), (3, true)] }

/-- Session 2 has expired, the others are alive. -/
def session_2_expired : Session → Bool := fun session => decide (session = 2)

/-- No session has expired. -/
def all_alive : Session → Bool := fun _ => false

/-- A controller whose surface 1 has the children 2 and 3, of which only 2 has an
entry in the surface map. -/
def controller_missing_child : BasicWindowManagerCopy Unit Unit :=
  { BasicWindowManagerCopy.initial Unit Unit with
    surface_info := [(1, info_with_children 1 [2, 3]), (2, info_with_children 2 [])] }

/-- A 46341x46341 display at the origin: its area is above 2^31. -/
def display_46341 : Rectangle := ⟨⟨0, 0⟩, ⟨46341, 46341⟩⟩

/-- A controller with the 46341x46341 display as its only display. -/
def controller_46341 : BasicWindowManagerCopy Unit Unit :=
  { BasicWindowManagerCopy.initial Unit Unit with displays := [display_46341] }

/-- Input bounds (300,300) 10x10: outside D1 and D2. -/
def bounds_300_300_10_10 : Rectangle := ⟨⟨300, 300⟩, ⟨10, 10⟩⟩

/-- A policy like the quiet one, except that its `handle_session_info_updated` clears
the session map it is handed (the tools hand it the map by reference). -/
def clearing_policy : WindowManagementPolicy Unit Unit :=
  { quiet_policy with
    handle_session_info_updated := fun c => ⟨[], c.surface_info, Except.ok ()⟩ }

/-- A controller whose session map has the one key 2. -/
def controller_session_2 : BasicWindowManagerCopy Unit Unit :=
  { BasicWindowManagerCopy.initial Unit Unit with session_info := [(2, ())] }

/-- A controller whose surface 0 lists the children 5 and 0, in that order, and
surface 5 has no entry in the surface map. -/
def controller_self_child_after_missing : BasicWindowManagerCopy Unit Unit :=
  { BasicWindowManagerCopy.initial Unit Unit with
    surface_info := [(0, info_with_children 0 [5, 0])] }

/-- A pointer motion at time 5. -/
def motion_at_5 : MirPointerEvent := { motion_at_20 with event_time := 5 }

end mir.examples

/-!
# The transmission of file descriptors (src/common/fd/fd_socket_transmission.cpp)

A shallow embedding of `mir::receive_data` and `mir::send_fds`.

* The socket is a state with a function `recvmsg` that answers a call and moves the
  state on. An answer holds what the code reads after the call: the return value,
  `errno`, the bytes stored, the `MSG_CTRUNC` flag and the first control block.
* The loop may call `recvmsg` for ever (a call can be interrupted again and again), so
  it takes the number of calls it may make; `none` means it is still running.
* For sending the socket is a state with a function `sendmsg` in the same way; an
  answer holds the return value and `errno`. `send_fds` has no loop.
* `size_t` is 64 bits wide, `unsigned` and `int` 32 bits; the arithmetic of the code is
  reduced accordingly. The `fcntl` calls that clear `O_NONBLOCK` and the `printf` calls
  are left out.
-/

namespace mir

/-! ## Machine integers and the constants of the system headers (64-bit Linux) -/

/-- Value of a `size_t` expression whose mathematical value is `v`: reduced to 64 bits. -/
def to_size_t (v : Int) : Nat := (v % 18446744073709551616).toNat

/-- Value of an `unsigned` expression whose mathematical value is `v`: reduced to 32 bits. -/
def to_unsigned (v : Int) : Nat := (v % 4294967296).toNat

/-- Value of an `int` that is given the mathematical value `v`: reduced to 32 bits,
two's complement. -/
def to_int (v : Int) : Int := (v + 2147483648) % 4294967296 - 2147483648

/-- The `sizeof(int)`. -/
def sizeof_int : Nat := 4

/-- The `EINTR` of <errno.h>. -/
def EINTR : Int := 4

/-- The `EPIPE` of <errno.h>. -/
def EPIPE : Int := 32

/-- The `SOL_SOCKET` of <sys/socket.h>. -/
def SOL_SOCKET : Int := 1

/-- The `SCM_RIGHTS` of <sys/socket.h>. -/
def SCM_RIGHTS : Int := 1

/-- The `SCM_CREDENTIALS` of <sys/socket.h>. -/
def SCM_CREDENTIALS : Int := 2

/-- Distance from a control header to its data, `CMSG_DATA(cmsg) - cmsg`: the size of
`struct cmsghdr`. -/
def cmsg_header_size : Nat := 16

/-- The `CMSG_ALIGN` of <sys/socket.h>: rounds up to a multiple of `sizeof(size_t)`. -/
def CMSG_ALIGN (len : Nat) : Nat := to_size_t (((len : Int) + 7) / 8 * 8)

/-- The `CMSG_LEN` of <sys/socket.h>: length of a control block with `len` data bytes. -/
def CMSG_LEN (len : Nat) : Nat := to_size_t ((CMSG_ALIGN cmsg_header_size : Int) + len)

/-- The `CMSG_SPACE` of <sys/socket.h>: room a control block with `len` data bytes takes. -/
def CMSG_SPACE (len : Nat) : Nat :=
  to_size_t ((CMSG_ALIGN len : Int) + CMSG_ALIGN cmsg_header_size)

/-! ## Receiving -/

/-- Exceptions that leave `receive_data`. The two `std::system_error`s carry the value
of `errno` at the time. -/
inductive ReceiveError where
  | logic_error
  | socket_disconnected_error (errno : Int)
  | socket_error (errno : Int)
  | fd_reception_error
  | received_more_fds
  | received_fewer_fds
deriving DecidableEq, Repr

/-- The first control block of a received message, as `CMSG_FIRSTHDR` finds it: the
fields of its `struct cmsghdr` and the `int`s stored from `CMSG_DATA` on. -/
structure cmsghdr where
  cmsg_len : Nat
  cmsg_level : Int
  cmsg_type : Int
  data : List Int
deriving DecidableEq, Repr

/-- What a `recvmsg` call is given: where in the buffer the `iovec` starts, its length,
and the room for control data. -/
structure RecvRequest where
  offset : Nat
  iov_len : Nat
  msg_controllen : Nat
deriving DecidableEq, Repr

/-- What a `recvmsg` call yields: its return value, `errno`, the bytes stored at the
start of the `iovec`, whether `MSG_CTRUNC` is set in `msg_flags`, and the first
control block if there is one. -/
structure RecvResult where
  result : Int
  errno : Int
  received : List Nat
  ctrunc : Bool
  control : Option cmsghdr
deriving DecidableEq, Repr

/-- The caller's `buffer` and `fds` together with the local counters of `receive_data`. -/
structure ReceiveState where
  buffer : List Nat
  fds : List Int
  bytes_read : Nat
  fds_read : Nat
deriving DecidableEq, Repr

/-- What `receive_data` leaves: the socket, the caller's memory and the counters, the
`recvmsg` calls made in order, and whether it returned or which exception left it. -/
structure ReceiveOutcome (σ : Type) where
  socket : σ
  state : ReceiveState
  calls : List (RecvRequest × RecvResult)
  result : Except ReceiveError Unit

/-- The `socket_error_is_transient` (lines 100-103). -/
def socket_error_is_transient (error_code : Int) : Bool := decide (error_code = EINTR)

/-- The `fds_bytes` of line 123: `(fds.size() - fds_read) * sizeof(int)` in `size_t`. -/
def fds_bytes (st : ReceiveState) : Nat :=
  to_size_t ((to_size_t ((st.fds.length : Int) - st.fds_read) : Int) * sizeof_int)

/-- The `recvmsg` call of an iteration (lines 116-142): the `iovec` starts at
`buffer + bytes_read` and is `bytes_requested - bytes_read` long, the control buffer
is `CMSG_SPACE(fds_bytes)` long. -/
def recv_request (bytes_requested : Nat) (st : ReceiveState) : RecvRequest :=
  { offset := st.bytes_read, iov_len := bytes_requested - st.bytes_read,
    msg_controllen := CMSG_SPACE (fds_bytes st) }

/-- The kernel stores the received bytes in the buffer from `offset` on. -/
def store_bytes (buffer : List Nat) (offset : Nat) (received : List Nat) : List Nat :=
  buffer.take offset ++ received ++ buffer.drop (offset + received.length)

/-- The copy loop of lines 195-199, with `count` iterations to go from index `i`:
`fds[fds_read + i] = data[i]`. An index outside `fds` writes nothing here, and an
index outside `data` reads 0. -/
def copy_fds (data : List Int) (fds_read : Nat) : Nat → Nat → List Int → List Int
  | 0, _, fds => fds
  | count + 1, i, fds =>
    copy_fds data fds_read count (i + 1)
      (fds.set (to_unsigned ((fds_read : Int) + i)) (data.getD i 0))

/-- The `nfds` of line 188: `(cmsg->cmsg_len - header_size) / sizeof(int)`, computed in
`size_t` and stored in an `int`. -/
def nfds_of (cmsg : cmsghdr) : Int :=
  to_int ((to_size_t ((cmsg.cmsg_len : Int) - cmsg_header_size) / sizeof_int : Nat) : Int)

/-- The body of the loop of `receive_data` from the return of `recvmsg` on (lines
144-202): the state it leaves, and the exception if it throws. Without an exception
the loop goes on to test its condition. -/
def receive_iteration (st : ReceiveState) (r : RecvResult) : ReceiveState × Option ReceiveError :=
  if r.result = 0 then (st, some (ReceiveError.socket_disconnected_error r.errno))
  else if r.result < 0 then
    if socket_error_is_transient r.errno then (st, none)
    else if r.errno = EPIPE then (st, some (ReceiveError.socket_disconnected_error r.errno))
    else (st, some (ReceiveError.socket_error r.errno))
  else
    let st1 := { st with buffer := store_bytes st.buffer st.bytes_read r.received,
                         bytes_read := to_size_t ((st.bytes_read : Int) + r.result) }
    match r.control with
    | none => (st1, none)
    | some cmsg =>
      if cmsg.cmsg_level ≠ SOL_SOCKET ∨ cmsg.cmsg_type ≠ SCM_RIGHTS then
        (st1, some ReceiveError.fd_reception_error)
      else if cmsg.cmsg_len > CMSG_LEN (fds_bytes st) ∨ r.ctrunc = true then
        (st1, some ReceiveError.received_more_fds)
      else
        ({ st1 with fds := copy_fds cmsg.data st.fds_read (nfds_of cmsg).toNat 0 st.fds,
                    fds_read := to_unsigned ((st.fds_read : Int) + nfds_of cmsg) }, none)

/-- An outcome with one more `recvmsg` call in front of its calls. -/
def ReceiveOutcome.after_call {σ : Type} (call : RecvRequest × RecvResult)
    (o : ReceiveOutcome σ) : ReceiveOutcome σ :=
  { o with calls := call :: o.calls }

/-- The `while (bytes_read < bytes_requested)` loop of `receive_data` (lines 113-204).
The socket is a state `σ` with the function `recvmsg` that answers a call and moves
the state on. At most `fuel` calls of `recvmsg` are made; `none` means the loop is
still running after them. The result is `ok` when the loop condition ended it. -/
def receive_loop {σ : Type} (recvmsg : σ → RecvRequest → RecvResult × σ)
    (bytes_requested : Nat) : Nat → σ → ReceiveState → Option (ReceiveOutcome σ)
  | 0, socket, st =>
    if st.bytes_read < bytes_requested then none
    else some { socket := socket, state := st, calls := [], result := Except.ok () }
  | fuel + 1, socket, st =>
    if st.bytes_read < bytes_requested then
      let answer := recvmsg socket (recv_request bytes_requested st)
      match receive_iteration st answer.1 with
      | (st1, some e) =>
        some { socket := answer.2, state := st1,
               calls := [(recv_request bytes_requested st, answer.1)],
               result := Except.error e }
      | (st1, none) =>
        (receive_loop recvmsg bytes_requested fuel answer.2 st1).map
          (ReceiveOutcome.after_call (recv_request bytes_requested st, answer.1))
    else some { socket := socket, state := st, calls := [], result := Except.ok () }

/-- The `receive_data` (lines 105-209), with at most `fuel` calls of `recvmsg`. -/
def receive_data {σ : Type} (recvmsg : σ → RecvRequest → RecvResult × σ) (fuel : Nat)
    (socket : σ) (buffer : List Nat) (bytes_requested : Nat) (fds : List Int) :
    Option (ReceiveOutcome σ) :=
  if bytes_requested = 0 then
    some { socket := socket,
           state := { buffer := buffer, fds := fds, bytes_read := 0, fds_read := 0 },
           calls := [], result := Except.error ReceiveError.logic_error }
  else
    match receive_loop recvmsg bytes_requested fuel socket
        { buffer := buffer, fds := fds, bytes_read := 0, fds_read := 0 } with
    | none => none
    | some o =>
      match o.result with
      | Except.error _ => some o
      | Except.ok _ =>
        if o.state.fds_read < o.state.fds.length then
          some { o with result := Except.error ReceiveError.received_fewer_fds }
        else some o

/-! ## Vocabulary of the properties, and concrete inputs -/

/-- A socket whose answers are written down in advance: each `recvmsg` call takes the
next answer whatever it asks for, and once they are used up the peer has shut down
(the call returns 0). -/
def scripted_recvmsg : List RecvResult → RecvRequest → RecvResult × List RecvResult
  | [], _ => ({ result := 0, errno := 0, received := [], ctrunc := false, control := none }, [])
  | answer :: rest, _ => (answer, rest)

/-- A rights block as the kernel builds it for the descriptors `fds`. -/
def rights_block (fds : List Int) : cmsghdr :=
  { cmsg_len := CMSG_LEN (sizeof_int * fds.length), cmsg_level := SOL_SOCKET,
    cmsg_type := SCM_RIGHTS, data := fds }

/-- An answer that delivers the bytes `received` and no control block. -/
def bytes_answer (received : List Nat) : RecvResult :=
  { result := received.length, errno := 0, received := received, ctrunc := false,
    control := none }

/-- An answer that delivers the bytes `received` and a rights block with `fds`. -/
def rights_answer (received : List Nat) (fds : List Int) : RecvResult :=
  { result := received.length, errno := 0, received := received, ctrunc := false,
    control := some (rights_block fds) }

/-- An answer of a failed call: the return value -1 and the given `errno`. -/
def failed_answer (errno : Int) : RecvResult :=
  { result := -1, errno := errno, received := [], ctrunc := false, control := none }

/-- The descriptors that an answer of `recvmsg` delivers: those of its control block
when the call succeeded and there is a block, none otherwise. -/
def RecvResult.descriptors (r : RecvResult) : List Int :=
  if 0 < r.result then
    match r.control with
    | some cmsg => cmsg.data
    | none => []
  else []

/-- The descriptors of the control blocks that the successful `recvmsg` calls
delivered, in arrival order. -/
def descriptors_received : List (RecvRequest × RecvResult) → List Int
  | [] => []
  | call :: rest => call.2.descriptors ++ descriptors_received rest

/-- The control block of an answer, if any, has the length the kernel gives a block
that holds its descriptors: the header and `sizeof(int)` for each. -/
def RecvResult.kernel_made (r : RecvResult) : Bool :=
  match r.control with
  | some cmsg => decide (cmsg.cmsg_len = cmsg_header_size + sizeof_int * cmsg.data.length)
  | none => true

/-- A loop state in the middle of a call: 2 of 4 bytes read, 1 of 3 descriptors. -/
def state_midway : ReceiveState :=
  { buffer := [104, 105, 0, 0], fds := [5, 0, 0], bytes_read := 2, fds_read := 1 }

/-- A script that delivers 2 bytes with the descriptors 5 and 6. -/
def script_two_fds : List RecvResult := [rights_answer [104, 105] [5, 6]]

/-- A script with an interrupted call, then 1 byte without control block, then 1 byte
with the descriptors 5 and 6, then 1 byte with the descriptor 7. -/
def script_in_pieces : List RecvResult :=
  [failed_answer EINTR, bytes_answer [104], rights_answer [105] [5, 6], rights_answer [106] [7]]

/-- An answer that delivers the bytes `received` and a credentials block: level
SOL_SOCKET, type SCM_CREDENTIALS, and the three `int`s (pid, uid, gid) of a
`struct ucred` as data. -/
def credentials_answer (received : List Nat) : RecvResult :=
  { result := received.length, errno := 0, received := received, ctrunc := false,
    control := some { cmsg_len := CMSG_LEN (sizeof_int * 3), cmsg_level := SOL_SOCKET,
                      cmsg_type := SCM_CREDENTIALS, data := [1000, 32011, 32011] } }

/-- The bytes that the successful `recvmsg` calls stored, in arrival order. -/
def bytes_received : List (RecvRequest × RecvResult) → List Nat
  | [] => []
  | call :: rest => (if 0 < call.2.result then call.2.received else []) ++ bytes_received rest

/-- A `recvmsg` call that kept to what it was given: its return value is at most the
length of the `iovec`, and a positive return value is the number of bytes stored. -/
def within_request (call : RecvRequest × RecvResult) : Bool :=
  decide (call.2.result ≤ call.1.iov_len ∧
    (call.2.result ≤ 0 ∨ (call.2.received.length : Int) = call.2.result))

/-- A loop state with nothing read yet: 2 descriptor slots. -/
def state_two_slots : ReceiveState :=
  { buffer := [0, 0], fds := [0, 0], bytes_read := 0, fds_read := 0 }

/-! ## Sending -/

/-- The exception that leaves `send_fds`: the `std::runtime_error` of line 96, whose
text is "Failed to send fds: " followed by `strerror(errno)`. -/
inductive SendError where
  | failed_to_send (errno : Int)
deriving DecidableEq, Repr

/-- What `sendmsg` is given (lines 56-89): the bytes of the one `iovec`, the
`msg_controllen`, and the control block at `CMSG_FIRSTHDR`. -/
structure SendRequest where
  iov : List Nat
  msg_controllen : Nat
  control : cmsghdr
deriving DecidableEq, Repr

/-- What a `sendmsg` call yields: its return value and `errno`. -/
structure SendResult where
  sent : Int
  errno : Int
deriving DecidableEq, Repr

/-- What `send_fds` leaves: the socket, the `sendmsg` calls made in order (each with
the message it was given), and whether it returned or which exception left it. -/
structure SendOutcome (σ : Type) where
  socket : σ
  calls : List (SendRequest × SendResult)
  result : Except SendError Unit

/-- The message that `send_fds` builds for a non-empty `fds` (lines 56-87): the dummy
data 'o', 'p', a control buffer of `CMSG_SPACE(fds_bytes)` bytes, and in it one block
of `CMSG_LEN(fds_bytes)` bytes, level SOL_SOCKET, type SCM_RIGHTS, with the
descriptors in the order of `fds`. -/
def send_request (fds : List Int) : SendRequest :=
  { iov := [111, 112],
    msg_controllen := CMSG_SPACE (to_size_t ((fds.length : Int) * sizeof_int)),
    control := { cmsg_len := CMSG_LEN (to_size_t ((fds.length : Int) * sizeof_int)),
                 cmsg_level := SOL_SOCKET, cmsg_type := SCM_RIGHTS, data := fds } }

/-- The `send_fds` (lines 49-98). The socket is a state `σ` with the function
`sendmsg` that answers a call and moves the state on. -/
def send_fds {σ : Type} (sendmsg : σ → SendRequest → SendResult × σ) (socket : σ)
    (fds : List Int) : SendOutcome σ :=
  if fds.length > 0 then
    let answer := sendmsg socket (send_request fds)
    if answer.1.sent < 0 then
      { socket := answer.2, calls := [(send_request fds, answer.1)],
        result := Except.error (SendError.failed_to_send answer.1.errno) }
    else
      { socket := answer.2, calls := [(send_request fds, answer.1)], result := Except.ok () }
  else { socket := socket, calls := [], result := Except.ok () }

/-! ## Sockets for sending, and a channel -/

/-- A socket whose answers to `sendmsg` are written down in advance: each call takes
the next answer, and once they are used up every call sends its whole `iovec`. -/
def scripted_sendmsg : List SendResult → SendRequest → SendResult × List SendResult
  | [], header => ({ sent := header.iov.length, errno := 0 }, [])
  | answer :: rest, _ => (answer, rest)

/-- A message under way in the channel: its bytes and the descriptors passed with
them. A descriptor stands for the open file it refers to. -/
structure Message where
  payload : List Nat
  fds : List Int
deriving DecidableEq, Repr

/-- The sending end of a channel that delivers what was sent: the message, with the
bytes of the `iovec` and as many descriptors as `cmsg_len` announces, joins the
messages under way. -/
def channel_sendmsg (channel : List Message) (header : SendRequest) :
    SendResult × List Message :=
  ({ sent := header.iov.length, errno := 0 },
   channel ++ [{ payload := header.iov,
                 fds := header.control.data.take
                   ((header.control.cmsg_len - cmsg_header_size) / sizeof_int) }])

/-- The receiving end of the channel: a call takes bytes of the oldest message, as
many as the `iovec` holds, and its descriptors in a rights block, as many as the
control buffer has room for (MSG_CTRUNC is set when some do not fit). Bytes that the
`iovec` did not hold stay under way. With no message under way the peer has shut
down. -/
def channel_recvmsg : List Message → RecvRequest → RecvResult × List Message
  | [], _ => ({ result := 0, errno := 0, received := [], ctrunc := false, control := none }, [])
  | message :: rest, request =>
    ({ result := ((message.payload.take request.iov_len).length : Nat),
       errno := 0,
       received := message.payload.take request.iov_len,
       ctrunc := decide ((request.msg_controllen - cmsg_header_size) / sizeof_int <
         message.fds.length),
       control :=
         if message.fds.take ((request.msg_controllen - cmsg_header_size) / sizeof_int) = []
         then none
         else some (rights_block
           (message.fds.take ((request.msg_controllen - cmsg_header_size) / sizeof_int))) },
     if request.iov_len < message.payload.length then
       { payload := message.payload.drop request.iov_len, fds := [] } :: rest
     else rest)

end mir

/-! # Theorems -/

namespace mir.examples

/-- C1. The `handle_raise_surface(session, surface, t)` asks the policy exactly once
(its one call is `handle_raise_surface(session, surface)`, made on the unchanged state)
when `t >= last_input_event_timestamp`; when `t < last_input_event_timestamp` it makes no
call at all and leaves the controller state as it was. -/
theorem handle_raise_surface_gate {SessionInfo P : Type}
    (policy : WindowManagementPolicy SessionInfo P) (c : BasicWindowManagerCopy SessionInfo P)
    (session : Session) (surface : Surface) (t : Nat) :
    (c.last_input_event_timestamp ≤ t →
      (handle_raise_surface policy c session surface t).trace =
          [⟨Call.handle_raise_surface session surface, c⟩] ∧
        (handle_raise_surface policy c session surface t).state =
          c.after (policy.handle_raise_surface c session surface) ∧
        (handle_raise_surface policy c session surface t).result =
          (policy.handle_raise_surface c session surface).result) ∧
    (t < c.last_input_event_timestamp →
      (handle_raise_surface policy c session surface t).trace = [] ∧
        (handle_raise_surface policy c session surface t).state = c ∧
        (handle_raise_surface policy c session surface t).result = Except.ok ()) := by
  constructor
  · intro h
    have h1 : t ≥ c.last_input_event_timestamp := h
    simp [handle_raise_surface, h1]
  · intro h
    have h1 : ¬ t ≥ c.last_input_event_timestamp := Nat.not_le.mpr h
    simp [handle_raise_surface, h1]

/-- C1 at a concrete input: with the last input event at time 10, a raise request
stamped 10 reaches the policy once and one stamped 9 reaches nobody. -/
theorem handle_raise_surface_gate_witness :
    (handle_raise_surface quiet_policy controller_at_10 1 2 10).trace =
        [⟨Call.handle_raise_surface 1 2, controller_at_10⟩] ∧
      (handle_raise_surface quiet_policy controller_at_10 1 2 9).trace = [] ∧
      (handle_raise_surface quiet_policy controller_at_10 1 2 9).state = controller_at_10 :=
  ⟨((handle_raise_surface_gate quiet_policy controller_at_10 1 2 10).1 (by decide)).1,
   ((handle_raise_surface_gate quiet_policy controller_at_10 1 2 9).2 (by decide)).1,
   ((handle_raise_surface_gate quiet_policy controller_at_10 1 2 9).2 (by decide)).2.1⟩

/-! ## The display with the largest overlap -/

theorem as_int32_of_fits (v : Int) (h0 : -2147483648 ≤ v) (h1 : v < 2147483648) :
    as_int32 v = v := by
  unfold as_int32
  rw [Int.emod_eq_of_lt (by omega) (by omega)]
  omega

theorem overlap_area_nonneg (surface_rect display : Rectangle) :
    0 ≤ overlap_area surface_rect display := by
  unfold overlap_area Rectangle.intersection_with
  simp only
  split
  · rename_i h
    exact Int.mul_nonneg (Int.sub_nonneg.mpr (le_of_lt h.1)) (Int.sub_nonneg.mpr (le_of_lt h.2))
  · simp [default]

theorem active_display_overlap_loop_spec (surface_rect : Rectangle) (displays : List Rectangle) :
    ∀ (m : Int) (r : Rectangle), -1 ≤ m →
      (∀ d ∈ displays, overlap_area surface_rect d < 2147483648) →
      ((∀ d ∈ displays, overlap_area surface_rect d ≤ m) ∧
          active_display_overlap_loop surface_rect displays m r = r) ∨
      ∃ (i : Nat) (d : Rectangle), displays[i]? = some d ∧
        active_display_overlap_loop surface_rect displays m r = d ∧
        m < overlap_area surface_rect d ∧
        (∀ e ∈ displays, overlap_area surface_rect e ≤ overlap_area surface_rect d) ∧
        (∀ (j : Nat) (e : Rectangle), j < i → displays[j]? = some e →
          overlap_area surface_rect e < overlap_area surface_rect d) := by
  induction displays with
  | nil => intro m r _ _; left; simp [active_display_overlap_loop]
  | cons d rest ih =>
    intro m r hm hfit
    have hd0 := overlap_area_nonneg surface_rect d
    have hd1 := hfit d (List.mem_cons_self d rest)
    have hrest : ∀ e ∈ rest, overlap_area surface_rect e < 2147483648 :=
      fun e he => hfit e (List.mem_cons_of_mem d he)
    have hwrap : as_int32 ((surface_rect.intersection_with d).size.width *
        (surface_rect.intersection_with d).size.height) = overlap_area surface_rect d :=
      as_int32_of_fits _ (by unfold overlap_area at hd0; omega) hd1
    by_cases hgt : overlap_area surface_rect d > m
    · have hstep : active_display_overlap_loop surface_rect (d :: rest) m r =
          active_display_overlap_loop surface_rect rest (overlap_area surface_rect d) d := by
        simp only [active_display_overlap_loop, hwrap, hgt, if_true]
      right
      rcases ih (overlap_area surface_rect d) d (by omega) hrest with ⟨hall, hout⟩ | ⟨i, e, hi, hout, hlt, hmax, hfirst⟩
      · refine ⟨0, d, by simp, by rw [hstep, hout], hgt, ?_, ?_⟩
        · intro e he
          rcases List.mem_cons.mp he with rfl | he
          · exact le_refl _
          · exact hall e he
        · intro j e hj; omega
      · refine ⟨i + 1, e, by simpa using hi, by rw [hstep, hout], by omega, ?_, ?_⟩
        · intro e1 he1
          rcases List.mem_cons.mp he1 with rfl | he1
          · omega
          · exact hmax e1 he1
        · intro j e1 hj hje
          cases j with
          | zero =>
            simp at hje
            subst hje
            exact hlt
          | succ j => exact hfirst j e1 (by omega) (by simpa using hje)
    · have hstep : active_display_overlap_loop surface_rect (d :: rest) m r =
          active_display_overlap_loop surface_rect rest m r := by
        simp only [active_display_overlap_loop, hwrap, hgt, if_false]
      rcases ih m r hm hrest with ⟨hall, hout⟩ | ⟨i, e, hi, hout, hlt, hmax, hfirst⟩
      · left
        refine ⟨?_, by rw [hstep, hout]⟩
        intro e he
        rcases List.mem_cons.mp he with rfl | he
        · omega
        · exact hall e he
      · right
        refine ⟨i + 1, e, by simpa using hi, by rw [hstep, hout], hlt, ?_, ?_⟩
        · intro e1 he1
          rcases List.mem_cons.mp he1 with rfl | he1
          · omega
          · exact hmax e1 he1
        · intro j e1 hj hje
          cases j with
          | zero =>
            simp at hje
            subst hje
            omega
          | succ j => exact hfirst j e1 (by omega) (by simpa using hje)

/-- C2 (as amended). With a focused surface and a non-empty display list in which every
intersection area fits the C++ `int` it is computed in (is below 2^31), the
`active_display()` returns the display at the first index whose intersection area with
the surface's input bounds is the maximum over all displays: no display has a larger
area and every earlier display has a strictly smaller one (ties go to the earliest). -/
theorem active_display_largest_overlap {SessionInfo P : Type}
    (focus_controller : FocusController) (input_bounds : Surface → Rectangle)
    (c : BasicWindowManagerCopy SessionInfo P) (surface : Surface)
    (hfocus : focus_controller.focused_surface = some surface)
    (hne : c.displays ≠ [])
    (hfit : ∀ d ∈ c.displays, overlap_area (input_bounds surface) d < 2147483648) :
    ∃ (i : Nat) (d : Rectangle), c.displays[i]? = some d ∧
      active_display focus_controller input_bounds c = d ∧
      (∀ e ∈ c.displays,
        overlap_area (input_bounds surface) e ≤ overlap_area (input_bounds surface) d) ∧
      (∀ (j : Nat) (e : Rectangle), j < i → c.displays[j]? = some e →
        overlap_area (input_bounds surface) e < overlap_area (input_bounds surface) d) := by
  have hact : active_display focus_controller input_bounds c =
      active_display_overlap_loop (input_bounds surface) c.displays (-1) default := by
    simp [active_display, hfocus]
  rcases active_display_overlap_loop_spec (input_bounds surface) c.displays (-1) default
      (le_refl _) hfit with ⟨hall, _⟩ | ⟨i, d, hi, hout, _, hmax, hfirst⟩
  · exfalso
    cases hds : c.displays with
    | nil => exact hne hds
    | cons d rest =>
      have h1 := hall d (by rw [hds]; exact List.mem_cons_self d rest)
      have h2 := overlap_area_nonneg (input_bounds surface) d
      omega
  · exact ⟨i, d, hi, by rw [hact, hout], hmax, hfirst⟩

/-- C2 at the input of the claim: displays D1 = (0,0) 100x100 and D2 = (100,0) 100x100
in that order, input bounds (60,0) 80x100. Both areas are 4000 and D1 is returned. -/
theorem active_display_largest_overlap_witness :
    overlap_area bounds_60_0_80_100 display_1 = 4000 ∧
      overlap_area bounds_60_0_80_100 display_2 = 4000 ∧
      active_display focus_on_7 (fun _ => bounds_60_0_80_100) controller_two_displays =
        display_1 ∧
      ∃ (i : Nat) (d : Rectangle), controller_two_displays.displays[i]? = some d ∧
        active_display focus_on_7 (fun _ => bounds_60_0_80_100) controller_two_displays = d ∧
        (∀ e ∈ controller_two_displays.displays,
          overlap_area bounds_60_0_80_100 e ≤ overlap_area bounds_60_0_80_100 d) ∧
        (∀ (j : Nat) (e : Rectangle), j < i → controller_two_displays.displays[j]? = some e →
          overlap_area bounds_60_0_80_100 e < overlap_area bounds_60_0_80_100 d) :=
  ⟨by decide, by decide, by decide,
   active_display_largest_overlap focus_on_7 (fun _ => bounds_60_0_80_100)
     controller_two_displays 7 rfl (by decide) (by decide)⟩

/-- C2 as stated fails: with a 1x1 display first and a 65536x65536 display second, and
input bounds covering the larger one, the intersection areas are 1 and 2^32, yet the
`int` product of the second wraps to 0 and the 1x1 display is returned. -/
theorem active_display_largest_overlap_counterexample :
    active_display focus_on_7 (fun _ => display_huge) controller_tiny_huge = display_tiny ∧
      overlap_area display_huge display_tiny = 1 ∧
      overlap_area display_huge display_huge = 4294967296 ∧
      ¬ (∀ e ∈ controller_tiny_huge.displays,
          overlap_area display_huge e ≤ overlap_area display_huge
            (active_display focus_on_7 (fun _ => display_huge) controller_tiny_huge)) := by
  refine ⟨by decide, by decide, by decide, ?_⟩
  intro h
  have h1 := h display_huge (by decide)
  revert h1
  decide

/-! ## The display under the cursor -/

theorem active_display_cursor_loop_first (cursor : Point) (displays : List Rectangle) :
    ∀ (i : Nat) (d : Rectangle), displays[i]? = some d → d.contains cursor = true →
      (∀ (j : Nat) (e : Rectangle), j < i → displays[j]? = some e → e.contains cursor = false) →
      active_display_cursor_loop cursor displays = some d := by
  induction displays with
  | nil => intro i d hi; simp at hi
  | cons x rest ih =>
    intro i d hi hd hbefore
    cases i with
    | zero =>
      simp at hi
      subst hi
      simp [active_display_cursor_loop, hd]
    | succ i =>
      have hx : x.contains cursor = false := hbefore 0 x (by omega) (by simp)
      have hi1 : rest[i]? = some d := by simpa using hi
      have := ih i d hi1 hd (fun j e hj hje => hbefore (j + 1) e (by omega) (by simpa using hje))
      simp [active_display_cursor_loop, hx, this]

theorem active_display_cursor_loop_none (cursor : Point) (displays : List Rectangle)
    (h : ∀ d ∈ displays, d.contains cursor = false) :
    active_display_cursor_loop cursor displays = none := by
  induction displays with
  | nil => rfl
  | cons x rest ih =>
    have hx : x.contains cursor = false := h x (List.mem_cons_self x rest)
    simp [active_display_cursor_loop, hx, ih (fun d hd => h d (List.mem_cons_of_mem x hd))]

/-- C3. When no surface is focused, `active_display()` returns the first display in
iteration order that contains the cursor (the display at an index where it contains
the cursor and no earlier display does); when no display contains the cursor it returns
the first entry of a non-empty display set; when there is no display it returns the
default constructed rectangle. -/
theorem active_display_without_focus {SessionInfo P : Type}
    (focus_controller : FocusController) (input_bounds : Surface → Rectangle)
    (c : BasicWindowManagerCopy SessionInfo P)
    (hfocus : focus_controller.focused_surface = none) :
    (∀ (i : Nat) (d : Rectangle), c.displays[i]? = some d → d.contains c.cursor = true →
      (∀ (j : Nat) (e : Rectangle), j < i → c.displays[j]? = some e →
        e.contains c.cursor = false) →
      active_display focus_controller input_bounds c = d) ∧
    ((∀ d ∈ c.displays, d.contains c.cursor = false) →
      ∀ (first : Rectangle) (rest : List Rectangle), c.displays = first :: rest →
        active_display focus_controller input_bounds c = first) ∧
    (c.displays = [] → active_display focus_controller input_bounds c = default) := by
  refine ⟨?_, ?_, ?_⟩
  · intro i d hi hd hbefore
    simp [active_display, hfocus,
      active_display_cursor_loop_first c.cursor c.displays i d hi hd hbefore]
  · intro hnone first rest hds
    have hloop := active_display_cursor_loop_none c.cursor c.displays hnone
    rw [hds] at hloop
    simp only [active_display, hfocus, hds, hloop]
  · intro hds
    simp [active_display, hfocus, hds, active_display_cursor_loop]

/-- C3 at concrete inputs: with displays D1, D2 and nothing focused, a cursor at
(150, 50) gives D2, a cursor at (500, 500) gives the first display D1, and with no
display at all the default rectangle is returned. -/
theorem active_display_without_focus_witness :
    active_display focus_on_nothing (fun _ => default) controller_cursor_in_2 = display_2 ∧
      active_display focus_on_nothing (fun _ => default) controller_cursor_outside = display_1 ∧
      active_display focus_on_nothing (fun _ => default)
        (BasicWindowManagerCopy.initial Unit Unit) = default :=
  ⟨(active_display_without_focus focus_on_nothing (fun _ => default) controller_cursor_in_2
      rfl).1 1 display_2 (by decide) (by decide) (by
        intro j e hj hje
        have hj0 : j = 0 := by omega
        subst hj0
        have he : e = display_1 := by
          have : controller_cursor_in_2.displays[0]? = some display_1 := by decide
          rw [this] at hje
          exact (Option.some.inj hje).symm
        subst he
        decide),
   (active_display_without_focus focus_on_nothing (fun _ => default) controller_cursor_outside
      rfl).2.1 (by decide) display_1 [display_2] rfl,
   (active_display_without_focus focus_on_nothing (fun _ => default)
      (BasicWindowManagerCopy.initial Unit Unit) rfl).2.2 rfl⟩

/-! ## The surface set -/

theorem SurfaceSet.mem_insert (set : SurfaceSet) (s x : Surface) :
    x ∈ SurfaceSet.insert set s ↔ x = s ∨ x ∈ set := by
  induction set with
  | nil => simp [SurfaceSet.insert]
  | cons y rest ih =>
    unfold SurfaceSet.insert
    split
    · simp
    · split
      · rename_i h1 h2
        subst h2
        simp
      · simp only [List.mem_cons, ih]
        tauto

theorem SurfaceSet.sorted_insert (set : SurfaceSet) (s : Surface)
    (h : set.Pairwise (· < ·)) : (SurfaceSet.insert set s).Pairwise (· < ·) := by
  induction set with
  | nil => simp [SurfaceSet.insert]
  | cons y rest ih =>
    have hy := (List.pairwise_cons.mp h).1
    have hrest := (List.pairwise_cons.mp h).2
    unfold SurfaceSet.insert
    split
    · rename_i hlt
      refine List.pairwise_cons.mpr ⟨?_, h⟩
      intro z hz
      rcases List.mem_cons.mp hz with rfl | hz
      · exact hlt
      · exact lt_trans hlt (hy z hz)
    · split
      · exact h
      · rename_i h1 h2
        refine List.pairwise_cons.mpr ⟨?_, ih hrest⟩
        intro z hz
        rcases (SurfaceSet.mem_insert rest s z).mp hz with hz | hz
        · show y < z
          rw [hz]
          exact lt_of_le_of_ne (Nat.le_of_not_lt h1) (fun h => h2 h.symm)
        · exact hy z hz

theorem SurfaceSet.mem_insert_range (range : List Surface) :
    ∀ (set : SurfaceSet) (x : Surface),
      x ∈ SurfaceSet.insert_range set range ↔ x ∈ range ∨ x ∈ set := by
  induction range with
  | nil => intro set x; simp [SurfaceSet.insert_range]
  | cons y rest ih =>
    intro set x
    have h := ih (SurfaceSet.insert set y) x
    unfold SurfaceSet.insert_range at h ⊢
    rw [List.foldl_cons, h, SurfaceSet.mem_insert, List.mem_cons]
    tauto

theorem SurfaceSet.sorted_insert_range (range : List Surface) :
    ∀ (set : SurfaceSet), set.Pairwise (· < ·) →
      (SurfaceSet.insert_range set range).Pairwise (· < ·) := by
  induction range with
  | nil => intro set h; simpa [SurfaceSet.insert_range] using h
  | cons y rest ih =>
    intro set h
    have := ih (SurfaceSet.insert set y) (SurfaceSet.sorted_insert set y h)
    unfold SurfaceSet.insert_range at this ⊢
    rw [List.foldl_cons]
    exact this

/-! ## The walk over the children -/

theorem HandleMap.mem_keys_of_at {V : Type} (m : HandleMap V) (key : Nat) (v : V)
    (h : HandleMap.at m key = some v) : key ∈ HandleMap.keys m := by
  induction m with
  | nil => simp [HandleMap.at] at h
  | cons e rest ih =>
    obtain ⟨k, w⟩ := e
    unfold HandleMap.at at h
    by_cases hk : k = key
    · simp [HandleMap.keys, hk]
    · simp only [hk, if_false] at h
      have := ih h
      simp only [HandleMap.keys, List.map_cons, List.mem_cons] at this ⊢
      exact Or.inr this

theorem transGen_child_iff {SessionInfo P : Type} (c : BasicWindowManagerCopy SessionInfo P)
    (s x : Surface) (info : SurfaceInfo P) (h : c.surface_info.at s = some info) :
    Relation.TransGen (IsChild c) s x ↔
      x ∈ info.children ∨ ∃ child ∈ info.children, Relation.TransGen (IsChild c) child x := by
  rw [Relation.TransGen.head'_iff]
  constructor
  · rintro ⟨b, ⟨info1, h1, hb⟩, hbx⟩
    rw [h] at h1
    cases h1
    rcases Relation.reflTransGen_iff_eq_or_transGen.mp hbx with rfl | hbx
    · exact Or.inl hb
    · exact Or.inr ⟨b, hb, hbx⟩
  · rintro (hx | ⟨child, hchild, hcx⟩)
    · exact ⟨x, ⟨info, h, hx⟩, Relation.ReflTransGen.refl⟩
    · exact ⟨child, ⟨info, h, hchild⟩, hcx.to_reflTransGen⟩

theorem for_each_child_ok (f : Surface → SurfaceSet → Option (Except Error SurfaceSet))
    (D : Surface → Surface → Prop) (children : List Surface)
    (hf : ∀ child ∈ children, ∀ (set out : SurfaceSet), f child set = some (Except.ok out) →
      (∀ x, x ∈ out ↔ x ∈ set ∨ D child x) ∧ (set.Pairwise (· < ·) → out.Pairwise (· < ·))) :
    ∀ (set out : SurfaceSet), for_each_child f children set = some (Except.ok out) →
      (∀ x, x ∈ out ↔ x ∈ set ∨ ∃ child ∈ children, D child x) ∧
        (set.Pairwise (· < ·) → out.Pairwise (· < ·)) := by
  induction children with
  | nil =>
    intro set out h
    simp only [for_each_child, Option.some.injEq, Except.ok.injEq] at h
    subst h
    simp
  | cons child rest ih =>
    intro set out h
    unfold for_each_child at h
    cases hfc : f child set with
    | none => simp [hfc] at h
    | some r =>
      cases r with
      | error e => simp [hfc] at h
      | ok mid =>
        simp only [hfc] at h
        have h1 := hf child (List.mem_cons_self child rest) set mid hfc
        have h2 := ih (fun ch hch => hf ch (List.mem_cons_of_mem child hch)) mid out h
        refine ⟨?_, fun hs => h2.2 (h1.2 hs)⟩
        intro x
        rw [h2.1 x, h1.1 x]
        simp only [List.mem_cons, exists_eq_or_imp]
        tauto

theorem for_each_child_isSome (f : Surface → SurfaceSet → Option (Except Error SurfaceSet))
    (children : List Surface)
    (hf : ∀ child ∈ children, ∀ (set : SurfaceSet), (f child set).isSome = true) :
    ∀ (set : SurfaceSet), (for_each_child f children set).isSome = true := by
  induction children with
  | nil => intro set; rfl
  | cons child rest ih =>
    intro set
    unfold for_each_child
    have h1 := hf child (List.mem_cons_self child rest) set
    cases hfc : f child set with
    | none => simp [hfc] at h1
    | some r =>
      cases r with
      | error e => rfl
      | ok mid => exact ih (fun ch hch => hf ch (List.mem_cons_of_mem child hch)) mid

theorem for_each_child_no_error (f : Surface → SurfaceSet → Option (Except Error SurfaceSet))
    (children : List Surface)
    (hf : ∀ child ∈ children, ∀ (set : SurfaceSet) (e : Error),
      f child set ≠ some (Except.error e)) :
    ∀ (set : SurfaceSet) (e : Error),
      for_each_child f children set ≠ some (Except.error e) := by
  induction children with
  | nil => intro set e; simp [for_each_child]
  | cons child rest ih =>
    intro set e
    unfold for_each_child
    cases hfc : f child set with
    | none => simp
    | some r =>
      cases r with
      | error e1 => exact absurd hfc (hf child (List.mem_cons_self child rest) set e1)
      | ok mid => exact ih (fun ch hch => hf ch (List.mem_cons_of_mem child hch)) mid e

theorem add_children_ok {SessionInfo P : Type} (c : BasicWindowManagerCopy SessionInfo P)
    (depth : Nat) :
    ∀ (s : Surface) (set out : SurfaceSet), add_children c depth s set = some (Except.ok out) →
      (∀ x, x ∈ out ↔ x ∈ set ∨ Relation.TransGen (IsChild c) s x) ∧
        (set.Pairwise (· < ·) → out.Pairwise (· < ·)) := by
  induction depth with
  | zero => intro s set out h; simp [add_children] at h
  | succ depth ih =>
    intro s set out h
    unfold add_children info_for_surface at h
    cases hat : c.surface_info.at s with
    | none => simp [hat] at h
    | some info =>
      simp only [hat] at h
      have h1 := for_each_child_ok (add_children c depth) (Relation.TransGen (IsChild c))
        info.children (fun child _ => ih child) _ out h
      refine ⟨?_, fun hs => h1.2 (SurfaceSet.sorted_insert_range info.children set hs)⟩
      intro x
      rw [h1.1 x, SurfaceSet.mem_insert_range, transGen_child_iff c s x info hat]
      tauto

theorem add_children_no_error {SessionInfo P : Type} (c : BasicWindowManagerCopy SessionInfo P)
    (depth : Nat) :
    ∀ (s : Surface) (set : SurfaceSet) (e : Error),
      (∀ x, Relation.ReflTransGen (IsChild c) s x → ∃ info, c.surface_info.at x = some info) →
      add_children c depth s set ≠ some (Except.error e) := by
  induction depth with
  | zero => intro s set e _; simp [add_children]
  | succ depth ih =>
    intro s set e hentries
    obtain ⟨info, hat⟩ := hentries s Relation.ReflTransGen.refl
    unfold add_children info_for_surface
    simp only [hat]
    apply for_each_child_no_error
    intro child hchild set1 e1
    exact ih child set1 e1 (fun x hx =>
      hentries x (Relation.ReflTransGen.head ⟨info, hat, hchild⟩ hx))

theorem add_children_terminates {SessionInfo P : Type} (c : BasicWindowManagerCopy SessionInfo P)
    (root : Surface)
    (hacyclic : ∀ s, Relation.ReflTransGen (IsChild c) root s →
      ¬ Relation.TransGen (IsChild c) s s) (k : Nat) :
    ∀ (ancestors : List Surface), ancestors.Nodup →
      (∀ a ∈ ancestors, a ∈ HandleMap.keys c.surface_info) →
      c.surface_info.length ≤ k + ancestors.length →
      ∀ (s : Surface), Relation.ReflTransGen (IsChild c) root s →
        (∀ a ∈ ancestors, Relation.TransGen (IsChild c) a s) →
        ∀ (set : SurfaceSet), (add_children c (k + 1) s set).isSome = true := by
  induction k with
  | zero =>
    intro ancestors hnodup hkeys hlen s hroot hanc set
    unfold add_children info_for_surface
    cases hat : c.surface_info.at s with
    | none => rfl
    | some info =>
      exfalso
      have hs : s ∈ HandleMap.keys c.surface_info := HandleMap.mem_keys_of_at _ s info hat
      have hnot : s ∉ ancestors := fun hmem => hacyclic s hroot (hanc s hmem)
      have hsub : (s :: ancestors) ⊆ HandleMap.keys c.surface_info := by
        intro y hy
        rcases List.mem_cons.mp hy with rfl | hy
        · exact hs
        · exact hkeys y hy
      have hle := (List.subperm_of_subset (List.nodup_cons.mpr ⟨hnot, hnodup⟩) hsub).length_le
      simp only [HandleMap.keys, List.length_cons, List.length_map] at hle
      omega
  | succ k ih =>
    intro ancestors hnodup hkeys hlen s hroot hanc set
    unfold add_children info_for_surface
    cases hat : c.surface_info.at s with
    | none => rfl
    | some info =>
      simp only
      have hs : s ∈ HandleMap.keys c.surface_info := HandleMap.mem_keys_of_at _ s info hat
      have hnot : s ∉ ancestors := fun hmem => hacyclic s hroot (hanc s hmem)
      apply for_each_child_isSome
      intro child hchild set1
      have hstep : IsChild c s child := ⟨info, hat, hchild⟩
      apply ih (s :: ancestors) (List.nodup_cons.mpr ⟨hnot, hnodup⟩)
      · intro y hy
        rcases List.mem_cons.mp hy with rfl | hy
        · exact hs
        · exact hkeys y hy
      · simp only [List.length_cons]
        omega
      · exact hroot.trans (Relation.ReflTransGen.single hstep)
      · intro a ha
        rcases List.mem_cons.mp ha with rfl | ha
        · exact Relation.TransGen.single hstep
        · exact (hanc a ha).tail hstep

theorem acyclic_of_increasing {SessionInfo P : Type} (c : BasicWindowManagerCopy SessionInfo P)
    (h : ∀ p ch, IsChild c p ch → p < ch) :
    ∀ s, ¬ Relation.TransGen (IsChild c) s s := by
  have hlt : ∀ a b, Relation.TransGen (IsChild c) a b → a < b := by
    intro a b hab
    induction hab with
    | single h1 => exact h _ _ h1
    | tail _ h2 ih => exact lt_trans ih (h _ _ h2)
  intro s hs
  exact lt_irrefl s (hlt s s hs)

theorem child_in_diamond (p ch : Nat) (h : IsChild controller_diamond p ch) :
    p < ch ∧ (ch = 2 ∨ ch = 3 ∨ ch = 4) := by
  obtain ⟨info, hat, hch⟩ := h
  simp only [controller_diamond, HandleMap.at] at hat
  split_ifs at hat with h1 h2 h3 h4
  all_goals
    cases hat
    simp only [info_with_children, List.mem_cons, List.mem_singleton, List.not_mem_nil,
      or_false] at hch <;>
    (rcases hch with rfl | rfl <;> subst_vars <;> decide)

theorem diamond_acyclic : ∀ s, ¬ Relation.TransGen (IsChild controller_diamond) s s :=
  acyclic_of_increasing controller_diamond (fun p ch h => (child_in_diamond p ch h).1)

theorem diamond_entries (s : Surface)
    (h : Relation.ReflTransGen (IsChild controller_diamond) 1 s) :
    ∃ info, controller_diamond.surface_info.at s = some info := by
  have hs : s = 1 ∨ s = 2 ∨ s = 3 ∨ s = 4 := by
    rcases Relation.reflTransGen_iff_eq_or_transGen.mp h with rfl | h
    · exact Or.inl rfl
    · obtain ⟨b, _, hb⟩ := Relation.TransGen.tail'_iff.mp h
      exact Or.inr (child_in_diamond b s hb).2
  rcases hs with rfl | rfl | rfl | rfl <;> exact ⟨_, rfl⟩

theorem add_children_self_child (depth : Nat) :
    ∀ (set : SurfaceSet), add_children controller_self_child depth 0 set = none := by
  induction depth with
  | zero => intro set; rfl
  | succ depth ih =>
    intro set
    have hat : info_for_surface controller_self_child 0 =
        Except.ok (info_with_children 0 [0]) := rfl
    unfold add_children
    simp only [hat, info_with_children, for_each_child, ih]

theorem add_children_two_cycle (depth : Nat) :
    ∀ (set : SurfaceSet), add_children controller_two_cycle depth 0 set = none ∧
      add_children controller_two_cycle depth 1 set = none := by
  induction depth with
  | zero => intro set; exact ⟨rfl, rfl⟩
  | succ depth ih =>
    intro set
    have hat0 : info_for_surface controller_two_cycle 0 =
        Except.ok (info_with_children 0 [1]) := rfl
    have hat1 : info_for_surface controller_two_cycle 1 =
        Except.ok (info_with_children 1 [0]) := rfl
    constructor
    · unfold add_children
      simp only [hat0, info_with_children, for_each_child, (ih _).2]
    · unfold add_children
      simp only [hat1, info_with_children, for_each_child, (ih _).1]

/-! ## Raising a tree of surfaces -/

/-- C4. For an acyclic children relation in which the root and all its descendants have
a `SurfaceInfo` entry, `raise_tree(root)` (with enough room for the recursion: deeper
than the number of entries) calls `FocusController::raise` exactly once, with a set
that has no duplicate and whose members are exactly the root and the surfaces
reachable from it through the children relation; every reachable surface occurs
exactly once, and when the root has no children the set is the singleton of root. -/
theorem raise_tree_raises_reachable {SessionInfo P : Type}
    (c : BasicWindowManagerCopy SessionInfo P) (root : Surface)
    (hacyclic : ∀ s, ¬ Relation.TransGen (IsChild c) s s)
    (hentries : ∀ s, Relation.ReflTransGen (IsChild c) root s →
      ∃ info, c.surface_info.at s = some info) :
    ∀ depth, c.surface_info.length < depth →
      ∃ surfaces : SurfaceSet,
        raise_tree depth c root =
          some { state := c, trace := [⟨Call.raise surfaces, c⟩], result := Except.ok () } ∧
        surfaces.Nodup ∧
        (∀ s, s ∈ surfaces ↔ Relation.ReflTransGen (IsChild c) root s) ∧
        (∀ s, Relation.ReflTransGen (IsChild c) root s → surfaces.count s = 1) ∧
        ((∀ info, c.surface_info.at root = some info → info.children = []) →
          surfaces = [root]) := by
  intro depth hdepth
  obtain ⟨k, rfl⟩ : ∃ k, depth = k + 1 := ⟨depth - 1, by omega⟩
  have hterm := add_children_terminates c root (fun s _ => hacyclic s) k [] List.nodup_nil
    (by simp) (by simp only [List.length_nil]; omega) root Relation.ReflTransGen.refl (by simp)
    (SurfaceSet.insert [] root)
  cases hrun : add_children c (k + 1) root (SurfaceSet.insert [] root) with
  | none => simp [hrun] at hterm
  | some r =>
    cases r with
    | error e => exact absurd hrun (add_children_no_error c (k + 1) root _ e hentries)
    | ok out =>
      have hok := add_children_ok c (k + 1) root _ out hrun
      have hsorted : out.Pairwise (· < ·) := hok.2 (by simp [SurfaceSet.insert])
      have hnodup : out.Nodup := hsorted.imp (fun h => ne_of_lt h)
      have hmem : ∀ s, s ∈ out ↔ Relation.ReflTransGen (IsChild c) root s := by
        intro s
        rw [hok.1 s, Relation.reflTransGen_iff_eq_or_transGen]
        simp [SurfaceSet.insert]
      refine ⟨out, by simp [raise_tree, hrun], hnodup, hmem, ?_, ?_⟩
      · intro s hs
        exact List.count_eq_one_of_mem hnodup ((hmem s).mpr hs)
      · intro hleaf
        obtain ⟨info, hat⟩ := hentries root Relation.ReflTransGen.refl
        have hnil := hleaf info hat
        have hrun1 : add_children c (k + 1) root (SurfaceSet.insert [] root) =
            some (Except.ok [root]) := by
          unfold add_children info_for_surface
          simp [hat, hnil, for_each_child, SurfaceSet.insert_range, SurfaceSet.insert]
        rw [hrun1] at hrun
        cases hrun
        rfl

/-- C4 at a concrete input: surface 1 has the children 2 and 3, which both have the
child 4. The one call of `raise` gets the set 1, 2, 3, 4: surface 4 occurs once. -/
theorem raise_tree_raises_reachable_witness :
    raise_tree 5 controller_diamond 1 =
        some { state := controller_diamond,
               trace := [⟨Call.raise [1, 2, 3, 4], controller_diamond⟩],
               result := Except.ok () } ∧
      ∃ surfaces : SurfaceSet,
        raise_tree 5 controller_diamond 1 =
          some { state := controller_diamond,
                 trace := [⟨Call.raise surfaces, controller_diamond⟩],
                 result := Except.ok () } ∧
        surfaces.Nodup ∧
        (∀ s, s ∈ surfaces ↔ Relation.ReflTransGen (IsChild controller_diamond) 1 s) ∧
        (∀ s, Relation.ReflTransGen (IsChild controller_diamond) 1 s → surfaces.count s = 1) ∧
        ((∀ info, controller_diamond.surface_info.at 1 = some info → info.children = []) →
          surfaces = [1]) :=
  ⟨rfl, raise_tree_raises_reachable controller_diamond 1 diamond_acyclic diamond_entries 5
    (by decide)⟩

theorem for_each_child_all_ok (f : Surface → SurfaceSet → Option (Except Error SurfaceSet))
    (children : List Surface) :
    ∀ (set out : SurfaceSet), for_each_child f children set = some (Except.ok out) →
      ∀ child ∈ children, ∃ set1 out1, f child set1 = some (Except.ok out1) := by
  induction children with
  | nil =>
    intro set out _ child hchild
    simp at hchild
  | cons first rest ih =>
    intro set out hrun child hchild
    unfold for_each_child at hrun
    cases hfirst : f first set with
    | none => simp [hfirst] at hrun
    | some r =>
      cases r with
      | error e => simp [hfirst] at hrun
      | ok set1 =>
        simp only [hfirst] at hrun
        rcases List.mem_cons.mp hchild with rfl | hrest
        · exact ⟨set, set1, hfirst⟩
        · exact ih set1 out hrun child hrest

theorem add_children_ok_acyclic {SessionInfo P : Type}
    (c : BasicWindowManagerCopy SessionInfo P) (depth : Nat) :
    ∀ (s : Surface) (set out : SurfaceSet), add_children c depth s set = some (Except.ok out) →
      ∀ x, Relation.ReflTransGen (IsChild c) s x → ¬ Relation.TransGen (IsChild c) x x := by
  induction depth with
  | zero =>
    intro s set out hrun
    simp [add_children] at hrun
  | succ depth ih =>
    intro s set out hrun x hreach
    cases hat : c.surface_info.at s with
    | none => simp [add_children, info_for_surface, hat] at hrun
    | some info =>
      simp only [add_children, info_for_surface, hat] at hrun
      have hchild : ∀ child, IsChild c s child → ∀ y,
          Relation.ReflTransGen (IsChild c) child y → ¬ Relation.TransGen (IsChild c) y y := by
        intro child hch y hy
        obtain ⟨info1, hat1, hmem⟩ := hch
        rw [hat] at hat1
        cases hat1
        obtain ⟨set1, out1, hrun1⟩ := for_each_child_all_ok _ _ _ _ hrun child hmem
        exact ih child set1 out1 hrun1 y hy
      rcases Relation.ReflTransGen.cases_head hreach with rfl | ⟨child, hch, hrest⟩
      · intro hcycle
        obtain ⟨child, hch, hback⟩ := Relation.TransGen.head'_iff.mp hcycle
        exact hchild child hch _ hback hcycle
      · exact hchild child hch x hrest

theorem self_child_reachable (x : Surface)
    (h : Relation.ReflTransGen (IsChild controller_self_child) 0 x) : x = 0 := by
  induction h with
  | refl => rfl
  | tail _ hstep ih =>
    subst ih
    obtain ⟨info, hat, hmem⟩ := hstep
    have hinfo : info = info_with_children 0 [0] := by
      have h0 : controller_self_child.surface_info.at 0 = some (info_with_children 0 [0]) := rfl
      rw [h0] at hat
      exact (Option.some.inj hat).symm
    subst hinfo
    simpa [info_with_children] using hmem

/-- C5 (as amended). The walk of `raise_tree(root)` ends (with the call of `raise`, or
with the not-found exception) for every children relation stored in the surface map
in which no surface reachable from the root lies on a cycle: a recursion deeper than
the number of entries is never needed. There is no cycle check: when every surface
reachable from the root has an entry in the surface map and some reachable surface
lies on a cycle (it lists itself as a child, or the children form an indirect cycle),
the walk does not end, however deep the recursion may nest. -/
theorem raise_tree_terminates_iff_no_cycle {SessionInfo P : Type}
    (c : BasicWindowManagerCopy SessionInfo P) (root : Surface) :
    ((∀ s, Relation.ReflTransGen (IsChild c) root s → ¬ Relation.TransGen (IsChild c) s s) →
      ∀ depth, c.surface_info.length < depth → (raise_tree depth c root).isSome = true) ∧
    ((∀ x, Relation.ReflTransGen (IsChild c) root x → ∃ info, c.surface_info.at x = some info) →
      (∃ s, Relation.ReflTransGen (IsChild c) root s ∧ Relation.TransGen (IsChild c) s s) →
      ∀ depth, raise_tree depth c root = none) := by
  constructor
  · intro hacyclic depth hdepth
    obtain ⟨k, rfl⟩ : ∃ k, depth = k + 1 := ⟨depth - 1, by omega⟩
    have hterm := add_children_terminates c root hacyclic k [] List.nodup_nil
      (by simp) (by simp only [List.length_nil]; omega) root Relation.ReflTransGen.refl (by simp)
      (SurfaceSet.insert [] root)
    unfold raise_tree
    cases hrun : add_children c (k + 1) root (SurfaceSet.insert [] root) with
    | none => simp [hrun] at hterm
    | some r =>
      cases r with
      | error e => rfl
      | ok out => rfl
  · intro hentries hcycle depth
    obtain ⟨s, hreach, hloop⟩ := hcycle
    unfold raise_tree
    cases hrun : add_children c depth root (SurfaceSet.insert [] root) with
    | none => rfl
    | some r =>
      cases r with
      | error e => exact absurd hrun (add_children_no_error c depth root _ e hentries)
      | ok out => exact absurd hloop (add_children_ok_acyclic c depth root _ out hrun s hreach)

/-- C5 at concrete inputs: the walk over the acyclic relation 1 -> 2, 3 -> 4 ends;
the walk from surface 0, which has an entry and lists itself as its only child, never
ends; and the walk from a surface 0 that lists the children 5 and 0, where 5 has no
entry, ends with the not-found exception before the cycle is entered. -/
theorem raise_tree_terminates_iff_no_cycle_witness :
    (raise_tree 5 controller_diamond 1).isSome = true ∧
      (∀ depth, raise_tree depth controller_self_child 0 = none) ∧
      raise_tree 2 controller_self_child_after_missing 0 =
        some { state := controller_self_child_after_missing, trace := [],
               result := Except.error Error.out_of_range } :=
  ⟨(raise_tree_terminates_iff_no_cycle controller_diamond 1).1 (fun s _ => diamond_acyclic s) 5
    (by decide),
   (raise_tree_terminates_iff_no_cycle controller_self_child 0).2
    (fun x hx => ⟨info_with_children 0 [0], by rw [self_child_reachable x hx]; rfl⟩)
    ⟨0, Relation.ReflTransGen.refl,
      Relation.TransGen.single ⟨info_with_children 0 [0], rfl, by decide⟩⟩,
   rfl⟩

/-- C5 as stated fails: when surface 0, which has an entry, lists itself as its only
child, `raise_tree(0)` does not end however deep the recursion may nest; the same
holds when surfaces 0 and 1, both with an entry, list each other. -/
theorem raise_tree_cycle_counterexample :
    (¬ ∃ depth, (raise_tree depth controller_self_child 0).isSome = true) ∧
      (¬ ∃ depth, (raise_tree depth controller_two_cycle 0).isSome = true) := by
  constructor
  · rintro ⟨depth, h⟩
    simp [raise_tree, add_children_self_child depth] at h
  · rintro ⟨depth, h⟩
    simp [raise_tree, (add_children_two_cycle depth _).1] at h

/-! ## The session map -/

theorem HandleMap.keys_assign {V : Type} (m : HandleMap V) (key : Nat) (value : V) :
    HandleMap.keys (HandleMap.assign m key value) = SurfaceSet.insert (HandleMap.keys m) key := by
  induction m with
  | nil => rfl
  | cons e rest ih =>
    obtain ⟨k, v⟩ := e
    simp only [HandleMap.keys, List.map_cons] at ih ⊢
    unfold HandleMap.assign SurfaceSet.insert
    split
    · rfl
    · split
      · rename_i h1 h2
        simp [h2]
      · simp only [List.map_cons, ih]

theorem HandleMap.keys_emplace {V : Type} (m : HandleMap V) (key : Nat) (value : V) :
    HandleMap.keys (HandleMap.emplace m key value) = SurfaceSet.insert (HandleMap.keys m) key := by
  induction m with
  | nil => rfl
  | cons e rest ih =>
    obtain ⟨k, v⟩ := e
    simp only [HandleMap.keys, List.map_cons] at ih ⊢
    unfold HandleMap.emplace SurfaceSet.insert
    split
    · rfl
    · split
      · rfl
      · simp only [List.map_cons, ih]

theorem HandleMap.keys_erase {V : Type} (m : HandleMap V) (key : Nat) :
    HandleMap.keys (HandleMap.erase m key) =
      (HandleMap.keys m).filter (fun k => decide (k ≠ key)) := by
  simp only [HandleMap.keys, HandleMap.erase, List.filter_map]
  rfl

theorem HandleMap.erase_absent {V : Type} (m : HandleMap V) (key : Nat)
    (h : key ∉ HandleMap.keys m) : HandleMap.erase m key = m := by
  unfold HandleMap.erase
  apply List.filter_eq_self.mpr
  intro e he
  have : e.1 ≠ key := by
    intro hk
    apply h
    rw [← hk]
    exact List.mem_map_of_mem Prod.fst he
  simpa using this

theorem run_session_call_keys {SessionInfo P : Type} [Inhabited SessionInfo]
    (policy : WindowManagementPolicy SessionInfo P)
    (hkeep : ∀ c, HandleMap.keys (policy.handle_session_info_updated c).session_info =
      HandleMap.keys c.session_info)
    (c : BasicWindowManagerCopy SessionInfo P) (call : SessionCall) :
    HandleMap.keys (run_session_call policy c call).session_info =
      match call with
      | SessionCall.add_session session => SurfaceSet.insert (HandleMap.keys c.session_info) session
      | SessionCall.remove_session session =>
        (HandleMap.keys c.session_info).filter (fun k => decide (k ≠ session)) := by
  cases call with
  | add_session session =>
    simp only [run_session_call, add_session, BasicWindowManagerCopy.after, hkeep,
      HandleMap.keys_assign]
  | remove_session session =>
    simp only [run_session_call, remove_session, BasicWindowManagerCopy.after, hkeep,
      HandleMap.keys_erase]

theorem run_session_calls_sorted {SessionInfo P : Type} [Inhabited SessionInfo]
    (policy : WindowManagementPolicy SessionInfo P)
    (hkeep : ∀ c, HandleMap.keys (policy.handle_session_info_updated c).session_info =
      HandleMap.keys c.session_info)
    (calls : List SessionCall) :
    ∀ (c : BasicWindowManagerCopy SessionInfo P),
      (HandleMap.keys c.session_info).Pairwise (· < ·) →
      (HandleMap.keys (run_session_calls policy calls c).session_info).Pairwise (· < ·) := by
  induction calls with
  | nil => intro c h; exact h
  | cons call rest ih =>
    intro c h
    unfold run_session_calls
    rw [List.foldl_cons]
    apply ih
    rw [run_session_call_keys policy hkeep c call]
    cases call with
    | add_session session => exact SurfaceSet.sorted_insert _ session h
    | remove_session session => exact h.filter _

theorem run_session_calls_keys {SessionInfo P : Type} [Inhabited SessionInfo]
    (policy : WindowManagementPolicy SessionInfo P)
    (hkeep : ∀ c, HandleMap.keys (policy.handle_session_info_updated c).session_info =
      HandleMap.keys c.session_info)
    (s : Session) (calls : List SessionCall) :
    ∀ (c : BasicWindowManagerCopy SessionInfo P),
      s ∈ HandleMap.keys (run_session_calls policy calls c).session_info ↔
        (∃ before after, calls = before ++ SessionCall.add_session s :: after ∧
          SessionCall.remove_session s ∉ after) ∨
        (s ∈ HandleMap.keys c.session_info ∧ SessionCall.remove_session s ∉ calls) := by
  induction calls with
  | nil =>
    intro c
    simp [run_session_calls]
  | cons call rest ih =>
    intro c
    have hrun : run_session_calls policy (call :: rest) c =
        run_session_calls policy rest (run_session_call policy c call) := by
      simp [run_session_calls]
    rw [hrun, ih (run_session_call policy c call), run_session_call_keys policy hkeep c call]
    constructor
    · rintro (⟨before, after, hrest, hafter⟩ | ⟨hmem, hnot⟩)
      · exact Or.inl ⟨call :: before, after, by rw [hrest]; rfl, hafter⟩
      · cases call with
        | add_session t =>
          rcases (SurfaceSet.mem_insert _ t s).mp hmem with hst | hmem
          · exact Or.inl ⟨[], rest, by rw [hst]; rfl, hnot⟩
          · refine Or.inr ⟨hmem, ?_⟩
            intro h
            rcases List.mem_cons.mp h with h | h
            · cases h
            · exact hnot h
        | remove_session t =>
          have hmem1 := List.mem_filter.mp hmem
          have hne : s ≠ t := by simpa using hmem1.2
          refine Or.inr ⟨hmem1.1, ?_⟩
          intro h
          rcases List.mem_cons.mp h with h | h
          · cases h
            exact hne rfl
          · exact hnot h
    · rintro (⟨before, after, hcalls, hafter⟩ | ⟨hmem, hnot⟩)
      · cases before with
        | nil =>
          simp only [List.nil_append, List.cons.injEq] at hcalls
          obtain ⟨hcall, hrest⟩ := hcalls
          subst hcall hrest
          exact Or.inr ⟨(SurfaceSet.mem_insert _ s s).mpr (Or.inl rfl), hafter⟩
        | cons b before =>
          simp only [List.cons_append, List.cons.injEq] at hcalls
          exact Or.inl ⟨before, after, hcalls.2, hafter⟩
      · have hnot_rest : SessionCall.remove_session s ∉ rest :=
          fun h => hnot (List.mem_cons_of_mem call h)
        refine Or.inr ⟨?_, hnot_rest⟩
        cases call with
        | add_session t => exact (SurfaceSet.mem_insert _ t s).mpr (Or.inr hmem)
        | remove_session t =>
          have hne : s ≠ t := by
            intro h
            apply hnot
            rw [h]
            exact List.mem_cons_self _ _
          exact List.mem_filter.mpr ⟨hmem, by simpa using hne⟩

/-- C6 (as amended). The policy is handed the session map by reference and may change
it. For a policy whose `handle_session_info_updated` keeps the keys of the session
map it is handed, and every finite sequence of `add_session` and `remove_session`
calls made on the freshly constructed controller: a session is a key of the session
map exactly when some call added it and no later call removed it, and no key occurs
twice. Moreover `remove_session` of a session that is not a key erases nothing: the
policy is handed the controller state unchanged and the keys stay as they were. -/
theorem session_map_tracks_sessions {SessionInfo P : Type} [Inhabited SessionInfo]
    (policy : WindowManagementPolicy SessionInfo P)
    (hkeep : ∀ c, HandleMap.keys (policy.handle_session_info_updated c).session_info =
      HandleMap.keys c.session_info)
    (calls : List SessionCall) :
    (∀ s, s ∈ HandleMap.keys
          (run_session_calls policy calls
            (BasicWindowManagerCopy.initial SessionInfo P)).session_info ↔
        ∃ before after, calls = before ++ SessionCall.add_session s :: after ∧
          SessionCall.remove_session s ∉ after) ∧
    (HandleMap.keys
      (run_session_calls policy calls
        (BasicWindowManagerCopy.initial SessionInfo P)).session_info).Nodup ∧
    (∀ (c : BasicWindowManagerCopy SessionInfo P) (s : Session),
      s ∉ HandleMap.keys c.session_info →
        c.session_info.erase s = c.session_info ∧
        (remove_session policy c s).trace = [⟨Call.handle_session_info_updated, c⟩] ∧
        HandleMap.keys (remove_session policy c s).state.session_info =
          HandleMap.keys c.session_info) := by
  refine ⟨?_, ?_, ?_⟩
  · intro s
    rw [run_session_calls_keys policy hkeep s calls]
    simp [BasicWindowManagerCopy.initial, HandleMap.keys]
  · have hsorted := run_session_calls_sorted policy hkeep calls
      (BasicWindowManagerCopy.initial SessionInfo P)
      (by simp [BasicWindowManagerCopy.initial, HandleMap.keys])
    exact hsorted.imp (fun h => ne_of_lt h)
  · intro c s hs
    have herase := HandleMap.erase_absent c.session_info s hs
    refine ⟨herase, ?_, ?_⟩
    · simp only [remove_session, herase]
    · simp only [remove_session, BasicWindowManagerCopy.after, hkeep, herase]

/-- C6 at a concrete input: after add 1, add 2, remove 1, remove 5 under a policy
that leaves the maps alone, session 2 is the only key of the session map. -/
theorem session_map_tracks_sessions_witness :
    HandleMap.keys
        (run_session_calls quiet_policy session_calls_example
          (BasicWindowManagerCopy.initial Unit Unit)).session_info = [2] ∧
      (∀ s, s ∈ HandleMap.keys
            (run_session_calls quiet_policy session_calls_example
              (BasicWindowManagerCopy.initial Unit Unit)).session_info ↔
          ∃ before after,
            session_calls_example = before ++ SessionCall.add_session s :: after ∧
            SessionCall.remove_session s ∉ after) :=
  ⟨by decide, (session_map_tracks_sessions quiet_policy (fun _ => rfl)
    session_calls_example).1⟩

/-- C6 as stated fails for a policy that changes the session map it is handed: under
the policy whose `handle_session_info_updated` clears the map, after the one call
`add_session(1)` on the fresh controller session 1 was added and not removed, yet it
is no key of the session map; and `remove_session(5)` on a controller whose only
session is 2 leaves no key although 5 was none. -/
theorem session_map_cleared_counterexample :
    (∃ before after,
        [SessionCall.add_session 1] = before ++ SessionCall.add_session 1 :: after ∧
        SessionCall.remove_session 1 ∉ after) ∧
      1 ∉ HandleMap.keys
        (run_session_calls clearing_policy [SessionCall.add_session 1]
          (BasicWindowManagerCopy.initial Unit Unit)).session_info ∧
      5 ∉ HandleMap.keys controller_session_2.session_info ∧
      HandleMap.keys controller_session_2.session_info = [2] ∧
      HandleMap.keys (remove_session clearing_policy controller_session_2 5).state.session_info =
        [] :=
  ⟨⟨[], [], rfl, by simp⟩, by decide, by decide, by decide, by decide⟩

/-! ## The timestamp of the last input event -/

theorem pointer_timestamp_after {SessionInfo P : Type}
    (policy : WindowManagementPolicy SessionInfo P) (c : BasicWindowManagerCopy SessionInfo P)
    (event : MirPointerEvent) :
    (handle_pointer_event policy c event).state.last_input_event_timestamp =
      if event.action = MirPointerAction.button_up ∨
          event.action = MirPointerAction.button_down then event.event_time
      else c.last_input_event_timestamp := by
  by_cases h : event.action = MirPointerAction.button_up ∨
      event.action = MirPointerAction.button_down
  · simp [handle_pointer_event, update_event_timestamp_pointer, BasicWindowManagerCopy.after, h]
  · simp [handle_pointer_event, update_event_timestamp_pointer, BasicWindowManagerCopy.after, h]

theorem touch_timestamp_after {SessionInfo P : Type}
    (policy : WindowManagementPolicy SessionInfo P) (c : BasicWindowManagerCopy SessionInfo P)
    (event : MirTouchEvent) :
    (handle_touch_event policy c event).state.last_input_event_timestamp =
      (touch_timestamp_loop event.event_time event.actions c.last_input_event_timestamp 0).1 :=
  rfl

/-- C7. The `handle_pointer_event` sets `last_input_event_timestamp` to the event's
time when the action is button-up or button-down, and leaves it unchanged for every
other action (motion, enter, leave). -/
theorem handle_pointer_event_timestamp {SessionInfo P : Type}
    (policy : WindowManagementPolicy SessionInfo P) (c : BasicWindowManagerCopy SessionInfo P)
    (event : MirPointerEvent) :
    (event.action = MirPointerAction.button_up ∨ event.action = MirPointerAction.button_down →
      (handle_pointer_event policy c event).state.last_input_event_timestamp =
        event.event_time) ∧
    (event.action ≠ MirPointerAction.button_up ∧ event.action ≠ MirPointerAction.button_down →
      (handle_pointer_event policy c event).state.last_input_event_timestamp =
        c.last_input_event_timestamp) := by
  rw [pointer_timestamp_after]
  constructor
  · intro h
    rw [if_pos h]
  · intro h
    rw [if_neg (fun h2 => h2.elim h.1 h.2)]

/-- C7 at concrete inputs: with the timestamp at 10, a button press at time 20 sets
it to 20 and a motion at time 20 leaves it at 10. -/
theorem handle_pointer_event_timestamp_witness :
    (handle_pointer_event quiet_policy controller_at_10
        button_down_at_20).state.last_input_event_timestamp = 20 ∧
      (handle_pointer_event quiet_policy controller_at_10
        motion_at_20).state.last_input_event_timestamp = 10 :=
  ⟨(handle_pointer_event_timestamp quiet_policy controller_at_10 button_down_at_20).1
      (Or.inr rfl),
   (handle_pointer_event_timestamp quiet_policy controller_at_10 motion_at_20).2
      (by decide)⟩

theorem touch_timestamp_loop_hit (event_time : Nat) (actions : List MirTouchAction)
    (timestamp assignments : Nat)
    (h : ∃ a ∈ actions, a = MirTouchAction.up ∨ a = MirTouchAction.down) :
    touch_timestamp_loop event_time actions timestamp assignments =
      (event_time, assignments + 1) := by
  induction actions with
  | nil => simp at h
  | cons a rest ih =>
    unfold touch_timestamp_loop
    by_cases ha : a = MirTouchAction.up ∨ a = MirTouchAction.down
    · simp only [ha, if_true]
    · simp only [ha, if_false]
      apply ih
      obtain ⟨b, hb, hb1⟩ := h
      rcases List.mem_cons.mp hb with rfl | hb
      · exact absurd hb1 ha
      · exact ⟨b, hb, hb1⟩

theorem touch_timestamp_loop_miss (event_time : Nat) (actions : List MirTouchAction)
    (timestamp assignments : Nat)
    (h : ¬ ∃ a ∈ actions, a = MirTouchAction.up ∨ a = MirTouchAction.down) :
    touch_timestamp_loop event_time actions timestamp assignments =
      (timestamp, assignments) := by
  induction actions with
  | nil => rfl
  | cons a rest ih =>
    unfold touch_timestamp_loop
    have ha : ¬ (a = MirTouchAction.up ∨ a = MirTouchAction.down) :=
      fun ha => h ⟨a, List.mem_cons_self a rest, ha⟩
    simp only [ha, if_false]
    exact ih (fun ⟨b, hb, hb1⟩ => h ⟨b, List.mem_cons_of_mem a hb, hb1⟩)

/-- C8. The `handle_touch_event` runs the assignment of the event's time to
`last_input_event_timestamp` exactly when at least one touch point has the action up or
down, and then the timestamp is the event's time; otherwise (also with no touch point
at all) the assignment does not run and the timestamp is unchanged. The assignment runs
at most once per event. -/
theorem handle_touch_event_timestamp {SessionInfo P : Type}
    (policy : WindowManagementPolicy SessionInfo P) (c : BasicWindowManagerCopy SessionInfo P)
    (event : MirTouchEvent) :
    ((touch_timestamp_loop event.event_time event.actions c.last_input_event_timestamp 0).2 = 1 ↔
      ∃ a ∈ event.actions, a = MirTouchAction.up ∨ a = MirTouchAction.down) ∧
    ((∃ a ∈ event.actions, a = MirTouchAction.up ∨ a = MirTouchAction.down) →
      (handle_touch_event policy c event).state.last_input_event_timestamp =
        event.event_time) ∧
    ((¬ ∃ a ∈ event.actions, a = MirTouchAction.up ∨ a = MirTouchAction.down) →
      (handle_touch_event policy c event).state.last_input_event_timestamp =
        c.last_input_event_timestamp ∧
      (touch_timestamp_loop event.event_time event.actions
        c.last_input_event_timestamp 0).2 = 0) ∧
    (touch_timestamp_loop event.event_time event.actions c.last_input_event_timestamp 0).2 ≤ 1 := by
  by_cases h : ∃ a ∈ event.actions, a = MirTouchAction.up ∨ a = MirTouchAction.down
  · have hloop := touch_timestamp_loop_hit event.event_time event.actions
      c.last_input_event_timestamp 0 h
    simp [handle_touch_event, update_event_timestamp_touch, BasicWindowManagerCopy.after,
      hloop, h]
  · have hloop := touch_timestamp_loop_miss event.event_time event.actions
      c.last_input_event_timestamp 0 h
    simp only [handle_touch_event, update_event_timestamp_touch, BasicWindowManagerCopy.after,
      hloop]
    exact ⟨⟨fun h0 => absurd h0 (by decide), fun h1 => absurd h1 h⟩,
      fun h1 => absurd h1 h, fun _ => by simp, by decide⟩

/-- C8 at concrete inputs: with the timestamp at 10, a touch event at time 20 with a
point going down and another going up sets it to 20 with one assignment; one whose
points only change, and one without points, leave it at 10. -/
theorem handle_touch_event_timestamp_witness :
    (handle_touch_event quiet_policy controller_at_10
        touch_down_at_20).state.last_input_event_timestamp = 20 ∧
      (touch_timestamp_loop 20 touch_down_at_20.actions 10 0).2 = 1 ∧
      (handle_touch_event quiet_policy controller_at_10
        touch_change_at_20).state.last_input_event_timestamp = 10 ∧
      (handle_touch_event quiet_policy controller_at_10
        touch_empty_at_20).state.last_input_event_timestamp = 10 :=
  ⟨(handle_touch_event_timestamp quiet_policy controller_at_10 touch_down_at_20).2.1
      ⟨MirTouchAction.down, by decide, Or.inr rfl⟩,
   (handle_touch_event_timestamp quiet_policy controller_at_10 touch_down_at_20).1.mpr
      ⟨MirTouchAction.down, by decide, Or.inr rfl⟩,
   ((handle_touch_event_timestamp quiet_policy controller_at_10 touch_change_at_20).2.2.1
      (by decide)).1,
   ((handle_touch_event_timestamp quiet_policy controller_at_10 touch_empty_at_20).2.2.1
      (by decide)).1⟩

/-- C9 (as amended). The event time is stored without comparison. Handling a
keyboard, touch or pointer event leaves `last_input_event_timestamp` either as it was
or equal to the event's time, whatever that time is: equal to the event's time for
every key event, every pointer event with the action button-up or button-down and
every touch event with a point going up or down (so an earlier time lowers it), and as
it was for every other pointer or touch event. Hence the timestamp after the call is
not below the timestamp before it whenever the event's time is not. -/
theorem timestamp_after_input_event {SessionInfo P : Type}
    (policy : WindowManagementPolicy SessionInfo P) (c : BasicWindowManagerCopy SessionInfo P)
    (event : InputEvent) :
    ((handle_input_event policy c event).state.last_input_event_timestamp =
        c.last_input_event_timestamp ∨
      (handle_input_event policy c event).state.last_input_event_timestamp =
        event.event_time) ∧
    (c.last_input_event_timestamp ≤ event.event_time →
      c.last_input_event_timestamp ≤
        (handle_input_event policy c event).state.last_input_event_timestamp) ∧
    (∀ ev, event = InputEvent.keyboard ev →
      (handle_input_event policy c event).state.last_input_event_timestamp = ev.event_time ∧
      (ev.event_time < c.last_input_event_timestamp →
        (handle_input_event policy c event).state.last_input_event_timestamp <
          c.last_input_event_timestamp)) ∧
    (∀ ev, event = InputEvent.pointer ev →
      (ev.action = MirPointerAction.button_up ∨ ev.action = MirPointerAction.button_down →
        (handle_input_event policy c event).state.last_input_event_timestamp =
          ev.event_time) ∧
      (¬ (ev.action = MirPointerAction.button_up ∨ ev.action = MirPointerAction.button_down) →
        (handle_input_event policy c event).state.last_input_event_timestamp =
          c.last_input_event_timestamp)) ∧
    (∀ ev, event = InputEvent.touch ev →
      ((∃ a ∈ ev.actions, a = MirTouchAction.up ∨ a = MirTouchAction.down) →
        (handle_input_event policy c event).state.last_input_event_timestamp =
          ev.event_time) ∧
      ((¬ ∃ a ∈ ev.actions, a = MirTouchAction.up ∨ a = MirTouchAction.down) →
        (handle_input_event policy c event).state.last_input_event_timestamp =
          c.last_input_event_timestamp)) := by
  cases event with
  | keyboard ev =>
    have hkey :
        (handle_input_event policy c (InputEvent.keyboard ev)).state.last_input_event_timestamp =
          ev.event_time := rfl
    refine ⟨Or.inr hkey, ?_, ?_, ?_, ?_⟩
    · intro hlater
      rw [hkey]
      exact hlater
    · intro ev1 hev
      cases hev
      refine ⟨hkey, ?_⟩
      intro hearlier
      rw [hkey]
      exact hearlier
    · intro ev1 hev
      cases hev
    · intro ev1 hev
      cases hev
  | touch ev =>
    simp only [handle_input_event, InputEvent.event_time, touch_timestamp_after]
    by_cases h : ∃ a ∈ ev.actions, a = MirTouchAction.up ∨ a = MirTouchAction.down
    · rw [touch_timestamp_loop_hit ev.event_time ev.actions c.last_input_event_timestamp 0 h]
      refine ⟨Or.inr rfl, fun hlater => hlater, ?_, ?_, ?_⟩
      · intro ev1 hev
        cases hev
      · intro ev1 hev
        cases hev
      · intro ev1 hev
        cases hev
        exact ⟨fun _ => rfl, fun hnot => absurd h hnot⟩
    · rw [touch_timestamp_loop_miss ev.event_time ev.actions c.last_input_event_timestamp 0 h]
      refine ⟨Or.inl rfl, fun _ => le_refl _, ?_, ?_, ?_⟩
      · intro ev1 hev
        cases hev
      · intro ev1 hev
        cases hev
      · intro ev1 hev
        cases hev
        exact ⟨fun hyes => absurd hyes h, fun _ => rfl⟩
  | pointer ev =>
    simp only [handle_input_event, InputEvent.event_time, pointer_timestamp_after]
    by_cases h : ev.action = MirPointerAction.button_up ∨
        ev.action = MirPointerAction.button_down
    · rw [if_pos h]
      refine ⟨Or.inr rfl, fun hlater => hlater, ?_, ?_, ?_⟩
      · intro ev1 hev
        cases hev
      · intro ev1 hev
        cases hev
        exact ⟨fun _ => rfl, fun hnot => absurd h hnot⟩
      · intro ev1 hev
        cases hev
    · rw [if_neg h]
      refine ⟨Or.inl rfl, fun _ => le_refl _, ?_, ?_, ?_⟩
      · intro ev1 hev
        cases hev
      · intro ev1 hev
        cases hev
        exact ⟨fun hyes => absurd hyes h, fun _ => rfl⟩
      · intro ev1 hev
        cases hev

/-- C9 at concrete inputs, with the timestamp at 10: a key event carrying the time 20
leaves 20, which is not below 10; a key event carrying the time 5 leaves 5, below 10;
a pointer motion carrying the time 5 leaves 10. -/
theorem timestamp_after_input_event_witness :
    (handle_input_event quiet_policy controller_at_10
        (InputEvent.keyboard key_at_20)).state.last_input_event_timestamp = 20 ∧
      controller_at_10.last_input_event_timestamp ≤
        (handle_input_event quiet_policy controller_at_10
          (InputEvent.keyboard key_at_20)).state.last_input_event_timestamp ∧
      (handle_input_event quiet_policy controller_at_10
          (InputEvent.keyboard key_at_5)).state.last_input_event_timestamp <
        controller_at_10.last_input_event_timestamp ∧
      (handle_input_event quiet_policy controller_at_10
          (InputEvent.pointer motion_at_5)).state.last_input_event_timestamp =
        controller_at_10.last_input_event_timestamp :=
  ⟨rfl,
   (timestamp_after_input_event quiet_policy controller_at_10
    (InputEvent.keyboard key_at_20)).2.1 (by decide),
   ((timestamp_after_input_event quiet_policy controller_at_10
    (InputEvent.keyboard key_at_5)).2.2.1 key_at_5 rfl).2 (by decide),
   ((timestamp_after_input_event quiet_policy controller_at_10
    (InputEvent.pointer motion_at_5)).2.2.2.1 motion_at_5 rfl).2 (by decide)⟩

/-- C9 as stated fails: with the timestamp at 10, a key event carrying the time 5
sets the timestamp to 5, below its value before the call. -/
theorem timestamp_lowered_counterexample :
    controller_at_10.last_input_event_timestamp = 10 ∧
      (handle_keyboard_event quiet_policy controller_at_10
        key_at_5).state.last_input_event_timestamp = 5 ∧
      ¬ (controller_at_10.last_input_event_timestamp ≤
        (handle_keyboard_event quiet_policy controller_at_10
          key_at_5).state.last_input_event_timestamp) := by
  refine ⟨rfl, rfl, ?_⟩
  decide

/-! ## Adding a surface -/

theorem HandleMap.at_erase_self {V : Type} (m : HandleMap V) (key : Nat) :
    HandleMap.at (HandleMap.erase m key) key = none := by
  induction m with
  | nil => rfl
  | cons e rest ih =>
    obtain ⟨k, v⟩ := e
    unfold HandleMap.erase at ih ⊢
    by_cases hk : k = key
    · simpa [List.filter_cons, hk] using ih
    · simp only [List.filter_cons, ne_eq, hk, not_false_eq_true, decide_True, if_true,
        HandleMap.at, if_false]
      exact ih

theorem HandleMap.at_erase_other {V : Type} (m : HandleMap V) (key other : Nat)
    (h : other ≠ key) :
    HandleMap.at (HandleMap.erase m key) other = HandleMap.at m other := by
  induction m with
  | nil => rfl
  | cons e rest ih =>
    obtain ⟨k, v⟩ := e
    unfold HandleMap.erase at ih ⊢
    by_cases hk : k = key
    · have hko : ¬ k = other := fun h1 => h (h1 ▸ hk)
      simp only [List.filter_cons, ne_eq, hk, not_true_eq_false, decide_False,
        Bool.false_eq_true, if_false, HandleMap.at]
      rw [← hk, if_neg hko]
      rw [← hk] at ih
      exact ih
    · simp only [List.filter_cons, ne_eq, hk, not_false_eq_true, decide_True, if_true,
        HandleMap.at]
      by_cases hko : k = other
      · simp [hko]
      · simp only [hko, if_false]
        exact ih

theorem HandleMap.at_eq_none_iff {V : Type} (m : HandleMap V) (key : Nat) :
    HandleMap.at m key = none ↔ key ∉ HandleMap.keys m := by
  induction m with
  | nil => simp [HandleMap.at, HandleMap.keys]
  | cons e rest ih =>
    obtain ⟨k, v⟩ := e
    simp only [HandleMap.keys, List.map_cons, List.mem_cons, not_or] at ih ⊢
    unfold HandleMap.at
    by_cases hk : k = key
    · simp [hk]
    · simp only [hk, if_false, ih]
      constructor
      · intro h1
        exact ⟨fun h2 => hk h2.symm, h1⟩
      · intro h1
        exact h1.2

theorem HandleMap.mem_of_at {V : Type} (m : HandleMap V) (key : Nat) (v : V)
    (h : HandleMap.at m key = some v) : (key, v) ∈ m := by
  induction m with
  | nil => simp [HandleMap.at] at h
  | cons e rest ih =>
    obtain ⟨k, w⟩ := e
    unfold HandleMap.at at h
    by_cases hk : k = key
    · simp only [hk, if_true, Option.some.injEq] at h
      subst hk h
      exact List.mem_cons_self _ _
    · simp only [hk, if_false] at h
      exact List.mem_cons_of_mem _ (ih h)

/-- C11. The `remove_surface(session, surface)` makes one call,
`handle_delete_surface(session, surface)`, and makes it on the controller state as it
was: an entry the surface has is still there. When the call returns, the surface map
has no entry for the surface, every other surface has the entry the policy left it,
the session map is as the policy left it, and the display set, the cursor and the
timestamp are as before the call. -/
theorem remove_surface_notifies_then_erases {SessionInfo P : Type}
    (policy : WindowManagementPolicy SessionInfo P) (c : BasicWindowManagerCopy SessionInfo P)
    (session : Session) (surface : Surface) :
    (remove_surface policy c session surface).trace =
        [⟨Call.handle_delete_surface session surface, c⟩] ∧
    (∀ inv ∈ (remove_surface policy c session surface).trace,
      inv.seen.surface_info.at surface = c.surface_info.at surface) ∧
    ((remove_surface policy c session surface).result = Except.ok () →
      (remove_surface policy c session surface).state.surface_info.at surface = none ∧
      (∀ other, other ≠ surface →
        (remove_surface policy c session surface).state.surface_info.at other =
          (policy.handle_delete_surface c session surface).surface_info.at other) ∧
      (remove_surface policy c session surface).state.session_info =
        (policy.handle_delete_surface c session surface).session_info ∧
      (remove_surface policy c session surface).state.displays = c.displays ∧
      (remove_surface policy c session surface).state.cursor = c.cursor ∧
      (remove_surface policy c session surface).state.last_input_event_timestamp =
        c.last_input_event_timestamp) := by
  cases h : (policy.handle_delete_surface c session surface).result with
  | error e =>
    refine ⟨by simp [remove_surface, h], by simp [remove_surface, h], ?_⟩
    intro hret
    simp [remove_surface, h] at hret
  | ok u =>
    refine ⟨by simp [remove_surface, h], by simp [remove_surface, h], ?_⟩
    intro _
    simp only [remove_surface, h, BasicWindowManagerCopy.after]
    exact ⟨HandleMap.at_erase_self _ surface,
      fun other hne => HandleMap.at_erase_other _ surface other hne, trivial, trivial,
      trivial, trivial⟩

/-- C11 at a concrete input: removing surface 107 from a controller that tracks the
surfaces 107 and 108 tells the policy while 107 still has its entry, and leaves the
entry of 108 and no entry for 107. -/
theorem remove_surface_notifies_then_erases_witness :
    (∀ inv ∈ (remove_surface quiet_policy controller_two_surfaces 1 107).trace,
        inv.seen.surface_info.at 107 = some (info_with_children 107 [])) ∧
      (remove_surface quiet_policy controller_two_surfaces 1 107).state.surface_info.at 107 =
        none ∧
      HandleMap.keys (remove_surface quiet_policy controller_two_surfaces 1 107).state.surface_info
        = [108] :=
  ⟨fun inv hinv =>
      (remove_surface_notifies_then_erases quiet_policy controller_two_surfaces 1 107).2.1 inv hinv,
   ((remove_surface_notifies_then_erases quiet_policy controller_two_surfaces 1 107).2.2 rfl).1,
   by decide⟩

/-- C12. The `forget(surface)` makes no call on the policy or the focus controller,
leaves no entry for the surface, leaves every other surface its entry, and leaves the
session map, the display set, the cursor and `last_input_event_timestamp` unchanged;
when the surface has no entry the whole state is unchanged. -/
theorem forget_erases_silently {SessionInfo P : Type}
    (c : BasicWindowManagerCopy SessionInfo P) (surface : Surface) :
    (forget c surface).trace = [] ∧
    (forget c surface).result = Except.ok () ∧
    (forget c surface).state.surface_info.at surface = none ∧
    (∀ other, other ≠ surface →
      (forget c surface).state.surface_info.at other = c.surface_info.at other) ∧
    (forget c surface).state.session_info = c.session_info ∧
    (forget c surface).state.displays = c.displays ∧
    (forget c surface).state.cursor = c.cursor ∧
    (forget c surface).state.last_input_event_timestamp = c.last_input_event_timestamp ∧
    (surface ∉ HandleMap.keys c.surface_info → (forget c surface).state = c) := by
  refine ⟨rfl, rfl, HandleMap.at_erase_self _ surface,
    fun other hne => HandleMap.at_erase_other _ surface other hne, rfl, rfl, rfl, rfl, ?_⟩
  intro habsent
  simp only [forget, HandleMap.erase_absent c.surface_info surface habsent]

/-- C12 at concrete inputs: forgetting surface 107 leaves the entry of 108 only, and
forgetting the unknown surface 5 changes nothing. -/
theorem forget_erases_silently_witness :
    HandleMap.keys (forget controller_two_surfaces 107).state.surface_info = [108] ∧
      (forget controller_two_surfaces 5).state = controller_two_surfaces :=
  ⟨by decide, (forget_erases_silently controller_two_surfaces 5).2.2.2.2.2.2.2.2 (by decide)⟩

/-! ## Looking up the metadata -/

theorem HandleMap.at_emplace_ne_none {V : Type} (m : HandleMap V) (key : Nat) (value : V) :
    HandleMap.at (HandleMap.emplace m key value) key ≠ none := by
  intro h
  have h1 := (HandleMap.at_eq_none_iff _ key).mp h
  rw [HandleMap.keys_emplace] at h1
  exact h1 ((SurfaceSet.mem_insert _ key key).mpr (Or.inl rfl))

theorem add_surface_recorded {SessionInfo P : Type}
    (policy : WindowManagementPolicy SessionInfo P)
    (surface_of : Session → SurfaceId → Except Error Surface)
    (c : BasicWindowManagerCopy SessionInfo P) (session : Session) (params : P)
    (build : Builder P) (id : SurfaceId)
    (hreturns : (add_surface policy surface_of c session params build).result = Except.ok id) :
    ∃ surface, surface_of session id = Except.ok surface ∧
      (∀ inv ∈ (add_surface policy surface_of c session params build).trace,
        inv.call = Call.handle_new_surface session surface →
          inv.seen.surface_info.at surface ≠ none) ∧
      (policy.keeps_entry surface →
        (add_surface policy surface_of c session params build).state.surface_info.at surface ≠
          none) := by
  cases h1 : (policy.handle_place_new_surface c session params).result with
  | error e => simp [add_surface, h1] at hreturns
  | ok placed =>
    cases h2 : build session placed with
    | error e => simp [add_surface, h1, h2] at hreturns
    | ok result =>
      cases h3 : surface_of session result with
      | error e => simp [add_surface, h1, h2, h3] at hreturns
      | ok surface =>
        cases h4 : (policy.handle_new_surface
            { c.after (policy.handle_place_new_surface c session params) with
              surface_info :=
                (c.after (policy.handle_place_new_surface c session params)).surface_info.emplace
                  surface (SurfaceInfo.create session surface placed) }
            session surface).result with
        | error e => simp [add_surface, h1, h2, h3, h4] at hreturns
        | ok u =>
          cases h5 : (policy.generate_decorations_for
              (BasicWindowManagerCopy.after
                { c.after (policy.handle_place_new_surface c session params) with
                  surface_info :=
                    (c.after (policy.handle_place_new_surface c session
                      params)).surface_info.emplace
                      surface (SurfaceInfo.create session surface placed) }
                (policy.handle_new_surface
                  { c.after (policy.handle_place_new_surface c session params) with
                    surface_info :=
                      (c.after (policy.handle_place_new_surface c session
                        params)).surface_info.emplace
                        surface (SurfaceInfo.create session surface placed) }
                  session surface))
              session surface build).result with
          | error e => simp [add_surface, h1, h2, h3, h4, h5] at hreturns
          | ok u1 =>
            simp only [add_surface, h1, h2, h3, h4, h5, Except.ok.injEq] at hreturns
            subst hreturns
            have hrec := HandleMap.at_emplace_ne_none
              (c.after (policy.handle_place_new_surface c session params)).surface_info
              surface (SurfaceInfo.create session surface placed)
            refine ⟨surface, h3, ?_, ?_⟩
            · intro inv hinv hcall
              simp only [add_surface, h1, h2, h3, h4, h5, List.cons_append, List.nil_append,
                List.mem_cons, List.mem_singleton, List.not_mem_nil, or_false] at hinv
              rcases hinv with rfl | rfl | rfl | rfl
              · cases hcall
              · cases hcall
              · exact hrec
              · cases hcall
            · intro hkeep
              have hA := (hkeep
                { c.after (policy.handle_place_new_surface c session params) with
                  surface_info :=
                    (c.after (policy.handle_place_new_surface c session
                      params)).surface_info.emplace
                      surface (SurfaceInfo.create session surface placed) }
                session surface build hrec).1
              have hB := (hkeep
                (BasicWindowManagerCopy.after
                  { c.after (policy.handle_place_new_surface c session params) with
                    surface_info :=
                      (c.after (policy.handle_place_new_surface c session
                        params)).surface_info.emplace
                        surface (SurfaceInfo.create session surface placed) }
                  (policy.handle_new_surface
                    { c.after (policy.handle_place_new_surface c session params) with
                      surface_info :=
                        (c.after (policy.handle_place_new_surface c session
                          params)).surface_info.emplace
                          surface (SurfaceInfo.create session surface placed) }
                    session surface))
                session surface build hA).2
              simp only [add_surface, h1, h2, h3, h4, h5]
              exact hB

/-- C13. The `info_for(session)` and `info_for(surface)` return the metadata stored
for the handle when it is a key of the map, and fail with the not-found error
(`std::out_of_range`) exactly when it is not. In particular `info_for(surface)`
succeeds once `add_surface` has recorded the surface (in the state the policy is
told of the new surface in, and in the state `add_surface` leaves when the callbacks
that follow keep the entry), and fails after `remove_surface` or `forget` of it. -/
theorem info_for_found_exactly_for_keys {SessionInfo P : Type}
    (c : BasicWindowManagerCopy SessionInfo P) :
    (∀ session,
      (session ∈ HandleMap.keys c.session_info →
        ∃ info, info_for_session c session = Except.ok info ∧ (session, info) ∈ c.session_info) ∧
      (info_for_session c session = Except.error Error.out_of_range ↔
        session ∉ HandleMap.keys c.session_info)) ∧
    (∀ surface,
      (surface ∈ HandleMap.keys c.surface_info →
        ∃ info, info_for_surface c surface = Except.ok info ∧ (surface, info) ∈ c.surface_info) ∧
      (info_for_surface c surface = Except.error Error.out_of_range ↔
        surface ∉ HandleMap.keys c.surface_info)) ∧
    (∀ (policy : WindowManagementPolicy SessionInfo P)
      (surface_of : Session → SurfaceId → Except Error Surface) (session : Session)
      (params : P) (build : Builder P) (id : SurfaceId),
      (add_surface policy surface_of c session params build).result = Except.ok id →
      ∃ surface, surface_of session id = Except.ok surface ∧
        (∀ inv ∈ (add_surface policy surface_of c session params build).trace,
          inv.call = Call.handle_new_surface session surface →
            ∃ info, info_for_surface inv.seen surface = Except.ok info) ∧
        (policy.keeps_entry surface →
          ∃ info, info_for_surface (add_surface policy surface_of c session params build).state
            surface = Except.ok info)) ∧
    (∀ (policy : WindowManagementPolicy SessionInfo P) (session : Session) (surface : Surface),
      (remove_surface policy c session surface).result = Except.ok () →
        info_for_surface (remove_surface policy c session surface).state surface =
          Except.error Error.out_of_range) ∧
    (∀ surface, info_for_surface (forget c surface).state surface =
      Except.error Error.out_of_range) := by
  have hfound : ∀ {V : Type} (m : HandleMap V) (key : Nat),
      (key ∈ HandleMap.keys m → ∃ v, HandleMap.at m key = some v ∧ (key, v) ∈ m) := by
    intro V m key hkey
    cases hat : HandleMap.at m key with
    | none => exact absurd hkey ((HandleMap.at_eq_none_iff m key).mp hat)
    | some v => exact ⟨v, rfl, HandleMap.mem_of_at m key v hat⟩
  have hsome : ∀ (st : BasicWindowManagerCopy SessionInfo P) (surface : Surface),
      st.surface_info.at surface ≠ none → ∃ info, info_for_surface st surface = Except.ok info := by
    intro st surface hne
    cases hat : st.surface_info.at surface with
    | none => exact absurd hat hne
    | some info => exact ⟨info, by simp [info_for_surface, hat]⟩
  have hnone : ∀ (st : BasicWindowManagerCopy SessionInfo P) (surface : Surface),
      st.surface_info.at surface = none →
        info_for_surface st surface = Except.error Error.out_of_range := by
    intro st surface hat
    simp [info_for_surface, hat]
  refine ⟨?_, ?_, ?_, ?_, ?_⟩
  · intro session
    constructor
    · intro hkey
      obtain ⟨v, hat, hmem⟩ := hfound c.session_info session hkey
      exact ⟨v, by simp [info_for_session, hat], hmem⟩
    · rw [← HandleMap.at_eq_none_iff]
      cases hat : c.session_info.at session with
      | none => simp [info_for_session, hat]
      | some v => simp [info_for_session, hat]
  · intro surface
    constructor
    · intro hkey
      obtain ⟨v, hat, hmem⟩ := hfound c.surface_info surface hkey
      exact ⟨v, by simp [info_for_surface, hat], hmem⟩
    · rw [← HandleMap.at_eq_none_iff]
      cases hat : c.surface_info.at surface with
      | none => simp [info_for_surface, hat]
      | some v => simp [info_for_surface, hat]
  · intro policy surface_of session params build id hreturns
    obtain ⟨surface, hsurface, hseen, hfinal⟩ :=
      add_surface_recorded policy surface_of c session params build id hreturns
    exact ⟨surface, hsurface, fun inv hinv hcall => hsome _ surface (hseen inv hinv hcall),
      fun hkeep => hsome _ surface (hfinal hkeep)⟩
  · intro policy session surface hreturns
    apply hnone
    cases h : (policy.handle_delete_surface c session surface).result with
    | error e => simp [remove_surface, h] at hreturns
    | ok u =>
      simp only [remove_surface, h]
      exact HandleMap.at_erase_self _ surface
  · intro surface
    exact hnone _ surface (HandleMap.at_erase_self _ surface)

/-- C13 at concrete inputs: in a controller tracking the surfaces 107 and 108 the lookup
of 107 succeeds and the lookup of 5 fails; after `add_surface` built surface 107 on the
fresh controller the lookup of 107 succeeds, and after `remove_surface` or `forget` of
107 it fails. -/
theorem info_for_found_exactly_for_keys_witness :
    (∃ info, info_for_surface controller_two_surfaces 107 = Except.ok info ∧
        (107, info) ∈ controller_two_surfaces.surface_info) ∧
      info_for_surface controller_two_surfaces 5 = Except.error Error.out_of_range ∧
      (∃ surface, surface_of_example 1 7 = Except.ok surface ∧
        (∀ inv ∈ (add_surface quiet_policy surface_of_example
            (BasicWindowManagerCopy.initial Unit Unit) 1 () build_7).trace,
          inv.call = Call.handle_new_surface 1 surface →
            ∃ info, info_for_surface inv.seen surface = Except.ok info) ∧
        (quiet_policy.keeps_entry surface →
          ∃ info, info_for_surface (add_surface quiet_policy surface_of_example
            (BasicWindowManagerCopy.initial Unit Unit) 1 () build_7).state
            surface = Except.ok info)) ∧
      info_for_surface (remove_surface quiet_policy controller_two_surfaces 1 107).state 107 =
        Except.error Error.out_of_range ∧
      info_for_surface (forget controller_two_surfaces 107).state 107 =
        Except.error Error.out_of_range :=
  ⟨((info_for_found_exactly_for_keys controller_two_surfaces).2.1 107).1 (by decide),
   ((info_for_found_exactly_for_keys controller_two_surfaces).2.1 5).2.mpr (by decide),
   (info_for_found_exactly_for_keys (BasicWindowManagerCopy.initial Unit Unit)).2.2.1
     quiet_policy surface_of_example 1 () build_7 7 rfl,
   (info_for_found_exactly_for_keys controller_two_surfaces).2.2.2.1 quiet_policy 1 107 rfl,
   (info_for_found_exactly_for_keys controller_two_surfaces).2.2.2.2 107⟩

/-! ## Finding a session -/

theorem find_session_loop_first {SessionInfo : Type} (expired : Session → Bool)
    (predicate : SessionInfo → Bool) (entries : HandleMap SessionInfo) :
    ∀ (i : Nat) (e : Nat × SessionInfo), entries[i]? = some e → predicate e.2 = true →
      (∀ (j : Nat) (e1 : Nat × SessionInfo), j < i → entries[j]? = some e1 →
        predicate e1.2 = false) →
      find_session_loop expired predicate entries =
        (lock expired e.1, (entries.take (i + 1)).map Prod.fst) := by
  induction entries with
  | nil => intro i e hi; simp at hi
  | cons x rest ih =>
    intro i e hi he hbefore
    cases i with
    | zero =>
      simp at hi
      subst hi
      simp [find_session_loop, he]
    | succ i =>
      have hx : predicate x.2 = false := hbefore 0 x (by omega) (by simp)
      have hi1 : rest[i]? = some e := by simpa using hi
      have hrec := ih i e hi1 he
        (fun j e1 hj hje => hbefore (j + 1) e1 (by omega) (by simpa using hje))
      simp [find_session_loop, hx, hrec]

theorem find_session_loop_none {SessionInfo : Type} (expired : Session → Bool)
    (predicate : SessionInfo → Bool) (entries : HandleMap SessionInfo)
    (h : ∀ e ∈ entries, predicate e.2 = false) :
    find_session_loop expired predicate entries = (none, entries.map Prod.fst) := by
  induction entries with
  | nil => rfl
  | cons x rest ih =>
    have hx : predicate x.2 = false := h x (List.mem_cons_self x rest)
    have hrec := ih (fun e he => h e (List.mem_cons_of_mem x he))
    simp [find_session_loop, hx, hrec]

/-- C14 (as amended). When some entry of the session map satisfies the predicate,
`find_session(predicate)` hands back what `lock()` of the key of the first such entry,
in the map's iteration order, yields: that session while it is alive, and nothing once
it has expired; the predicate has then been called on the entries up to and including
that one and on no later entry. When no entry satisfies the predicate, nothing is
returned and the predicate has been called on every entry. -/
theorem find_session_first_match {SessionInfo P : Type} (expired : Session → Bool)
    (c : BasicWindowManagerCopy SessionInfo P) (predicate : SessionInfo → Bool) :
    (∀ (i : Nat) (e : Nat × SessionInfo), c.session_info[i]? = some e →
      predicate e.2 = true →
      (∀ (j : Nat) (e1 : Nat × SessionInfo), j < i → c.session_info[j]? = some e1 →
        predicate e1.2 = false) →
      (find_session expired c predicate).2 = (c.session_info.take (i + 1)).map Prod.fst ∧
      (expired e.1 = false → (find_session expired c predicate).1 = some e.1) ∧
      (expired e.1 = true → (find_session expired c predicate).1 = none)) ∧
    ((∀ e ∈ c.session_info, predicate e.2 = false) →
      find_session expired c predicate = (none, c.session_info.map Prod.fst)) := by
  constructor
  · intro i e hi he hbefore
    have h := find_session_loop_first expired predicate c.session_info i e hi he hbefore
    unfold find_session
    rw [h]
    refine ⟨rfl, ?_, ?_⟩
    · intro hlive
      simp [lock, hlive]
    · intro hgone
      simp [lock, hgone]
  · intro hnone
    exact find_session_loop_none expired predicate c.session_info hnone

/-- C14 at concrete inputs: with the sessions 1, 2, 3 flagged false, true, true and
all alive, the search for a set flag returns session 2 after calling the predicate on
the sessions 1 and 2 only. -/
theorem find_session_first_match_witness :
    find_session all_alive controller_flagged_sessions id = (some 2, [1, 2]) ∧
      (find_session all_alive controller_flagged_sessions id).2 =
        (controller_flagged_sessions.session_info.take (1 + 1)).map Prod.fst :=
  ⟨by decide,
   ((find_session_first_match all_alive controller_flagged_sessions id).1 1 (2, true)
      (by decide) rfl (by
        intro j e1 hj hje
        have hj0 : j = 0 := by omega
        subst hj0
        have h0 : controller_flagged_sessions.session_info[0]? = some (1, false) := by decide
        rw [h0] at hje
        cases hje
        rfl)).1⟩

/-- C14 as stated fails: with the sessions 1, 2, 3 flagged false, true, true and
session 2 expired, the search for a set flag returns nothing although the entries of
the sessions 2 and 3 satisfy the predicate. -/
theorem find_session_expired_counterexample :
    (find_session session_2_expired controller_flagged_sessions id).1 = none ∧
      ∃ e ∈ controller_flagged_sessions.session_info, id e.2 = true := by
  refine ⟨by decide, (2, true), by decide, rfl⟩

/-! ## A call that fails -/

theorem BasicWindowManagerCopy.after_leaves {SessionInfo P α : Type}
    (c : BasicWindowManagerCopy SessionInfo P) (o : PolicyOutcome SessionInfo P α)
    (h : o.leaves c) : c.after o = c := by
  obtain ⟨h1, h2⟩ := h
  cases c
  simp only [BasicWindowManagerCopy.after] at h1 h2 ⊢
  rw [h1, h2]

/-- C15 (as amended). The controller does not roll a failed call back. With a policy
whose callbacks do not themselves change the maps: a `remove_surface` that fails leaves
the state as it was, and so does an `add_surface` that fails in
`handle_place_new_surface`, in `build` or in the lookup of the built surface; but
`add_session`, `remove_session`, `add_display` and `remove_display` leave the
assignment, erasure, added or removed display in place whether or not the policy
callback raises, and an `add_surface` that fails in `handle_new_surface` leaves the
recorded `SurfaceInfo` in place. -/
theorem failed_call_not_rolled_back {SessionInfo P : Type} [Inhabited SessionInfo]
    (policy : WindowManagementPolicy SessionInfo P) (hinert : policy.leaves_maps)
    (surface_of : Session → SurfaceId → Except Error Surface)
    (c : BasicWindowManagerCopy SessionInfo P) (session : Session) (surface : Surface)
    (params : P) (build : Builder P) (area : Rectangle) :
    (add_session policy c session).state =
        { c with session_info := c.session_info.assign session default } ∧
    (remove_session policy c session).state =
        { c with session_info := c.session_info.erase session } ∧
    (add_display policy c area).state = { c with displays := Rectangles.add c.displays area } ∧
    (remove_display policy c area).state =
        { c with displays := Rectangles.remove c.displays area } ∧
    (∀ e, (remove_surface policy c session surface).result = Except.error e →
      (remove_surface policy c session surface).state = c) ∧
    (∀ e, (policy.handle_place_new_surface c session params).result = Except.error e →
      (add_surface policy surface_of c session params build).result = Except.error e ∧
      (add_surface policy surface_of c session params build).state = c) ∧
    (∀ placed e, (policy.handle_place_new_surface c session params).result = Except.ok placed →
      build session placed = Except.error e →
      (add_surface policy surface_of c session params build).result = Except.error e ∧
      (add_surface policy surface_of c session params build).state = c) ∧
    (∀ placed id e, (policy.handle_place_new_surface c session params).result = Except.ok placed →
      build session placed = Except.ok id →
      surface_of session id = Except.error e →
      (add_surface policy surface_of c session params build).result = Except.error e ∧
      (add_surface policy surface_of c session params build).state = c) ∧
    (∀ placed id built e,
      (policy.handle_place_new_surface c session params).result = Except.ok placed →
      build session placed = Except.ok id →
      surface_of session id = Except.ok built →
      (policy.handle_new_surface
        { c with surface_info :=
          c.surface_info.emplace built (SurfaceInfo.create session built placed) }
        session built).result = Except.error e →
      (add_surface policy surface_of c session params build).result = Except.error e ∧
      (add_surface policy surface_of c session params build).state =
        { c with surface_info :=
          c.surface_info.emplace built (SurfaceInfo.create session built placed) }) := by
  obtain ⟨hsession, hdisplays, hplace, hnew, _, hdelete⟩ := hinert
  have hc1 : c.after (policy.handle_place_new_surface c session params) = c :=
    c.after_leaves _ (hplace c session params)
  refine ⟨?_, ?_, ?_, ?_, ?_, ?_, ?_, ?_, ?_⟩
  · simp only [add_session]
    exact BasicWindowManagerCopy.after_leaves _ _ (hsession _)
  · simp only [remove_session]
    exact BasicWindowManagerCopy.after_leaves _ _ (hsession _)
  · simp only [add_display]
    exact BasicWindowManagerCopy.after_leaves _ _ (hdisplays _)
  · simp only [remove_display]
    exact BasicWindowManagerCopy.after_leaves _ _ (hdisplays _)
  · intro e he
    cases h : (policy.handle_delete_surface c session surface).result with
    | error e1 =>
      simp only [remove_surface, h]
      exact c.after_leaves _ (hdelete c session surface)
    | ok u => simp [remove_surface, h] at he
  · intro e h1
    simp only [add_surface, h1, hc1, and_self]
  · intro placed e h1 h2
    simp only [add_surface, h1, h2, hc1, and_self]
  · intro placed id e h1 h2 h3
    simp only [add_surface, h1, h2, h3, hc1, and_self]
  · intro placed id built e h1 h2 h3 h4
    simp only [add_surface, h1, h2, h3, hc1, h4, true_and]
    exact BasicWindowManagerCopy.after_leaves _ _ (hnew _ session built)

theorem refusing_policy_leaves_maps : refusing_policy.leaves_maps :=
  ⟨fun _ => ⟨rfl, rfl⟩, fun _ => ⟨rfl, rfl⟩, fun _ _ _ => ⟨rfl, rfl⟩, fun _ _ _ => ⟨rfl, rfl⟩,
    fun _ _ _ _ => ⟨rfl, rfl⟩, fun _ _ _ => ⟨rfl, rfl⟩⟩

/-- C15 at concrete inputs, with a policy that raises from every notification and
leaves the maps alone: the failed `remove_surface` of surface 107 leaves the state as
it was, while the failed `add_session` of session 1 leaves session 1 in the map. -/
theorem failed_call_not_rolled_back_witness :
    (remove_surface refusing_policy controller_two_surfaces 1 107).result =
        Except.error (Error.raised 4) ∧
      (remove_surface refusing_policy controller_two_surfaces 1 107).state =
        controller_two_surfaces ∧
      (add_session refusing_policy controller_two_surfaces 3).result =
        Except.error (Error.raised 1) ∧
      (add_session refusing_policy controller_two_surfaces 3).state =
        { controller_two_surfaces with
          session_info := controller_two_surfaces.session_info.assign 3 default } :=
  ⟨rfl,
   (failed_call_not_rolled_back refusing_policy refusing_policy_leaves_maps surface_of_example
      controller_two_surfaces 1 107 () build_7 display_1).2.2.2.2.1 (Error.raised 4) rfl,
   rfl,
   (failed_call_not_rolled_back refusing_policy refusing_policy_leaves_maps surface_of_example
      controller_two_surfaces 3 107 () build_7 display_1).1⟩

/-- C15 as stated fails: with a policy that raises from every notification, on the
fresh controller, the failed `add_session` leaves session 1 in the session map, the
failed `add_display` leaves the display in the display set, and the failed
`add_surface` leaves the entry of the built surface 107 in the surface map. -/
theorem failed_call_counterexample :
    ((add_session refusing_policy (BasicWindowManagerCopy.initial Unit Unit) 1).result =
        Except.error (Error.raised 1) ∧
      HandleMap.keys
        (add_session refusing_policy (BasicWindowManagerCopy.initial Unit Unit) 1).state.session_info
        = [1] ∧
      HandleMap.keys (BasicWindowManagerCopy.initial Unit Unit).session_info = []) ∧
    ((add_display refusing_policy (BasicWindowManagerCopy.initial Unit Unit) display_1).result =
        Except.error (Error.raised 2) ∧
      (add_display refusing_policy (BasicWindowManagerCopy.initial Unit Unit) display_1).state.displays
        = [display_1] ∧
      (BasicWindowManagerCopy.initial Unit Unit).displays = []) ∧
    ((add_surface refusing_policy surface_of_example (BasicWindowManagerCopy.initial Unit Unit)
          1 () build_7).result = Except.error (Error.raised 3) ∧
      HandleMap.keys
        (add_surface refusing_policy surface_of_example (BasicWindowManagerCopy.initial Unit Unit)
          1 () build_7).state.surface_info = [107] ∧
      HandleMap.keys (BasicWindowManagerCopy.initial Unit Unit).surface_info = []) :=
  ⟨⟨rfl, by decide, rfl⟩, ⟨rfl, by decide, rfl⟩, ⟨rfl, by decide, rfl⟩⟩

/-! ## Surfaces without an entry -/

theorem for_each_child_error (f : Surface → SurfaceSet → Option (Except Error SurfaceSet))
    (children : List Surface) :
    ∀ (set : SurfaceSet) (e : Error), for_each_child f children set = some (Except.error e) →
      ∃ child ∈ children, ∃ set1, f child set1 = some (Except.error e) := by
  induction children with
  | nil =>
    intro set e hrun
    simp [for_each_child] at hrun
  | cons first rest ih =>
    intro set e hrun
    unfold for_each_child at hrun
    cases hfirst : f first set with
    | none => simp [hfirst] at hrun
    | some r =>
      cases r with
      | error e1 =>
        simp only [hfirst, Option.some.injEq, Except.error.injEq] at hrun
        subst hrun
        exact ⟨first, List.mem_cons_self _ _, set, hfirst⟩
      | ok set1 =>
        simp only [hfirst] at hrun
        obtain ⟨child, hchild, set2, hrun2⟩ := ih set1 e hrun
        exact ⟨child, List.mem_cons_of_mem _ hchild, set2, hrun2⟩

theorem add_children_visits {SessionInfo P : Type} (c : BasicWindowManagerCopy SessionInfo P)
    (depth : Nat) :
    ∀ (s : Surface) (set out : SurfaceSet), add_children c depth s set = some (Except.ok out) →
      ∀ x, Relation.ReflTransGen (IsChild c) s x → ∃ info, c.surface_info.at x = some info := by
  induction depth with
  | zero =>
    intro s set out hrun
    simp [add_children] at hrun
  | succ depth ih =>
    intro s set out hrun x hreach
    cases hat : c.surface_info.at s with
    | none => simp [add_children, info_for_surface, hat] at hrun
    | some info =>
      simp only [add_children, info_for_surface, hat] at hrun
      rcases Relation.ReflTransGen.cases_head hreach with rfl | ⟨child, hchild, hrest⟩
      · exact ⟨info, hat⟩
      · obtain ⟨info1, hat1, hmem⟩ := hchild
        rw [hat] at hat1
        cases hat1
        obtain ⟨set1, out1, hrun1⟩ := for_each_child_all_ok _ _ _ _ hrun child hmem
        exact ih child set1 out1 hrun1 x hrest

theorem add_children_error {SessionInfo P : Type} (c : BasicWindowManagerCopy SessionInfo P)
    (depth : Nat) :
    ∀ (s : Surface) (set : SurfaceSet) (e : Error),
      add_children c depth s set = some (Except.error e) → e = Error.out_of_range := by
  induction depth with
  | zero =>
    intro s set e hrun
    simp [add_children] at hrun
  | succ depth ih =>
    intro s set e hrun
    cases hat : c.surface_info.at s with
    | none =>
      simp only [add_children, info_for_surface, hat, Option.some.injEq,
        Except.error.injEq] at hrun
      exact hrun.symm
    | some info =>
      simp only [add_children, info_for_surface, hat] at hrun
      obtain ⟨child, _, set1, hrun1⟩ := for_each_child_error _ _ _ _ hrun
      exact ih child set1 e hrun1

theorem raise_tree_of_missing {SessionInfo P : Type} (c : BasicWindowManagerCopy SessionInfo P)
    (root missing : Surface) (hreach : Relation.ReflTransGen (IsChild c) root missing)
    (hmissing : c.surface_info.at missing = none) (depth : Nat) :
    raise_tree depth c root = none ∨
      raise_tree depth c root =
        some { state := c, trace := [], result := Except.error Error.out_of_range } := by
  unfold raise_tree
  cases hrun : add_children c depth root (SurfaceSet.insert [] root) with
  | none => exact Or.inl rfl
  | some r =>
    cases r with
    | error e =>
      right
      rw [add_children_error c depth root _ e hrun]
    | ok out =>
      exfalso
      obtain ⟨info, hat⟩ := add_children_visits c depth root _ out hrun missing hreach
      rw [hmissing] at hat
      cases hat

/-- C27. When the root or a surface reachable from it through the children relation
has no entry in the surface map, `raise_tree(root)`, whenever its walk ends, has
failed with the not-found error (`std::out_of_range`), without a call of `raise`
and with the controller state, the surface map included, as it was. The walk does
end so, within a nesting deeper than the number of entries, when no surface reachable
from the root lies on a cycle; and when it is the root that has no entry, the first
lookup fails. -/
theorem raise_tree_not_found {SessionInfo P : Type}
    (c : BasicWindowManagerCopy SessionInfo P) (root missing : Surface)
    (hreach : Relation.ReflTransGen (IsChild c) root missing)
    (hmissing : c.surface_info.at missing = none) :
    (∀ depth out, raise_tree depth c root = some out →
      out.result = Except.error Error.out_of_range ∧ out.trace = [] ∧ out.state = c) ∧
    ((∀ s, Relation.ReflTransGen (IsChild c) root s → ¬ Relation.TransGen (IsChild c) s s) →
      ∀ depth, c.surface_info.length < depth →
        raise_tree depth c root =
          some { state := c, trace := [], result := Except.error Error.out_of_range }) ∧
    (missing = root → ∀ depth,
      raise_tree (depth + 1) c root =
        some { state := c, trace := [], result := Except.error Error.out_of_range }) := by
  refine ⟨?_, ?_, ?_⟩
  · intro depth out hrun
    rcases raise_tree_of_missing c root missing hreach hmissing depth with hnone | hsome
    · rw [hnone] at hrun
      cases hrun
    · rw [hsome] at hrun
      cases hrun
      exact ⟨rfl, rfl, rfl⟩
  · intro hacyclic depth hdepth
    rcases raise_tree_of_missing c root missing hreach hmissing depth with hnone | hsome
    · exfalso
      obtain ⟨k, rfl⟩ : ∃ k, depth = k + 1 := ⟨depth - 1, by omega⟩
      have hterm := add_children_terminates c root hacyclic k [] List.nodup_nil
        (by simp) (by simp only [List.length_nil]; omega) root Relation.ReflTransGen.refl
        (by simp) (SurfaceSet.insert [] root)
      unfold raise_tree at hnone
      cases hrun : add_children c (k + 1) root (SurfaceSet.insert [] root) with
      | none => simp [hrun] at hterm
      | some r =>
        rw [hrun] at hnone
        cases r <;> simp at hnone
    · exact hsome
  · intro heq depth
    subst heq
    simp [raise_tree, add_children, info_for_surface, hmissing]

/-- C27 at a concrete input: surface 1 has the children 2 and 3, and 3 has no entry.
`raise_tree(1)` fails with the not-found error, `raise` is not called and the
controller is as before; so does `raise_tree(3)`, whose root has no entry. -/
theorem raise_tree_not_found_witness :
    raise_tree 5 controller_missing_child 1 =
        some { state := controller_missing_child, trace := [],
               result := Except.error Error.out_of_range } ∧
      ∀ depth out, raise_tree depth controller_missing_child 1 = some out →
        out.result = Except.error Error.out_of_range ∧ out.trace = [] ∧
          out.state = controller_missing_child :=
  ⟨rfl, (raise_tree_not_found controller_missing_child 1 3
    (Relation.ReflTransGen.single ⟨info_with_children 1 [2, 3], rfl, by decide⟩) rfl).1⟩

/-! ## The display returned -/

theorem active_display_cursor_loop_mem (cursor : Point) (displays : List Rectangle) :
    ∀ d, active_display_cursor_loop cursor displays = some d → d ∈ displays := by
  induction displays with
  | nil =>
    intro d h
    simp [active_display_cursor_loop] at h
  | cons first rest ih =>
    intro d h
    unfold active_display_cursor_loop at h
    split at h
    · simp only [Option.some.injEq] at h
      subst h
      exact List.mem_cons_self _ _
    · exact List.mem_cons_of_mem _ (ih d h)

theorem display_of_index (displays : List Rectangle) :
    ∀ (i : Nat) (d : Rectangle), displays[i]? = some d → d ∈ displays := by
  induction displays with
  | nil =>
    intro i d h
    simp at h
  | cons first rest ih =>
    intro i d h
    cases i with
    | zero =>
      simp only [List.getElem?_cons_zero, Option.some.injEq] at h
      subst h
      exact List.mem_cons_self _ _
    | succ i =>
      simp only [List.getElem?_cons_succ] at h
      exact List.mem_cons_of_mem _ (ih i d h)

theorem active_display_focused_member (surface_rect : Rectangle) (displays : List Rectangle)
    (hne : displays ≠ [])
    (hfit : ∀ d ∈ displays, overlap_area surface_rect d < 2147483648) :
    ∃ (i : Nat) (d : Rectangle), displays[i]? = some d ∧
      active_display_overlap_loop surface_rect displays (-1) default = d ∧
      (∀ (j : Nat) (e : Rectangle), j < i → displays[j]? = some e →
        overlap_area surface_rect e < overlap_area surface_rect d) := by
  rcases active_display_overlap_loop_spec surface_rect displays (-1) default
      (le_refl _) hfit with ⟨hall, _⟩ | ⟨i, d, hi, hout, _, _, hfirst⟩
  · exfalso
    cases displays with
    | nil => exact hne rfl
    | cons d rest =>
      have h1 := hall d (List.mem_cons_self d rest)
      have h2 := overlap_area_nonneg surface_rect d
      omega
  · exact ⟨i, d, hi, hout, hfirst⟩

/-- C28 (amended). For every controller state in which, when a surface is focused,
the intersection area of each display with its input bounds fits the C++ `int` it is
computed in (is below 2^31): `active_display()` returns a member of the display list
whenever the list is non-empty, with or without a focused surface; it returns the
default-constructed rectangle when the list is empty, and returns it otherwise only if
it is one of the displays. With a focused surface the result does not depend on the
cursor position, and when the focused surface overlaps no display (every area is 0)
the result is the first display. -/
theorem active_display_is_a_display {SessionInfo P : Type}
    (focus_controller : FocusController) (input_bounds : Surface → Rectangle)
    (c : BasicWindowManagerCopy SessionInfo P)
    (hfit : ∀ surface, focus_controller.focused_surface = some surface →
      ∀ d ∈ c.displays, overlap_area (input_bounds surface) d < 2147483648) :
    (c.displays ≠ [] → active_display focus_controller input_bounds c ∈ c.displays) ∧
    (c.displays = [] → active_display focus_controller input_bounds c = default) ∧
    (active_display focus_controller input_bounds c = default →
      c.displays = [] ∨ default ∈ c.displays) ∧
    (∀ surface cursor, focus_controller.focused_surface = some surface →
      active_display focus_controller input_bounds { c with cursor := cursor } =
        active_display focus_controller input_bounds c) ∧
    (∀ surface first rest, focus_controller.focused_surface = some surface →
      c.displays = first :: rest →
      (∀ d ∈ c.displays, overlap_area (input_bounds surface) d = 0) →
      active_display focus_controller input_bounds c = first) := by
  have hmember : c.displays ≠ [] →
      active_display focus_controller input_bounds c ∈ c.displays := by
    intro hne
    cases hfocus : focus_controller.focused_surface with
    | some surface =>
      obtain ⟨i, d, hi, hout, _⟩ := active_display_focused_member (input_bounds surface)
        c.displays hne (hfit surface hfocus)
      have hact : active_display focus_controller input_bounds c = d := by
        simp only [active_display, hfocus, hout]
      rw [hact]
      exact display_of_index c.displays i d hi
    | none =>
      cases hloop : active_display_cursor_loop c.cursor c.displays with
      | some d =>
        have hact : active_display focus_controller input_bounds c = d := by
          simp only [active_display, hfocus, hloop]
        rw [hact]
        exact active_display_cursor_loop_mem c.cursor c.displays d hloop
      | none =>
        cases hds : c.displays with
        | nil => exact absurd hds hne
        | cons first rest =>
          have hact : active_display focus_controller input_bounds c = first := by
            simp only [active_display, hfocus, hloop, hds]
            rw [hds] at hloop
            simp only [hloop]
          rw [hact]
          exact List.mem_cons_self _ _
  refine ⟨hmember, ?_, ?_, ?_, ?_⟩
  · intro hempty
    cases hfocus : focus_controller.focused_surface with
    | some surface =>
      simp only [active_display, hfocus, hempty, active_display_overlap_loop]
    | none =>
      simp only [active_display, hfocus, hempty, active_display_cursor_loop]
  · intro hdefault
    by_cases hempty : c.displays = []
    · exact Or.inl hempty
    · right
      rw [← hdefault]
      exact hmember hempty
  · intro surface cursor hfocus
    simp only [active_display, hfocus]
  · intro surface first rest hfocus hds hzero
    obtain ⟨i, d, hi, hout, hfirst⟩ := active_display_focused_member (input_bounds surface)
      c.displays (by rw [hds]; exact List.cons_ne_nil _ _) (hfit surface hfocus)
    have hact : active_display focus_controller input_bounds c = d := by
      simp only [active_display, hfocus, hout]
    rw [hact]
    cases i with
    | zero =>
      rw [hds] at hi
      simp only [List.getElem?_cons_zero, Option.some.injEq] at hi
      exact hi.symm
    | succ i =>
      exfalso
      have h0 : c.displays[0]? = some first := by rw [hds]; simp
      have hlt := hfirst 0 first (Nat.succ_pos i) h0
      have hd := hzero d (display_of_index c.displays (i + 1) d hi)
      have hf := hzero first (by rw [hds]; exact List.mem_cons_self _ _)
      omega

/-- C28 at concrete inputs, displays D1, D2: with surface 7 focused whose input bounds
(300,300) 10x10 overlap neither, D1 is returned wherever the cursor is (here inside
D2); with nothing focused and the cursor inside D2, D2 is returned; both are members
of the display list. -/
theorem active_display_is_a_display_witness :
    active_display focus_on_7 (fun _ => bounds_300_300_10_10) controller_cursor_in_2 =
        display_1 ∧
      active_display focus_on_7 (fun _ => bounds_300_300_10_10) controller_cursor_in_2 ∈
        controller_cursor_in_2.displays ∧
      active_display focus_on_nothing (fun _ => bounds_300_300_10_10) controller_cursor_in_2 ∈
        controller_cursor_in_2.displays ∧
      active_display focus_on_nothing (fun _ => bounds_300_300_10_10) controller_cursor_in_2 =
        display_2 :=
  ⟨(active_display_is_a_display focus_on_7 (fun _ => bounds_300_300_10_10)
      controller_cursor_in_2 (by decide)).2.2.2.2 7 display_1 [display_2] rfl rfl (by decide),
   (active_display_is_a_display focus_on_7 (fun _ => bounds_300_300_10_10)
      controller_cursor_in_2 (by decide)).1 (by decide),
   (active_display_is_a_display focus_on_nothing (fun _ => bounds_300_300_10_10)
      controller_cursor_in_2 (by decide)).1 (by decide),
   by decide⟩

/-- C28 as stated fails: with the one display 46341x46341 and a focused surface whose
input bounds cover it, the intersection area 2147488281 does not fit an `int`; it
wraps to a negative value, no display beats the initial -1, and `active_display()`
returns the default-constructed rectangle, which is not a member of the non-empty
display list. -/
theorem active_display_not_a_display_counterexample :
    controller_46341.displays ≠ [] ∧
      overlap_area display_46341 display_46341 = 2147488281 ∧
      as_int32 2147488281 = -2147479015 ∧
      active_display focus_on_7 (fun _ => display_46341) controller_46341 = default ∧
      active_display focus_on_7 (fun _ => display_46341) controller_46341 ∉
        controller_46341.displays := by
  refine ⟨by decide, by decide, by decide, by decide, by decide⟩

end mir.examples

namespace mir

/-! ## The request for no bytes -/

/-- C16. With `bytes_requested == 0`, `receive_data` fails with the logic error for
every socket, buffer and `fds`, without a `recvmsg` call on the socket (whose state
is as before) and with `buffer` and `fds` as they were. -/
theorem receive_data_zero_bytes {σ : Type} (recvmsg : σ → RecvRequest → RecvResult × σ)
    (fuel : Nat) (socket : σ) (buffer : List Nat) (fds : List Int) :
    ∃ out, receive_data recvmsg fuel socket buffer 0 fds = some out ∧
      out.result = Except.error ReceiveError.logic_error ∧
      out.calls = [] ∧ out.socket = socket ∧
      out.state.buffer = buffer ∧ out.state.fds = fds :=
  ⟨{ socket := socket,
     state := { buffer := buffer, fds := fds, bytes_read := 0, fds_read := 0 },
     calls := [], result := Except.error ReceiveError.logic_error },
    by simp [receive_data], rfl, rfl, rfl, rfl, rfl⟩

/-! ## What a call of recvmsg yields -/

theorem receive_loop_throws {σ : Type} (recvmsg : σ → RecvRequest → RecvResult × σ)
    (bytes_requested fuel : Nat) (socket : σ) (st st1 : ReceiveState) (e : ReceiveError)
    (hgo : st.bytes_read < bytes_requested)
    (hstep : receive_iteration st (recvmsg socket (recv_request bytes_requested st)).1 =
      (st1, some e)) :
    receive_loop recvmsg bytes_requested (fuel + 1) socket st =
      some { socket := (recvmsg socket (recv_request bytes_requested st)).2, state := st1,
             calls := [(recv_request bytes_requested st,
               (recvmsg socket (recv_request bytes_requested st)).1)],
             result := Except.error e } := by
  simp only [receive_loop, hgo, if_true, hstep]

theorem receive_loop_goes_on {σ : Type} (recvmsg : σ → RecvRequest → RecvResult × σ)
    (bytes_requested fuel : Nat) (socket : σ) (st st1 : ReceiveState)
    (hgo : st.bytes_read < bytes_requested)
    (hstep : receive_iteration st (recvmsg socket (recv_request bytes_requested st)).1 =
      (st1, none)) :
    receive_loop recvmsg bytes_requested (fuel + 1) socket st =
      (receive_loop recvmsg bytes_requested fuel
          (recvmsg socket (recv_request bytes_requested st)).2 st1).map
        (ReceiveOutcome.after_call (recv_request bytes_requested st,
          (recvmsg socket (recv_request bytes_requested st)).1)) := by
  simp only [receive_loop, hgo, if_true, hstep]

theorem receive_iteration_nonpositive (st : ReceiveState) (r : RecvResult) :
    (r.result = 0 →
      receive_iteration st r = (st, some (ReceiveError.socket_disconnected_error r.errno))) ∧
    (r.result < 0 → r.errno = EINTR → receive_iteration st r = (st, none)) ∧
    (r.result < 0 → r.errno = EPIPE →
      receive_iteration st r = (st, some (ReceiveError.socket_disconnected_error r.errno))) ∧
    (r.result < 0 → r.errno ≠ EINTR → r.errno ≠ EPIPE →
      receive_iteration st r = (st, some (ReceiveError.socket_error r.errno))) := by
  refine ⟨?_, ?_, ?_, ?_⟩
  · intro h0
    simp [receive_iteration, h0]
  · intro hneg hintr
    have h0 : ¬ r.result = 0 := by omega
    simp [receive_iteration, h0, hneg, socket_error_is_transient, hintr]
  · intro hneg hpipe
    have h0 : ¬ r.result = 0 := by omega
    have hintr : ¬ r.errno = EINTR := by rw [hpipe]; decide
    have hne : ¬ EPIPE = EINTR := by decide
    simp [receive_iteration, h0, hneg, socket_error_is_transient, hpipe, hne]
  · intro hneg hintr hpipe
    have h0 : ¬ r.result = 0 := by omega
    simp [receive_iteration, h0, hneg, socket_error_is_transient, hintr, hpipe]

/-- C17. In the loop of `receive_data`, at any loop state that has bytes to read yet,
the answer of `recvmsg` is treated so: the result 0 fails with the disconnected error;
a negative result with `errno` EINTR throws nothing and leaves the loop state
(`bytes_read`, `fds_read`, buffer and `fds`) as it was, so the loop goes on from the
same state and its next call asks for the same offset and length; a negative result
with `errno` EPIPE fails with the disconnected error; a negative result with any other
`errno` fails with the socket error carrying that `errno`. -/
theorem receive_loop_nonpositive_result {σ : Type}
    (recvmsg : σ → RecvRequest → RecvResult × σ) (bytes_requested fuel : Nat) (socket : σ)
    (st : ReceiveState) (hgo : st.bytes_read < bytes_requested) :
    ((recvmsg socket (recv_request bytes_requested st)).1.result = 0 →
      ∃ out, receive_loop recvmsg bytes_requested (fuel + 1) socket st = some out ∧
        out.result = Except.error (ReceiveError.socket_disconnected_error
          (recvmsg socket (recv_request bytes_requested st)).1.errno) ∧
        out.state = st) ∧
    ((recvmsg socket (recv_request bytes_requested st)).1.result < 0 →
      (recvmsg socket (recv_request bytes_requested st)).1.errno = EINTR →
      receive_iteration st (recvmsg socket (recv_request bytes_requested st)).1 = (st, none) ∧
      receive_loop recvmsg bytes_requested (fuel + 1) socket st =
        (receive_loop recvmsg bytes_requested fuel
            (recvmsg socket (recv_request bytes_requested st)).2 st).map
          (ReceiveOutcome.after_call (recv_request bytes_requested st,
            (recvmsg socket (recv_request bytes_requested st)).1))) ∧
    ((recvmsg socket (recv_request bytes_requested st)).1.result < 0 →
      (recvmsg socket (recv_request bytes_requested st)).1.errno = EPIPE →
      ∃ out, receive_loop recvmsg bytes_requested (fuel + 1) socket st = some out ∧
        out.result = Except.error (ReceiveError.socket_disconnected_error
          (recvmsg socket (recv_request bytes_requested st)).1.errno) ∧
        out.state = st) ∧
    ((recvmsg socket (recv_request bytes_requested st)).1.result < 0 →
      (recvmsg socket (recv_request bytes_requested st)).1.errno ≠ EINTR →
      (recvmsg socket (recv_request bytes_requested st)).1.errno ≠ EPIPE →
      ∃ out, receive_loop recvmsg bytes_requested (fuel + 1) socket st = some out ∧
        out.result = Except.error (ReceiveError.socket_error
          (recvmsg socket (recv_request bytes_requested st)).1.errno) ∧
        out.state = st) := by
  have hit := receive_iteration_nonpositive st (recvmsg socket (recv_request bytes_requested st)).1
  refine ⟨?_, ?_, ?_, ?_⟩
  · intro h0
    exact ⟨_, receive_loop_throws recvmsg bytes_requested fuel socket st st _ hgo (hit.1 h0),
      rfl, rfl⟩
  · intro hneg hintr
    exact ⟨hit.2.1 hneg hintr,
      receive_loop_goes_on recvmsg bytes_requested fuel socket st st hgo (hit.2.1 hneg hintr)⟩
  · intro hneg hpipe
    exact ⟨_, receive_loop_throws recvmsg bytes_requested fuel socket st st _ hgo
      (hit.2.2.1 hneg hpipe), rfl, rfl⟩
  · intro hneg hintr hpipe
    exact ⟨_, receive_loop_throws recvmsg bytes_requested fuel socket st st _ hgo
      (hit.2.2.2 hneg hintr hpipe), rfl, rfl⟩

/-- C17 at concrete inputs, from a state with 2 of 4 bytes read: a call interrupted
(EINTR) and then shut down makes two calls with the same request and fails with the
disconnected error; EPIPE fails with the disconnected error; EIO (5) fails with the
socket error carrying 5. -/
theorem receive_loop_nonpositive_result_witness :
    (receive_loop scripted_recvmsg 4 3 [failed_answer EINTR] state_midway).map
        (fun out => (out.calls.map Prod.fst, out.state, out.result)) =
      some ([recv_request 4 state_midway, recv_request 4 state_midway], state_midway,
        Except.error (ReceiveError.socket_disconnected_error 0)) ∧
    (∃ out, receive_loop scripted_recvmsg 4 1 [failed_answer EPIPE] state_midway = some out ∧
      out.result = Except.error (ReceiveError.socket_disconnected_error EPIPE) ∧
      out.state = state_midway) ∧
    (∃ out, receive_loop scripted_recvmsg 4 1 [failed_answer 5] state_midway = some out ∧
      out.result = Except.error (ReceiveError.socket_error 5) ∧
      out.state = state_midway) :=
  ⟨rfl,
   (receive_loop_nonpositive_result scripted_recvmsg 4 0 [failed_answer EPIPE] state_midway
      (by decide)).2.2.1 (by decide) rfl,
   (receive_loop_nonpositive_result scripted_recvmsg 4 0 [failed_answer 5] state_midway
      (by decide)).2.2.2 (by decide) (by decide) (by decide)⟩

/-! ## Sizes of control blocks -/

theorem to_size_t_of_fits (v : Int) (h0 : 0 ≤ v) (h1 : v < 18446744073709551616) :
    (to_size_t v : Int) = v := by
  unfold to_size_t
  rw [Int.emod_eq_of_lt h0 h1]
  exact Int.toNat_of_nonneg h0

theorem CMSG_LEN_of_fits (len : Nat) (h : len < 18446744073709551600) :
    CMSG_LEN len = cmsg_header_size + len := by
  have h16 : (CMSG_ALIGN cmsg_header_size : Int) = 16 := by decide
  have h1 : (CMSG_LEN len : Int) = 16 + len := by
    unfold CMSG_LEN
    rw [h16]
    exact to_size_t_of_fits _ (by omega) (by omega)
  have h2 : (cmsg_header_size : Int) = 16 := rfl
  omega

theorem fds_bytes_of_fits (st : ReceiveState) (hread : st.fds_read ≤ st.fds.length)
    (hsize : st.fds.length < 2147483648) :
    fds_bytes st = sizeof_int * (st.fds.length - st.fds_read) := by
  have h1 : (to_size_t ((st.fds.length : Int) - st.fds_read) : Int) =
      (st.fds.length : Int) - st.fds_read :=
    to_size_t_of_fits _ (by omega) (by omega)
  have h2 : (fds_bytes st : Int) = ((st.fds.length : Int) - st.fds_read) * 4 := by
    unfold fds_bytes
    rw [h1]
    exact to_size_t_of_fits _ (by simp only [sizeof_int]; omega) (by simp only [sizeof_int]; omega)
  simp only [sizeof_int]
  omega

/-! ## More descriptors than expected -/

theorem receive_iteration_more_fds (st : ReceiveState) (r : RecvResult) (cmsg : cmsghdr)
    (hpos : 0 < r.result) (hcontrol : r.control = some cmsg)
    (hlevel : cmsg.cmsg_level = SOL_SOCKET) (htype : cmsg.cmsg_type = SCM_RIGHTS)
    (hbad : r.ctrunc = true ∨ cmsg.cmsg_len > CMSG_LEN (fds_bytes st)) :
    receive_iteration st r =
      ({ st with buffer := store_bytes st.buffer st.bytes_read r.received,
                 bytes_read := to_size_t ((st.bytes_read : Int) + r.result) },
        some ReceiveError.received_more_fds) := by
  have h0 : ¬ r.result = 0 := by omega
  have hneg : ¬ r.result < 0 := by omega
  have hbad1 : cmsg.cmsg_len > CMSG_LEN (fds_bytes st) ∨ r.ctrunc = true := hbad.symm
  simp only [receive_iteration, h0, hneg, if_false, hcontrol, hlevel, htype, ne_eq,
    not_true_eq_false, or_self, hbad1, if_true]

/-- C18. In the loop of `receive_data`, at any loop state that has bytes to read yet:
when the `recvmsg` call succeeds and delivers a passed-rights control block that is
flagged truncated (MSG_CTRUNC) or whose `cmsg_len` exceeds `CMSG_LEN(fds_bytes)`, the
length of a block holding the `fds.size() - fds_read` slots still unfilled, the call
fails with the "received more descriptors than expected" error, and `fds` and
`fds_read` are as before that `recvmsg` call: no descriptor of the block is copied. -/
theorem receive_loop_more_fds_than_expected {σ : Type}
    (recvmsg : σ → RecvRequest → RecvResult × σ) (bytes_requested fuel : Nat) (socket : σ)
    (st : ReceiveState) (cmsg : cmsghdr)
    (hgo : st.bytes_read < bytes_requested)
    (hpos : 0 < (recvmsg socket (recv_request bytes_requested st)).1.result)
    (hcontrol : (recvmsg socket (recv_request bytes_requested st)).1.control = some cmsg)
    (hlevel : cmsg.cmsg_level = SOL_SOCKET) (htype : cmsg.cmsg_type = SCM_RIGHTS)
    (hbad : (recvmsg socket (recv_request bytes_requested st)).1.ctrunc = true ∨
      cmsg.cmsg_len > CMSG_LEN (fds_bytes st)) :
    (∃ out, receive_loop recvmsg bytes_requested (fuel + 1) socket st = some out ∧
      out.result = Except.error ReceiveError.received_more_fds ∧
      out.state.fds = st.fds ∧ out.state.fds_read = st.fds_read) ∧
    (st.fds_read ≤ st.fds.length → st.fds.length < 2147483648 →
      CMSG_LEN (fds_bytes st) =
        cmsg_header_size + sizeof_int * (st.fds.length - st.fds_read)) := by
  constructor
  · exact ⟨_, receive_loop_throws recvmsg bytes_requested fuel socket st _ _ hgo
      (receive_iteration_more_fds st _ cmsg hpos hcontrol hlevel htype hbad), rfl, rfl, rfl⟩
  · intro hread hsize
    rw [fds_bytes_of_fits st hread hsize]
    apply CMSG_LEN_of_fits
    simp only [sizeof_int]
    omega

/-- C18 at a concrete input: with 1 of 3 descriptors read, a rights block with three
descriptors is longer than a block for the two open slots; the call fails with the
"more descriptors" error and `fds` stays 5, 0, 0. -/
theorem receive_loop_more_fds_than_expected_witness :
    (rights_block [7, 8, 9]).cmsg_len = 28 ∧ CMSG_LEN (fds_bytes state_midway) = 24 ∧
      ∃ out, receive_loop scripted_recvmsg 4 1 [rights_answer [106, 107] [7, 8, 9]]
          state_midway = some out ∧
        out.result = Except.error ReceiveError.received_more_fds ∧
        out.state.fds = [5, 0, 0] ∧ out.state.fds_read = 1 :=
  ⟨by decide, by decide,
   (receive_loop_more_fds_than_expected scripted_recvmsg 4 0
      [rights_answer [106, 107] [7, 8, 9]] state_midway (rights_block [7, 8, 9])
      (by decide) (by decide) rfl rfl rfl (Or.inr (by decide))).1⟩

/-! ## The descriptors copied -/

theorem to_unsigned_of_fits (v : Int) (h0 : 0 ≤ v) (h1 : v < 4294967296) :
    (to_unsigned v : Int) = v := by
  unfold to_unsigned
  rw [Int.emod_eq_of_lt h0 h1]
  exact Int.toNat_of_nonneg h0

theorem to_int_of_fits (v : Int) (h0 : -2147483648 ≤ v) (h1 : v < 2147483648) :
    to_int v = v := by
  unfold to_int
  rw [Int.emod_eq_of_lt (by omega) (by omega)]
  omega

theorem copy_fds_spec (data : List Int) (base : Nat) :
    ∀ (count i : Nat) (fds : List Int), i + count ≤ data.length →
      base + i + count ≤ fds.length → fds.length < 2147483648 →
      copy_fds data base count i fds =
        fds.take (base + i) ++ ((data.drop i).take count ++ fds.drop (base + i + count)) := by
  intro count
  induction count with
  | zero =>
    intro i fds _ _ _
    simp [copy_fds]
  | succ count ih =>
    intro i fds hdata hfds hsize
    have hidx : to_unsigned ((base : Int) + i) = base + i := by
      have := to_unsigned_of_fits ((base : Int) + i) (by omega) (by omega)
      omega
    have hi : i < data.length := by omega
    have hb : base + i < fds.length := by omega
    have hd : data.getD i 0 = data[i] := List.getD_eq_getElem _ _ hi
    unfold copy_fds
    rw [hidx, hd, ih (i + 1) _ (by omega) (by simp only [List.length_set]; omega)
      (by simp only [List.length_set]; omega)]
    rw [List.set_eq_take_append_cons_drop, if_pos hb]
    have hlen : (List.take (base + i) fds).length = base + i := by
      rw [List.length_take]; omega
    rw [List.take_append_eq_append_take, List.drop_append_eq_append_drop, hlen]
    have h1 : base + (i + 1) - (base + i) = 1 := by omega
    have h2 : base + (i + 1) + count - (base + i) = count + 1 := by omega
    have h3 : List.take (base + (i + 1)) (List.take (base + i) fds) = List.take (base + i) fds := by
      rw [List.take_take]; congr 1; omega
    have h4 : List.drop (base + (i + 1) + count) (List.take (base + i) fds) = [] := by
      apply List.drop_eq_nil_of_le; omega
    rw [h1, h2, h3, h4]
    simp only [List.take_succ_cons, List.take_zero, List.drop_succ_cons, List.drop_drop,
      List.nil_append, List.append_assoc, List.cons_append]
    rw [List.drop_eq_getElem_cons hi, List.take_succ_cons, List.cons_append]
    have h5 : base + i + 1 + count = base + i + (count + 1) := by omega
    rw [h5]

theorem nfds_of_kernel_made (cmsg : cmsghdr)
    (hlen : cmsg.cmsg_len = cmsg_header_size + sizeof_int * cmsg.data.length)
    (hsmall : cmsg.data.length < 2147483648) :
    nfds_of cmsg = cmsg.data.length := by
  have h1 : (to_size_t ((cmsg.cmsg_len : Int) - cmsg_header_size) : Int) =
      4 * cmsg.data.length := by
    rw [to_size_t_of_fits _ (by rw [hlen]; simp only [cmsg_header_size, sizeof_int]; omega)
      (by rw [hlen]; simp only [cmsg_header_size, sizeof_int]; omega)]
    rw [hlen]
    simp only [cmsg_header_size, sizeof_int]
    omega
  have h2 : to_size_t ((cmsg.cmsg_len : Int) - cmsg_header_size) / sizeof_int =
      cmsg.data.length := by
    simp only [sizeof_int]
    omega
  unfold nfds_of
  rw [h2]
  exact to_int_of_fits _ (by omega) (by omega)

theorem fits_in_slots (st : ReceiveState) (cmsg : cmsghdr)
    (hsize : st.fds.length < 2147483648) (hread : st.fds_read ≤ st.fds.length)
    (hlen : cmsg.cmsg_len = cmsg_header_size + sizeof_int * cmsg.data.length)
    (hfits : cmsg.cmsg_len ≤ CMSG_LEN (fds_bytes st)) :
    st.fds_read + cmsg.data.length ≤ st.fds.length ∧
      nfds_of cmsg = cmsg.data.length ∧
      to_unsigned ((st.fds_read : Int) + cmsg.data.length) = st.fds_read + cmsg.data.length := by
  have hcmsg : CMSG_LEN (fds_bytes st) =
      cmsg_header_size + sizeof_int * (st.fds.length - st.fds_read) := by
    rw [fds_bytes_of_fits st hread hsize]
    apply CMSG_LEN_of_fits
    simp only [sizeof_int]
    omega
  have hroom : st.fds_read + cmsg.data.length ≤ st.fds.length := by
    rw [hcmsg, hlen] at hfits
    simp only [cmsg_header_size, sizeof_int] at hfits
    omega
  have hsmall : cmsg.data.length < 2147483648 := by omega
  have hto : (to_unsigned ((st.fds_read : Int) + cmsg.data.length) : Int) =
      (st.fds_read : Int) + cmsg.data.length :=
    to_unsigned_of_fits ((st.fds_read : Int) + cmsg.data.length) (by omega) (by omega)
  refine ⟨hroom, nfds_of_kernel_made cmsg hlen hsmall, ?_⟩
  exact Int.ofNat_inj.mp (by rw [hto]; simp)

theorem receive_iteration_copies (st st1 : ReceiveState) (r : RecvResult)
    (hkernel : r.kernel_made = true) (hsize : st.fds.length < 2147483648)
    (hread : st.fds_read ≤ st.fds.length)
    (hstep : receive_iteration st r = (st1, none)) :
    st1.fds_read = st.fds_read + r.descriptors.length ∧
      st.fds_read + r.descriptors.length ≤ st.fds.length ∧
      st1.fds = st.fds.take st.fds_read ++
        (r.descriptors ++ st.fds.drop (st.fds_read + r.descriptors.length)) := by
  unfold receive_iteration at hstep
  by_cases h0 : r.result = 0
  · simp [h0] at hstep
  · simp only [h0, if_false] at hstep
    by_cases hneg : r.result < 0
    · have hdesc : r.descriptors = [] := by
        have : ¬ 0 < r.result := by omega
        simp [RecvResult.descriptors, this]
      simp only [hneg, if_true] at hstep
      split at hstep
      · simp only [Prod.mk.injEq, and_true] at hstep
        subst hstep
        simp [hdesc, hread]
      · split at hstep <;> simp at hstep
    · have hpos : 0 < r.result := by omega
      simp only [hneg, if_false] at hstep
      cases hcontrol : r.control with
      | none =>
        have hdesc : r.descriptors = [] := by simp [RecvResult.descriptors, hcontrol]
        simp only [hcontrol, Prod.mk.injEq, and_true] at hstep
        subst hstep
        simp [hdesc, hread]
      | some cmsg =>
        have hdesc : r.descriptors = cmsg.data := by
          simp [RecvResult.descriptors, hcontrol, hpos]
        have hlen : cmsg.cmsg_len = cmsg_header_size + sizeof_int * cmsg.data.length := by
          simpa [RecvResult.kernel_made, hcontrol] using hkernel
        simp only [hcontrol] at hstep
        split at hstep
        · simp at hstep
        · split at hstep
          · simp at hstep
          · rename_i hrights hfits
            have hfits1 : cmsg.cmsg_len ≤ CMSG_LEN (fds_bytes st) :=
              Nat.le_of_not_lt (fun hgt => hfits (Or.inl hgt))
            obtain ⟨hroom, hnfds, hto⟩ := fits_in_slots st cmsg hsize hread hlen hfits1
            have hcopy := copy_fds_spec cmsg.data st.fds_read cmsg.data.length 0 st.fds
              (Nat.le_of_eq (Nat.zero_add _)) hroom hsize
            simp only [Nat.add_zero, List.drop_zero, List.take_length] at hcopy
            simp only [Prod.mk.injEq, and_true] at hstep
            rw [hnfds, Int.toNat_ofNat, hto, hcopy] at hstep
            subst hstep
            rw [hdesc]
            exact ⟨rfl, hroom, rfl⟩

theorem receive_loop_collects {σ : Type} (recvmsg : σ → RecvRequest → RecvResult × σ)
    (bytes_requested fuel : Nat) :
    ∀ (socket : σ) (st : ReceiveState) (out : ReceiveOutcome σ),
      st.fds.length < 2147483648 → st.fds_read ≤ st.fds.length →
      receive_loop recvmsg bytes_requested fuel socket st = some out →
      out.result = Except.ok () →
      (∀ call ∈ out.calls, call.2.kernel_made = true) →
      out.state.fds.length = st.fds.length ∧
        out.state.fds_read = st.fds_read + (descriptors_received out.calls).length ∧
        out.state.fds_read ≤ st.fds.length ∧
        out.state.fds.take out.state.fds_read =
          st.fds.take st.fds_read ++ descriptors_received out.calls := by
  induction fuel with
  | zero =>
    intro socket st out hsize hread hloop hok hkernel
    unfold receive_loop at hloop
    split at hloop
    · simp at hloop
    · simp only [Option.some.injEq] at hloop
      subst hloop
      simp [descriptors_received, hread]
  | succ fuel ih =>
    intro socket st out hsize hread hloop hok hkernel
    unfold receive_loop at hloop
    split at hloop
    · cases hstep : receive_iteration st
          (recvmsg socket (recv_request bytes_requested st)).1 with
      | mk st1 thrown =>
        cases thrown with
        | some e =>
          simp only [hstep, Option.some.injEq] at hloop
          subst hloop
          simp at hok
        | none =>
          simp only [hstep, Option.map_eq_some'] at hloop
          obtain ⟨out1, hloop1, hout⟩ := hloop
          subst hout
          have hk0 : (recvmsg socket (recv_request bytes_requested st)).1.kernel_made = true :=
            hkernel _ (List.mem_cons_self _ _)
          obtain ⟨hfr, hroom, hfds⟩ := receive_iteration_copies st st1 _ hk0 hsize hread hstep
          have hlen1 : st1.fds.length = st.fds.length := by
            rw [hfds]
            simp only [List.length_append, List.length_take, List.length_drop]
            omega
          have hrec := ih _ st1 out1 (by omega) (by omega) hloop1 hok
            (fun call hcall => hkernel call (List.mem_cons_of_mem _ hcall))
          obtain ⟨h1, h2, h3, h4⟩ := hrec
          have htake : st1.fds.take st1.fds_read =
              st.fds.take st.fds_read ++
                (recvmsg socket (recv_request bytes_requested st)).1.descriptors := by
            rw [hfds, hfr, ← List.append_assoc]
            apply List.take_left'
            simp only [List.length_append, List.length_take]
            omega
          refine ⟨?_, ?_, ?_, ?_⟩
          · show out1.state.fds.length = st.fds.length
            omega
          · show out1.state.fds_read = st.fds_read + (descriptors_received
              ((recv_request bytes_requested st,
                (recvmsg socket (recv_request bytes_requested st)).1) :: out1.calls)).length
            simp only [descriptors_received, List.length_append]
            omega
          · show out1.state.fds_read ≤ st.fds.length
            omega
          · show out1.state.fds.take out1.state.fds_read = st.fds.take st.fds_read ++
              descriptors_received ((recv_request bytes_requested st,
                (recvmsg socket (recv_request bytes_requested st)).1) :: out1.calls)
            simp only [descriptors_received]
            rw [h4, htake, List.append_assoc]
    · simp only [Option.some.injEq] at hloop
      subst hloop
      simp [descriptors_received, hread]

/-! ## Fewer descriptors than expected -/

theorem receive_data_of_loop {σ : Type} (recvmsg : σ → RecvRequest → RecvResult × σ)
    (fuel : Nat) (socket : σ) (buffer : List Nat) (bytes_requested : Nat) (fds : List Int)
    (loop_out : ReceiveOutcome σ) (hreq : bytes_requested ≠ 0)
    (hloop : receive_loop recvmsg bytes_requested fuel socket
      { buffer := buffer, fds := fds, bytes_read := 0, fds_read := 0 } = some loop_out)
    (hdone : loop_out.result = Except.ok ()) :
    receive_data recvmsg fuel socket buffer bytes_requested fds =
      some (if loop_out.state.fds_read < loop_out.state.fds.length then
          { loop_out with result := Except.error ReceiveError.received_fewer_fds }
        else loop_out) := by
  unfold receive_data
  simp only [hreq, if_false, hloop, hdone]
  split <;> rfl

/-- C19. When the byte loop of `receive_data` ends without an exception, the control
blocks received being as the kernel builds them: `receive_data` fails with the
"received fewer descriptors than expected" error if the number of descriptors
received over all `recvmsg` calls is smaller than `fds.size()`, and it returns
normally exactly when that number equals `fds.size()` (it never exceeds it). -/
theorem receive_data_fewer_fds_than_expected {σ : Type}
    (recvmsg : σ → RecvRequest → RecvResult × σ) (fuel : Nat) (socket : σ)
    (buffer : List Nat) (bytes_requested : Nat) (fds : List Int)
    (loop_out : ReceiveOutcome σ) (hreq : bytes_requested ≠ 0)
    (hsize : fds.length < 2147483648)
    (hloop : receive_loop recvmsg bytes_requested fuel socket
      { buffer := buffer, fds := fds, bytes_read := 0, fds_read := 0 } = some loop_out)
    (hdone : loop_out.result = Except.ok ())
    (hkernel : ∀ call ∈ loop_out.calls, call.2.kernel_made = true) :
    ∃ out, receive_data recvmsg fuel socket buffer bytes_requested fds = some out ∧
      out.calls = loop_out.calls ∧
      ((descriptors_received out.calls).length < fds.length →
        out.result = Except.error ReceiveError.received_fewer_fds) ∧
      (out.result = Except.ok () ↔ (descriptors_received out.calls).length = fds.length) ∧
      (descriptors_received out.calls).length ≤ fds.length := by
  obtain ⟨h1, h2, h3, _⟩ := receive_loop_collects recvmsg bytes_requested fuel socket _
    loop_out hsize (Nat.zero_le _) hloop hdone hkernel
  simp only at h1 h2 h3
  have hrun := receive_data_of_loop recvmsg fuel socket buffer bytes_requested fds loop_out hreq
    hloop hdone
  by_cases hlt : loop_out.state.fds_read < loop_out.state.fds.length
  · rw [if_pos hlt] at hrun
    refine ⟨_, hrun, rfl, fun _ => rfl, ?_, ?_⟩
    · constructor
      · intro hok
        simp at hok
      · intro heq
        simp only at heq
        omega
    · simp only
      omega
  · rw [if_neg hlt] at hrun
    refine ⟨_, hrun, rfl, ?_, ?_, ?_⟩
    · intro hfewer
      omega
    · constructor
      · intro _
        omega
      · intro _
        exact hdone
    · omega

/-- C19 at concrete inputs: 2 bytes arrive with the descriptors 5 and 6. A caller that
expects three descriptors gets the "fewer descriptors" error, one that expects two
returns normally. -/
theorem receive_data_fewer_fds_than_expected_witness :
    (∃ out, receive_data scripted_recvmsg 3 script_two_fds [0, 0] 2 [0, 0, 0] = some out ∧
        out.result = Except.error ReceiveError.received_fewer_fds) ∧
      (∃ out, receive_data scripted_recvmsg 3 script_two_fds [0, 0] 2 [0, 0] = some out ∧
        out.result = Except.ok ()) := by
  constructor
  · obtain ⟨out, hout, _, hfewer, _, _⟩ := receive_data_fewer_fds_than_expected
      scripted_recvmsg 3 script_two_fds [0, 0] 2 [0, 0, 0] _ (by decide) (by decide) rfl rfl
      (by decide)
    exact ⟨out, hout, hfewer (by rw [‹out.calls = _›]; decide)⟩
  · obtain ⟨out, hout, hcalls, _, hok, _⟩ := receive_data_fewer_fds_than_expected
      scripted_recvmsg 3 script_two_fds [0, 0] 2 [0, 0] _ (by decide) (by decide) rfl rfl
      (by decide)
    exact ⟨out, hout, hok.mpr (by rw [hcalls]; decide)⟩

/-! ## The descriptors in arrival order -/

/-- C20. When `receive_data` returns normally, the control blocks received being as
the kernel builds them, `fds` is the concatenation, in arrival order, of the descriptor
arrays of the control blocks received. Each iteration of the loop that does not throw
writes the descriptors of its block, in array order, to the slots from `fds_read` on,
leaves the slots before and after them as they were, and advances `fds_read` by their
number. -/
theorem receive_data_fds_in_arrival_order {σ : Type}
    (recvmsg : σ → RecvRequest → RecvResult × σ) (fuel : Nat) (socket : σ)
    (buffer : List Nat) (bytes_requested : Nat) (fds : List Int) (out : ReceiveOutcome σ)
    (hsize : fds.length < 2147483648)
    (hout : receive_data recvmsg fuel socket buffer bytes_requested fds = some out)
    (hok : out.result = Except.ok ())
    (hkernel : ∀ call ∈ out.calls, call.2.kernel_made = true) :
    out.state.fds = descriptors_received out.calls ∧
    (∀ (st st1 : ReceiveState) (r : RecvResult), r.kernel_made = true →
      st.fds.length < 2147483648 → st.fds_read ≤ st.fds.length →
      receive_iteration st r = (st1, none) →
      st1.fds_read = st.fds_read + r.descriptors.length ∧
      st.fds_read + r.descriptors.length ≤ st.fds.length ∧
      st1.fds = st.fds.take st.fds_read ++
        (r.descriptors ++ st.fds.drop (st.fds_read + r.descriptors.length))) := by
  refine ⟨?_, fun st st1 r hk hs hr hstep => receive_iteration_copies st st1 r hk hs hr hstep⟩
  unfold receive_data at hout
  by_cases hreq : bytes_requested = 0
  · simp only [hreq, if_true, Option.some.injEq] at hout
    subst hout
    simp at hok
  · simp only [hreq, if_false] at hout
    cases hloop : receive_loop recvmsg bytes_requested fuel socket
        { buffer := buffer, fds := fds, bytes_read := 0, fds_read := 0 } with
    | none => simp [hloop] at hout
    | some o =>
      simp only [hloop] at hout
      cases hres : o.result with
      | error e =>
        simp only [hres, Option.some.injEq] at hout
        subst hout
        rw [hres] at hok
        simp at hok
      | ok u =>
        simp only [hres] at hout
        split at hout
        · simp only [Option.some.injEq] at hout
          subst hout
          simp at hok
        · rename_i hfull
          simp only [Option.some.injEq] at hout
          subst hout
          obtain ⟨h1, h2, h3, h4⟩ := receive_loop_collects recvmsg bytes_requested fuel socket _
            o hsize (Nat.zero_le _) hloop hres hkernel
          simp only [List.take_zero, List.nil_append] at h1 h2 h3 h4
          have hlen : o.state.fds_read = o.state.fds.length := by omega
          rw [← h4, hlen, List.take_length]

/-- C20 at a concrete input: an interrupted call, 1 byte without descriptors, 1 byte
with the descriptors 5 and 6 and 1 byte with the descriptor 7 leave `fds` as 5, 6, 7. -/
theorem receive_data_fds_in_arrival_order_witness :
    ∃ out, receive_data scripted_recvmsg 5 script_in_pieces [0, 0, 0] 3 [0, 0, 0] = some out ∧
      out.result = Except.ok () ∧
      out.state.fds = [5, 6, 7] ∧
      out.state.fds = descriptors_received out.calls := by
  have hval : receive_data scripted_recvmsg 5 script_in_pieces [0, 0, 0] 3 [0, 0, 0] =
      some { socket := [],
             state := { buffer := [104, 105, 106], fds := [5, 6, 7], bytes_read := 3,
                        fds_read := 3 },
             calls := [(recv_request 3 ⟨[0, 0, 0], [0, 0, 0], 0, 0⟩, failed_answer EINTR),
               (recv_request 3 ⟨[0, 0, 0], [0, 0, 0], 0, 0⟩, bytes_answer [104]),
               (recv_request 3 ⟨[104, 0, 0], [0, 0, 0], 1, 0⟩, rights_answer [105] [5, 6]),
               (recv_request 3 ⟨[104, 105, 0], [5, 6, 0], 2, 2⟩, rights_answer [106] [7])],
             result := Except.ok () } := rfl
  exact ⟨_, hval, rfl, rfl,
    (receive_data_fds_in_arrival_order scripted_recvmsg 5 script_in_pieces [0, 0, 0] 3
      [0, 0, 0] _ (by decide) hval rfl (by decide)).1⟩

/-! ## A control block that is not a rights block -/

theorem receive_iteration_not_rights (st : ReceiveState) (r : RecvResult) (cmsg : cmsghdr)
    (hpos : 0 < r.result) (hcontrol : r.control = some cmsg)
    (hnot : cmsg.cmsg_level ≠ SOL_SOCKET ∨ cmsg.cmsg_type ≠ SCM_RIGHTS) :
    receive_iteration st r =
      ({ st with buffer := store_bytes st.buffer st.bytes_read r.received,
                 bytes_read := to_size_t ((st.bytes_read : Int) + r.result) },
        some ReceiveError.fd_reception_error) := by
  have h0 : ¬ r.result = 0 := by omega
  have hneg : ¬ r.result < 0 := by omega
  simp only [receive_iteration, h0, hneg, if_false, hcontrol, hnot, if_true]

/-- C21 (amended). In the loop of `receive_data`, at any loop state that has bytes to
read yet: when the `recvmsg` call succeeds and delivers a control block that is not a
passed-rights block (its level is not SOL_SOCKET or its type is not SCM_RIGHTS), a
credentials block (level SOL_SOCKET, type SCM_CREDENTIALS) included, the call fails
with the fd reception error after that one `recvmsg` call: the loop does not go on,
and `fds` and `fds_read` are as before the call. -/
theorem receive_loop_rejects_other_block {σ : Type}
    (recvmsg : σ → RecvRequest → RecvResult × σ) (bytes_requested fuel : Nat) (socket : σ)
    (st : ReceiveState) (cmsg : cmsghdr)
    (hgo : st.bytes_read < bytes_requested)
    (hpos : 0 < (recvmsg socket (recv_request bytes_requested st)).1.result)
    (hcontrol : (recvmsg socket (recv_request bytes_requested st)).1.control = some cmsg)
    (hnot : (cmsg.cmsg_level = SOL_SOCKET ∧ cmsg.cmsg_type = SCM_CREDENTIALS) ∨
      cmsg.cmsg_level ≠ SOL_SOCKET ∨ cmsg.cmsg_type ≠ SCM_RIGHTS) :
    ∃ out, receive_loop recvmsg bytes_requested (fuel + 1) socket st = some out ∧
      out.result = Except.error ReceiveError.fd_reception_error ∧
      out.calls = [(recv_request bytes_requested st,
        (recvmsg socket (recv_request bytes_requested st)).1)] ∧
      out.state.fds = st.fds ∧ out.state.fds_read = st.fds_read := by
  have hother : cmsg.cmsg_level ≠ SOL_SOCKET ∨ cmsg.cmsg_type ≠ SCM_RIGHTS := by
    rcases hnot with ⟨_, htype⟩ | h
    · right
      rw [htype]
      decide
    · exact h
  exact ⟨_, receive_loop_throws recvmsg bytes_requested fuel socket st _ _ hgo
    (receive_iteration_not_rights st _ cmsg hpos hcontrol hother), rfl, rfl, rfl, rfl⟩

/-- C21 at a concrete input: with 2 descriptor slots open, an answer that delivers one
byte and a credentials block fails with the fd reception error; the answer with the
rest and the descriptors, which is ready behind it, is never asked for. -/
theorem receive_loop_rejects_other_block_witness :
    ∃ out, receive_loop scripted_recvmsg 2 3
        [credentials_answer [104], rights_answer [105] [5, 6]] state_two_slots = some out ∧
      out.result = Except.error ReceiveError.fd_reception_error ∧
      out.calls = [(recv_request 2 state_two_slots, credentials_answer [104])] ∧
      out.state.fds = [0, 0] ∧ out.state.fds_read = 0 :=
  receive_loop_rejects_other_block scripted_recvmsg 2 2
    [credentials_answer [104], rights_answer [105] [5, 6]] state_two_slots _
    (by decide) (by decide) rfl (Or.inl ⟨rfl, rfl⟩)

/-- C21 as stated fails: `receive_data` asked for 2 bytes with 2 descriptor slots,
whose first `recvmsg` call succeeds with one byte and a credentials block, does not
go on to the next call: it fails with the fd reception error after the one call. -/
theorem credentials_block_counterexample :
    ∃ out, receive_data scripted_recvmsg 3
        [credentials_answer [104], rights_answer [105] [5, 6]] [0, 0] 2 [0, 0] = some out ∧
      out.result = Except.error ReceiveError.fd_reception_error ∧
      out.calls.length = 1 ∧ out.socket = [rights_answer [105] [5, 6]] :=
  ⟨_, rfl, rfl, rfl, rfl⟩

/-! ## The bytes stored -/

theorem receive_iteration_bytes (st st1 : ReceiveState) (r : RecvResult)
    (hstep : receive_iteration st r = (st1, none)) :
    (0 < r.result → st1.buffer = store_bytes st.buffer st.bytes_read r.received ∧
      st1.bytes_read = to_size_t ((st.bytes_read : Int) + r.result)) ∧
    (¬ 0 < r.result → st1.buffer = st.buffer ∧ st1.bytes_read = st.bytes_read) := by
  unfold receive_iteration at hstep
  by_cases h0 : r.result = 0
  · simp [h0] at hstep
  · simp only [h0, if_false] at hstep
    by_cases hneg : r.result < 0
    · have hnpos : ¬ 0 < r.result := by omega
      simp only [hneg, if_true] at hstep
      split at hstep
      · simp only [Prod.mk.injEq, and_true] at hstep
        subst hstep
        exact ⟨fun h => absurd h hnpos, fun _ => ⟨rfl, rfl⟩⟩
      · split at hstep <;> simp at hstep
    · have hpos : 0 < r.result := by omega
      simp only [hneg, if_false] at hstep
      refine ⟨fun _ => ?_, fun h => absurd hpos h⟩
      cases hcontrol : r.control with
      | none =>
        simp only [hcontrol, Prod.mk.injEq, and_true] at hstep
        subst hstep
        exact ⟨rfl, rfl⟩
      | some cmsg =>
        simp only [hcontrol] at hstep
        split at hstep
        · simp at hstep
        · split at hstep
          · simp at hstep
          · simp only [Prod.mk.injEq, and_true] at hstep
            subst hstep
            exact ⟨rfl, rfl⟩

theorem store_bytes_at_end (acc original received : List Nat) :
    store_bytes (acc ++ original.drop acc.length) acc.length received =
      (acc ++ received) ++ original.drop (acc ++ received).length := by
  unfold store_bytes
  rw [List.take_left, List.drop_append, List.drop_drop, List.length_append]

theorem bytes_read_step (bytes_read bytes_requested : Nat) (result : Int) (stored : Nat)
    (hsize : bytes_requested < 18446744073709551616) (hle : bytes_read ≤ bytes_requested)
    (hpos : 0 < result) (hwithin : result ≤ ((bytes_requested - bytes_read : Nat) : Int))
    (hstored : (stored : Int) = result) :
    to_size_t ((bytes_read : Int) + result) = bytes_read + stored ∧
      bytes_read + stored ≤ bytes_requested := by
  have h1 : (to_size_t ((bytes_read : Int) + result) : Int) = (bytes_read : Int) + result :=
    to_size_t_of_fits _ (by omega) (by omega)
  omega

theorem receive_loop_bytes {σ : Type} (recvmsg : σ → RecvRequest → RecvResult × σ)
    (bytes_requested : Nat) (hsize : bytes_requested < 18446744073709551616)
    (original : List Nat) (fuel : Nat) :
    ∀ (socket : σ) (st : ReceiveState) (out : ReceiveOutcome σ) (acc : List Nat),
      st.bytes_read = acc.length → acc.length ≤ bytes_requested →
      st.buffer = acc ++ original.drop acc.length →
      receive_loop recvmsg bytes_requested fuel socket st = some out →
      out.result = Except.ok () →
      (∀ call ∈ out.calls, within_request call = true) →
      out.state.bytes_read = bytes_requested ∧
        (acc ++ bytes_received out.calls).length = bytes_requested ∧
        out.state.buffer = (acc ++ bytes_received out.calls) ++ original.drop bytes_requested ∧
        ∀ (i : Nat) (call : RecvRequest × RecvResult), out.calls[i]? = some call →
          acc.length + (bytes_received (out.calls.take i)).length < bytes_requested ∧
          call.1.offset = acc.length + (bytes_received (out.calls.take i)).length ∧
          call.1.iov_len =
            bytes_requested - (acc.length + (bytes_received (out.calls.take i)).length) ∧
          acc.length + (bytes_received (out.calls.take (i + 1))).length ≤ bytes_requested := by
  induction fuel with
  | zero =>
    intro socket st out acc hread hle hbuffer hloop hok hwithin
    unfold receive_loop at hloop
    split at hloop
    · simp at hloop
    · rename_i hdone
      simp only [Option.some.injEq] at hloop
      subst hloop
      have hacc : acc.length = bytes_requested := by omega
      refine ⟨?_, by simp [bytes_received, hacc], ?_, ?_⟩
      · show st.bytes_read = bytes_requested
        omega
      · simp [bytes_received, hbuffer, hacc]
      · intro i call hcall
        simp at hcall
  | succ fuel ih =>
    intro socket st out acc hread hle hbuffer hloop hok hwithin
    unfold receive_loop at hloop
    split at hloop
    · rename_i hgo
      cases hstep : receive_iteration st
          (recvmsg socket (recv_request bytes_requested st)).1 with
      | mk st1 thrown =>
        cases thrown with
        | some e =>
          simp only [hstep, Option.some.injEq] at hloop
          subst hloop
          simp at hok
        | none =>
          simp only [hstep, Option.map_eq_some'] at hloop
          obtain ⟨out1, hloop1, hout⟩ := hloop
          subst hout
          generalize (recvmsg socket (recv_request bytes_requested st)).1 = r at *
          have hw0 := hwithin _ (List.mem_cons_self _ _)
          have hwrest : ∀ call ∈ out1.calls, within_request call = true :=
            fun call hcall => hwithin call (List.mem_cons_of_mem _ hcall)
          simp only [within_request, recv_request, decide_eq_true_eq] at hw0
          obtain ⟨hbytes_pos, hbytes_neg⟩ := receive_iteration_bytes st st1 _ hstep
          by_cases hpos : 0 < r.result
          · obtain ⟨hbuf1, hread1⟩ := hbytes_pos hpos
            have hstored : ((r.received.length
                : Nat) : Int) = r.result := by
              rcases hw0.2 with h | h
              · omega
              · exact h
            obtain ⟨hto, hroom⟩ := bytes_read_step st.bytes_read bytes_requested _ _ hsize
              (by omega) hpos hw0.1 hstored
            have hread2 : st1.bytes_read =
                (acc ++ r.received).length := by
              rw [hread1, hto, List.length_append, hread]
            have hbuf2 : st1.buffer =
                (acc ++ r.received) ++
                  original.drop
                    (acc ++ r.received).length := by
              rw [hbuf1, hbuffer, hread]
              exact store_bytes_at_end acc original _
            have hle2 : (acc ++ r.received).length ≤ bytes_requested := by
              rw [List.length_append]
              omega
            obtain ⟨h1, h2, h3, h4⟩ := ih _ st1 out1 _ hread2 hle2 hbuf2 hloop1 hok hwrest
            refine ⟨h1, ?_, ?_, ?_⟩
            · show (acc ++ bytes_received ((recv_request bytes_requested st, r) ::
                out1.calls)).length =
                bytes_requested
              simp only [bytes_received, hpos, if_true]
              rw [← List.append_assoc]
              exact h2
            · show out1.state.buffer = (acc ++ bytes_received ((recv_request bytes_requested st, r) ::
                out1.calls)) ++
                original.drop bytes_requested
              simp only [bytes_received, hpos, if_true]
              rw [← List.append_assoc]
              exact h3
            · intro i call hcall
              cases i with
              | zero =>
                simp only [ReceiveOutcome.after_call, List.getElem?_cons_zero,
                  Option.some.injEq] at hcall
                subst hcall
                simp only [ReceiveOutcome.after_call, List.take_zero, bytes_received,
                  List.length_nil, Nat.add_zero, recv_request, List.take_succ_cons,
                  hpos, if_true, List.append_nil]
                refine ⟨by omega, by omega, by omega, ?_⟩
                rw [List.length_append] at hle2
                exact hle2
              | succ i =>
                simp only [ReceiveOutcome.after_call, List.getElem?_cons_succ] at hcall
                obtain ⟨g1, g2, g3, g4⟩ := h4 i call hcall
                simp only [ReceiveOutcome.after_call, List.take_succ_cons, bytes_received,
                  hpos, if_true, List.length_append] at g1 g2 g3 g4 ⊢
                refine ⟨by omega, by omega, by omega, by omega⟩
          · obtain ⟨hbuf1, hread1⟩ := hbytes_neg hpos
            obtain ⟨h1, h2, h3, h4⟩ := ih _ st1 out1 acc (by rw [hread1, hread]) hle
              (by rw [hbuf1, hbuffer]) hloop1 hok hwrest
            refine ⟨h1, ?_, ?_, ?_⟩
            · show (acc ++ bytes_received ((recv_request bytes_requested st, r) ::
                out1.calls)).length =
                bytes_requested
              simp only [bytes_received, hpos, if_false, List.nil_append]
              exact h2
            · show out1.state.buffer = (acc ++ bytes_received ((recv_request bytes_requested st, r) ::
                out1.calls)) ++
                original.drop bytes_requested
              simp only [bytes_received, hpos, if_false, List.nil_append]
              exact h3
            · intro i call hcall
              cases i with
              | zero =>
                simp only [ReceiveOutcome.after_call, List.getElem?_cons_zero,
                  Option.some.injEq] at hcall
                subst hcall
                simp only [ReceiveOutcome.after_call, List.take_zero, bytes_received,
                  List.length_nil, Nat.add_zero, recv_request, List.take_succ_cons,
                  hpos, if_false, List.append_nil]
                refine ⟨by omega, by omega, by omega, by omega⟩
              | succ i =>
                simp only [ReceiveOutcome.after_call, List.getElem?_cons_succ] at hcall
                obtain ⟨g1, g2, g3, g4⟩ := h4 i call hcall
                simp only [ReceiveOutcome.after_call, List.take_succ_cons, bytes_received,
                  hpos, if_false, List.nil_append] at g1 g2 g3 g4 ⊢
                exact ⟨g1, g2, g3, g4⟩
    · rename_i hdone
      simp only [Option.some.injEq] at hloop
      subst hloop
      have hacc : acc.length = bytes_requested := by omega
      refine ⟨?_, by simp [bytes_received, hacc], ?_, ?_⟩
      · show st.bytes_read = bytes_requested
        omega
      · simp [bytes_received, hbuffer, hacc]
      · intro i call hcall
        simp at hcall

theorem receive_data_returned {σ : Type} (recvmsg : σ → RecvRequest → RecvResult × σ)
    (fuel : Nat) (socket : σ) (buffer : List Nat) (bytes_requested : Nat) (fds : List Int)
    (out : ReceiveOutcome σ)
    (hrun : receive_data recvmsg fuel socket buffer bytes_requested fds = some out)
    (hok : out.result = Except.ok ()) :
    bytes_requested ≠ 0 ∧
      receive_loop recvmsg bytes_requested fuel socket
        { buffer := buffer, fds := fds, bytes_read := 0, fds_read := 0 } = some out ∧
      ¬ out.state.fds_read < out.state.fds.length := by
  unfold receive_data at hrun
  split at hrun
  · simp only [Option.some.injEq] at hrun
    subst hrun
    simp at hok
  · rename_i hreq
    refine ⟨hreq, ?_⟩
    split at hrun
    · simp at hrun
    · rename_i o hloop
      split at hrun
      · rename_i e herr
        simp only [Option.some.injEq] at hrun
        subst hrun
        rw [herr] at hok
        simp at hok
      · split at hrun
        · simp only [Option.some.injEq] at hrun
          subst hrun
          simp at hok
        · rename_i hfull
          simp only [Option.some.injEq] at hrun
          subst hrun
          exact ⟨hloop, hfull⟩

/-- C22. Whenever `receive_data` returns normally, the `recvmsg` calls having returned
at most the length they were given (and a positive return value being the number of
bytes stored): `bytes_read` ends equal to `bytes_requested`; the bytes received over
all calls are `bytes_requested` many, and the buffer holds them from its start on in
arrival order, followed by what the buffer held beyond `bytes_requested`; and each
call is made with fewer than `bytes_requested` bytes received before it, at the offset
that is their number, with the length that is left to `bytes_requested`, and leaves at
most `bytes_requested` bytes received. -/
theorem receive_data_bytes_contiguous {σ : Type}
    (recvmsg : σ → RecvRequest → RecvResult × σ) (fuel : Nat) (socket : σ)
    (buffer : List Nat) (bytes_requested : Nat) (fds : List Int) (out : ReceiveOutcome σ)
    (hsize : bytes_requested < 18446744073709551616)
    (hrun : receive_data recvmsg fuel socket buffer bytes_requested fds = some out)
    (hok : out.result = Except.ok ())
    (hwithin : ∀ call ∈ out.calls, within_request call = true) :
    out.state.bytes_read = bytes_requested ∧
      (bytes_received out.calls).length = bytes_requested ∧
      out.state.buffer = bytes_received out.calls ++ buffer.drop bytes_requested ∧
      ∀ (i : Nat) (call : RecvRequest × RecvResult), out.calls[i]? = some call →
        (bytes_received (out.calls.take i)).length < bytes_requested ∧
        call.1.offset = (bytes_received (out.calls.take i)).length ∧
        call.1.iov_len = bytes_requested - (bytes_received (out.calls.take i)).length ∧
        (bytes_received (out.calls.take (i + 1))).length ≤ bytes_requested := by
  obtain ⟨_, hloop, _⟩ := receive_data_returned recvmsg fuel socket buffer bytes_requested fds
    out hrun hok
  have h := receive_loop_bytes recvmsg bytes_requested hsize buffer fuel socket _ out []
    rfl (Nat.zero_le _) rfl hloop hok hwithin
  simpa using h

/-- C22 at a concrete input: 3 bytes asked for with 3 descriptor slots, received in
three pieces after an interrupted call. The four calls ask for offset 0 length 3
(twice), offset 1 length 2 and offset 2 length 1, and the buffer ends as 104, 105,
106 followed by its fourth byte 9. -/
theorem receive_data_bytes_contiguous_witness :
    (∃ out, receive_data scripted_recvmsg 9 script_in_pieces [0, 0, 0, 9] 3 [0, 0, 0] =
        some out ∧ out.result = Except.ok () ∧
      out.calls.map (fun call => (call.1.offset, call.1.iov_len)) =
        [(0, 3), (0, 3), (1, 2), (2, 1)] ∧
      bytes_received out.calls = [104, 105, 106] ∧
      out.state.buffer = [104, 105, 106, 9]) ∧
    ∀ out, receive_data scripted_recvmsg 9 script_in_pieces [0, 0, 0, 9] 3 [0, 0, 0] =
        some out →
      out.state.bytes_read = 3 ∧ (bytes_received out.calls).length = 3 ∧
        out.state.buffer = bytes_received out.calls ++ [9] :=
  ⟨⟨_, rfl, rfl, rfl, rfl, rfl⟩, fun out hrun =>
    have hval : some out = receive_data scripted_recvmsg 9 script_in_pieces [0, 0, 0, 9] 3
        [0, 0, 0] := hrun.symm
    have h := receive_data_bytes_contiguous scripted_recvmsg 9 script_in_pieces [0, 0, 0, 9] 3
      [0, 0, 0] out (by decide) hrun
      (by have := congrArg (Option.map (fun o => o.result)) hval; exact Option.some.inj this)
      (by
        intro call hcall
        have hcalls := congrArg (Option.map (fun o => o.calls)) hval
        have hc : out.calls = _ := Option.some.inj hcalls
        rw [hc] at hcall
        revert call
        decide)
    ⟨h.1, h.2.1, h.2.2.1⟩⟩

/-! ## The descriptor slots written -/

theorem copy_fds_length (data : List Int) (base : Nat) :
    ∀ (count i : Nat) (fds : List Int),
      (copy_fds data base count i fds).length = fds.length := by
  intro count
  induction count with
  | zero =>
    intro i fds
    simp [copy_fds]
  | succ count ih =>
    intro i fds
    unfold copy_fds
    rw [ih, List.length_set]

theorem nfds_in_bounds (st : ReceiveState) (cmsg : cmsghdr)
    (hread : st.fds_read ≤ st.fds.length) (hheader : cmsg_header_size ≤ cmsg.cmsg_len)
    (hfits : cmsg.cmsg_len ≤ CMSG_LEN (fds_bytes st)) :
    (st.fds_read : Int) + nfds_of cmsg ≤ st.fds.length ∧
      (∀ i : Nat, (i : Int) < nfds_of cmsg →
        to_unsigned ((st.fds_read : Int) + i) < st.fds.length) ∧
      to_unsigned ((st.fds_read : Int) + nfds_of cmsg) ≤ st.fds.length := by
  have h16 : (CMSG_ALIGN cmsg_header_size : Int) = 16 := by decide
  unfold CMSG_LEN at hfits
  rw [h16] at hfits
  simp only [fds_bytes, nfds_of, to_size_t, to_int, to_unsigned, cmsg_header_size,
    sizeof_int] at *
  refine ⟨?_, ?_, ?_⟩
  · omega
  · intro i hi
    omega
  · omega

theorem receive_iteration_keeps_bounds (st : ReceiveState) (r : RecvResult)
    (hread : st.fds_read ≤ st.fds.length)
    (hheader : ∀ cmsg, r.control = some cmsg → cmsg_header_size ≤ cmsg.cmsg_len) :
    (receive_iteration st r).1.fds.length = st.fds.length ∧
      (receive_iteration st r).1.fds_read ≤ (receive_iteration st r).1.fds.length := by
  generalize hres : receive_iteration st r = res
  obtain ⟨st1, thrown⟩ := res
  show st1.fds.length = st.fds.length ∧ st1.fds_read ≤ st1.fds.length
  unfold receive_iteration at hres
  split at hres
  · simp only [Prod.mk.injEq] at hres
    obtain ⟨rfl, _⟩ := hres
    exact ⟨rfl, hread⟩
  · split at hres
    · split at hres
      · simp only [Prod.mk.injEq] at hres
        obtain ⟨rfl, _⟩ := hres
        exact ⟨rfl, hread⟩
      · split at hres <;>
        · simp only [Prod.mk.injEq] at hres
          obtain ⟨rfl, _⟩ := hres
          exact ⟨rfl, hread⟩
    · cases hcontrol : r.control with
      | none =>
        simp only [hcontrol, Prod.mk.injEq] at hres
        obtain ⟨rfl, _⟩ := hres
        exact ⟨rfl, hread⟩
      | some cmsg =>
        simp only [hcontrol] at hres
        split at hres
        · simp only [Prod.mk.injEq] at hres
          obtain ⟨rfl, _⟩ := hres
          exact ⟨rfl, hread⟩
        · split at hres
          · simp only [Prod.mk.injEq] at hres
            obtain ⟨rfl, _⟩ := hres
            exact ⟨rfl, hread⟩
          · rename_i hrights hfits
            have hfits1 : cmsg.cmsg_len ≤ CMSG_LEN (fds_bytes st) :=
              Nat.le_of_not_lt (fun hgt => hfits (Or.inl hgt))
            obtain ⟨_, _, h3⟩ := nfds_in_bounds st cmsg hread (hheader cmsg hcontrol) hfits1
            have hlen := copy_fds_length cmsg.data st.fds_read (nfds_of cmsg).toNat 0 st.fds
            simp only [Prod.mk.injEq] at hres
            obtain ⟨rfl, _⟩ := hres
            simp only [hlen]
            exact ⟨trivial, h3⟩

theorem receive_loop_keeps_bounds {σ : Type} (recvmsg : σ → RecvRequest → RecvResult × σ)
    (bytes_requested fuel : Nat) :
    ∀ (socket : σ) (st : ReceiveState) (out : ReceiveOutcome σ),
      st.fds_read ≤ st.fds.length →
      receive_loop recvmsg bytes_requested fuel socket st = some out →
      (∀ call ∈ out.calls, ∀ cmsg, call.2.control = some cmsg →
        cmsg_header_size ≤ cmsg.cmsg_len) →
      out.state.fds.length = st.fds.length ∧ out.state.fds_read ≤ out.state.fds.length := by
  induction fuel with
  | zero =>
    intro socket st out hread hloop hheader
    unfold receive_loop at hloop
    split at hloop
    · simp at hloop
    · simp only [Option.some.injEq] at hloop
      subst hloop
      exact ⟨rfl, hread⟩
  | succ fuel ih =>
    intro socket st out hread hloop hheader
    unfold receive_loop at hloop
    split at hloop
    · cases hstep : receive_iteration st
          (recvmsg socket (recv_request bytes_requested st)).1 with
      | mk st1 thrown =>
        cases thrown with
        | some e =>
          simp only [hstep, Option.some.injEq] at hloop
          subst hloop
          have hkeep := receive_iteration_keeps_bounds st _ hread
            (hheader _ (List.mem_cons_self _ _))
          rw [hstep] at hkeep
          exact hkeep
        | none =>
          simp only [hstep, Option.map_eq_some'] at hloop
          obtain ⟨out1, hloop1, hout⟩ := hloop
          subst hout
          have hkeep := receive_iteration_keeps_bounds st _ hread
            (hheader _ (List.mem_cons_self _ _))
          rw [hstep] at hkeep
          obtain ⟨h1, h2⟩ := ih _ st1 out1 hkeep.2 hloop1
            (fun call hcall => hheader call (List.mem_cons_of_mem _ hcall))
          exact ⟨h1.trans hkeep.1, h2⟩
    · simp only [Option.some.injEq] at hloop
      subst hloop
      exact ⟨rfl, hread⟩

/-- C26. In `receive_data`, at a loop state with `fds_read <= fds.size()`: for every
control block that passes the length and truncation check and whose `cmsg_len` is at
least the size of the control header, the count `nfds` satisfies
`fds_read + nfds <= fds.size()`, every index `fds_read + i` with `i < nfds` that the
copy loop writes is an index of `fds`, and for a rights block the iteration stores
`fds_read + nfds` as the new `fds_read`. Any iteration whose block, if it has one, is
that long leaves `fds` at its size and `fds_read <= fds.size()`, whether it throws or
not; and so does every run of the loop from that state, however many calls it makes,
whose blocks are all that long. -/
theorem receive_data_fds_in_bounds (st : ReceiveState)
    (hread : st.fds_read ≤ st.fds.length) :
    (∀ (r : RecvResult) (cmsg : cmsghdr), r.control = some cmsg →
      ¬ (cmsg.cmsg_len > CMSG_LEN (fds_bytes st) ∨ r.ctrunc = true) →
      cmsg_header_size ≤ cmsg.cmsg_len →
      (st.fds_read : Int) + nfds_of cmsg ≤ st.fds.length ∧
        (∀ i : Nat, (i : Int) < nfds_of cmsg →
          to_unsigned ((st.fds_read : Int) + i) < st.fds.length) ∧
        (0 < r.result → cmsg.cmsg_level = SOL_SOCKET → cmsg.cmsg_type = SCM_RIGHTS →
          receive_iteration st r =
            ({ buffer := store_bytes st.buffer st.bytes_read r.received,
               fds := copy_fds cmsg.data st.fds_read (nfds_of cmsg).toNat 0 st.fds,
               bytes_read := to_size_t ((st.bytes_read : Int) + r.result),
               fds_read := to_unsigned ((st.fds_read : Int) + nfds_of cmsg) }, none))) ∧
    (∀ r : RecvResult,
      (∀ cmsg, r.control = some cmsg → cmsg_header_size ≤ cmsg.cmsg_len) →
      (receive_iteration st r).1.fds.length = st.fds.length ∧
        (receive_iteration st r).1.fds_read ≤ (receive_iteration st r).1.fds.length) ∧
    (∀ (σ : Type) (recvmsg : σ → RecvRequest → RecvResult × σ) (bytes_requested fuel : Nat)
      (socket : σ) (out : ReceiveOutcome σ),
      receive_loop recvmsg bytes_requested fuel socket st = some out →
      (∀ call ∈ out.calls, ∀ cmsg, call.2.control = some cmsg →
        cmsg_header_size ≤ cmsg.cmsg_len) →
      out.state.fds.length = st.fds.length ∧ out.state.fds_read ≤ out.state.fds.length) := by
  refine ⟨?_, ?_, ?_⟩
  · intro r cmsg hcontrol hpass hheader
    have hfits : cmsg.cmsg_len ≤ CMSG_LEN (fds_bytes st) :=
      Nat.le_of_not_lt (fun hgt => hpass (Or.inl hgt))
    obtain ⟨h1, h2, _⟩ := nfds_in_bounds st cmsg hread hheader hfits
    refine ⟨h1, h2, ?_⟩
    intro hpos hlevel htype
    have h0 : ¬ r.result = 0 := by omega
    have hneg : ¬ r.result < 0 := by omega
    simp only [receive_iteration, h0, hneg, if_false, hcontrol, hlevel, htype, ne_eq,
      not_true_eq_false, or_self, hpass]
  · intro r hheader
    exact receive_iteration_keeps_bounds st r hread hheader
  · intro σ recvmsg bytes_requested fuel socket out hloop hheader
    exact receive_loop_keeps_bounds recvmsg bytes_requested fuel socket st out hread hloop
      hheader

/-- C26 at a concrete input: with 1 of 3 descriptors read, a rights block with the two
descriptors 7, 8 has `nfds` 2, so that `fds_read + nfds` is 3, the size of `fds`; the
indices written are 1 and 2, and the iteration leaves `fds` as 5, 7, 8 with
`fds_read` 3. -/
theorem receive_data_fds_in_bounds_witness :
    state_midway.fds_read ≤ state_midway.fds.length ∧
      nfds_of (rights_block [7, 8]) = 2 ∧
      ((state_midway.fds_read : Int) + nfds_of (rights_block [7, 8]) ≤
          state_midway.fds.length ∧
        (∀ i : Nat, (i : Int) < nfds_of (rights_block [7, 8]) →
          to_unsigned ((state_midway.fds_read : Int) + i) < state_midway.fds.length) ∧
        (0 < (rights_answer [106, 107] [7, 8]).result →
          (rights_block [7, 8]).cmsg_level = SOL_SOCKET →
          (rights_block [7, 8]).cmsg_type = SCM_RIGHTS →
          receive_iteration state_midway (rights_answer [106, 107] [7, 8]) =
            ({ buffer := store_bytes state_midway.buffer state_midway.bytes_read [106, 107],
               fds := copy_fds [7, 8] state_midway.fds_read
                 (nfds_of (rights_block [7, 8])).toNat 0 state_midway.fds,
               bytes_read := to_size_t ((state_midway.bytes_read : Int) + 2),
               fds_read := to_unsigned ((state_midway.fds_read : Int) +
                 nfds_of (rights_block [7, 8])) }, none))) ∧
      (receive_iteration state_midway (rights_answer [106, 107] [7, 8])).1.fds = [5, 7, 8] ∧
      (receive_iteration state_midway (rights_answer [106, 107] [7, 8])).1.fds_read = 3 :=
  ⟨by decide, by decide,
   (receive_data_fds_in_bounds state_midway (by decide)).1
     (rights_answer [106, 107] [7, 8]) (rights_block [7, 8]) rfl (by decide) (by decide),
   by decide, by decide⟩

/-! ## Sending descriptors -/

/-- C23. With an empty descriptor list, `send_fds` does nothing, for every socket:
it makes no `sendmsg` call, so that no message and no control block is handed to the
socket, whose state is as before, and it returns normally. -/
theorem send_fds_empty_is_no_op {σ : Type} (sendmsg : σ → SendRequest → SendResult × σ)
    (socket : σ) :
    (send_fds sendmsg socket []).calls = [] ∧
      (send_fds sendmsg socket []).socket = socket ∧
      (send_fds sendmsg socket []).result = Except.ok () :=
  ⟨rfl, rfl, rfl⟩

theorem send_fds_calls_once {σ : Type} (sendmsg : σ → SendRequest → SendResult × σ)
    (socket : σ) (fds : List Int) (hfds : fds ≠ []) :
    (send_fds sendmsg socket fds).calls =
        [(send_request fds, (sendmsg socket (send_request fds)).1)] ∧
      (send_fds sendmsg socket fds).socket = (sendmsg socket (send_request fds)).2 ∧
      (send_fds sendmsg socket fds).result =
        if (sendmsg socket (send_request fds)).1.sent < 0 then
          Except.error (SendError.failed_to_send (sendmsg socket (send_request fds)).1.errno)
        else Except.ok () := by
  have hlen : fds.length > 0 := List.length_pos.mpr hfds
  unfold send_fds
  simp only [hlen, if_true]
  split <;> exact ⟨rfl, rfl, rfl⟩

/-- C24 in the code: with a non-empty descriptor list, `send_fds` makes exactly one
`sendmsg` call, and it fails, with the error carrying the `errno` of that call,
exactly when the call returns a negative value, whatever the `errno`: a call
interrupted with EINTR is not made again and fails like any other. -/
theorem send_fds_fails_on_any_errno {σ : Type} (sendmsg : σ → SendRequest → SendResult × σ)
    (socket : σ) (fds : List Int) (hfds : fds ≠ []) :
    (send_fds sendmsg socket fds).calls.length = 1 ∧
      ((sendmsg socket (send_request fds)).1.sent < 0 →
        (send_fds sendmsg socket fds).result =
          Except.error (SendError.failed_to_send (sendmsg socket (send_request fds)).1.errno)) ∧
      (¬ (sendmsg socket (send_request fds)).1.sent < 0 →
        (send_fds sendmsg socket fds).result = Except.ok ()) ∧
      ((sendmsg socket (send_request fds)).1.sent < 0 →
        (sendmsg socket (send_request fds)).1.errno = EINTR →
        (send_fds sendmsg socket fds).result =
          Except.error (SendError.failed_to_send EINTR)) := by
  obtain ⟨hcalls, _, hresult⟩ := send_fds_calls_once sendmsg socket fds hfds
  refine ⟨by rw [hcalls]; rfl, ?_, ?_, ?_⟩
  · intro hneg
    rw [hresult, if_pos hneg]
  · intro hnot
    rw [hresult, if_neg hnot]
  · intro hneg hintr
    rw [hresult, if_pos hneg, hintr]

/-- C24 at a concrete input: sending the descriptors 5 and 6 over a socket whose
first `sendmsg` call is interrupted (returns -1 with EINTR) and whose next call would
succeed: `send_fds` makes the one call and fails with the error carrying EINTR. -/
theorem send_fds_fails_on_any_errno_witness :
    (send_fds scripted_sendmsg [{ sent := -1, errno := EINTR }] [5, 6]).calls.length = 1 ∧
      (send_fds scripted_sendmsg [{ sent := -1, errno := EINTR }] [5, 6]).result =
        Except.error (SendError.failed_to_send EINTR) ∧
      (send_fds scripted_sendmsg [{ sent := -1, errno := EINTR }] [5, 6]).socket = [] :=
  ⟨(send_fds_fails_on_any_errno scripted_sendmsg [{ sent := -1, errno := EINTR }] [5, 6]
      (by decide)).1,
   (send_fds_fails_on_any_errno scripted_sendmsg [{ sent := -1, errno := EINTR }] [5, 6]
      (by decide)).2.2.2 (by decide) rfl,
   rfl⟩

/-! ## A round trip over a channel -/

theorem receive_iteration_takes_block (st : ReceiveState) (r : RecvResult) (cmsg : cmsghdr)
    (hpos : 0 < r.result) (hcontrol : r.control = some cmsg)
    (hlevel : cmsg.cmsg_level = SOL_SOCKET) (htype : cmsg.cmsg_type = SCM_RIGHTS)
    (hfits : cmsg.cmsg_len ≤ CMSG_LEN (fds_bytes st)) (hwhole : r.ctrunc = false) :
    receive_iteration st r =
      ({ buffer := store_bytes st.buffer st.bytes_read r.received,
         fds := copy_fds cmsg.data st.fds_read (nfds_of cmsg).toNat 0 st.fds,
         bytes_read := to_size_t ((st.bytes_read : Int) + r.result),
         fds_read := to_unsigned ((st.fds_read : Int) + nfds_of cmsg) }, none) := by
  have h0 : ¬ r.result = 0 := by omega
  have hneg : ¬ r.result < 0 := by omega
  have hpass : ¬ (cmsg.cmsg_len > CMSG_LEN (fds_bytes st) ∨ r.ctrunc = true) := by
    rw [hwhole]
    simp only [Bool.false_eq_true, or_false, not_lt]
    exact hfits
  simp only [receive_iteration, h0, hneg, if_false, hcontrol, hlevel, htype, ne_eq,
    not_true_eq_false, or_self, hpass]

theorem receive_loop_done {σ : Type} (recvmsg : σ → RecvRequest → RecvResult × σ)
    (bytes_requested fuel : Nat) (socket : σ) (st : ReceiveState)
    (hdone : ¬ st.bytes_read < bytes_requested) :
    receive_loop recvmsg bytes_requested fuel socket st =
      some { socket := socket, state := st, calls := [], result := Except.ok () } := by
  cases fuel <;> simp only [receive_loop, hdone, if_false]

theorem receive_iteration_whole_message (buffer payload : List Nat) (fds slots : List Int)
    (hpayload : payload ≠ []) (hbytes : payload.length < 18446744073709551616)
    (hslots : slots.length = fds.length) (hsize : fds.length < 2147483648) :
    receive_iteration { buffer := buffer, fds := slots, bytes_read := 0, fds_read := 0 }
        (rights_answer payload fds) =
      ({ buffer := payload ++ buffer.drop payload.length, fds := fds,
         bytes_read := payload.length, fds_read := fds.length }, none) := by
  have hlen : 0 < payload.length := List.length_pos.mpr hpayload
  have hsize0 : slots.length < 2147483648 := by omega
  have hfits : (rights_block fds).cmsg_len ≤
      CMSG_LEN (fds_bytes { buffer := buffer, fds := slots, bytes_read := 0, fds_read := 0 }) := by
    rw [fds_bytes_of_fits _ (Nat.zero_le _) hsize0]
    show CMSG_LEN (sizeof_int * fds.length) ≤ CMSG_LEN (sizeof_int * (slots.length - 0))
    rw [hslots, Nat.sub_zero]
  have hpos : 0 < (rights_answer payload fds).result := by
    show (0 : Int) < (payload.length : Int)
    omega
  have hblock : (rights_block fds).cmsg_len =
      cmsg_header_size + sizeof_int * (rights_block fds).data.length :=
    CMSG_LEN_of_fits _ (by simp only [sizeof_int]; omega)
  have hnfds : nfds_of (rights_block fds) = fds.length :=
    nfds_of_kernel_made (rights_block fds) hblock hsize
  have hcopy : copy_fds fds 0 fds.length 0 slots = fds := by
    rw [copy_fds_spec fds 0 fds.length 0 slots (by omega) (by omega) hsize0]
    simp [hslots]
  have hto : to_size_t (((0 : Nat) : Int) + (payload.length : Int)) = payload.length := by
    have h1 := to_size_t_of_fits (((0 : Nat) : Int) + (payload.length : Int)) (by omega)
      (by omega)
    omega
  have hun : to_unsigned (((0 : Nat) : Int) + (fds.length : Int)) = fds.length := by
    have h1 := to_unsigned_of_fits (((0 : Nat) : Int) + (fds.length : Int)) (by omega)
      (by omega)
    omega
  have hstore : store_bytes buffer 0 payload = payload ++ buffer.drop payload.length := by
    simp [store_bytes]
  rw [receive_iteration_takes_block _ (rights_answer payload fds) (rights_block fds) hpos rfl
    rfl rfl hfits rfl]
  show (({ buffer := store_bytes buffer 0 payload,
           fds := copy_fds fds 0 (nfds_of (rights_block fds)).toNat 0 slots,
           bytes_read := to_size_t (((0 : Nat) : Int) + (payload.length : Int)),
           fds_read := to_unsigned (((0 : Nat) : Int) + nfds_of (rights_block fds)) } :
         ReceiveState), (none : Option ReceiveError)) = _
  rw [hnfds, Int.toNat_ofNat, hcopy, hto, hun, hstore]

theorem receive_data_one_answer {σ : Type} (recvmsg : σ → RecvRequest → RecvResult × σ)
    (fuel : Nat) (socket socket1 : σ) (buffer payload : List Nat) (fds slots : List Int)
    (hpayload : payload ≠ []) (hbytes : payload.length < 18446744073709551616)
    (hslots : slots.length = fds.length) (hsize : fds.length < 2147483648)
    (hanswer : recvmsg socket (recv_request payload.length
        { buffer := buffer, fds := slots, bytes_read := 0, fds_read := 0 }) =
      (rights_answer payload fds, socket1)) :
    ∃ out, receive_data recvmsg (fuel + 1) socket buffer payload.length slots = some out ∧
      out.result = Except.ok () ∧
      out.state.buffer = payload ++ buffer.drop payload.length ∧
      out.state.fds = fds ∧ out.socket = socket1 ∧ out.calls.length = 1 := by
  have hlen : 0 < payload.length := List.length_pos.mpr hpayload
  have hstep := receive_iteration_whole_message buffer payload fds slots hpayload hbytes hslots
    hsize
  have hfirst : (recvmsg socket (recv_request payload.length
      { buffer := buffer, fds := slots, bytes_read := 0, fds_read := 0 })).1 =
      rights_answer payload fds := by rw [hanswer]
  rw [← hfirst] at hstep
  have hloop := receive_loop_goes_on recvmsg payload.length fuel socket
    { buffer := buffer, fds := slots, bytes_read := 0, fds_read := 0 } _ hlen hstep
  rw [receive_loop_done recvmsg payload.length fuel _ _ (Nat.lt_irrefl _)] at hloop
  simp only [Option.map_some'] at hloop
  have hrun := receive_data_of_loop recvmsg (fuel + 1) socket buffer payload.length slots _
    (by omega) hloop rfl
  simp only [ReceiveOutcome.after_call, Nat.lt_irrefl, if_false] at hrun
  refine ⟨_, hrun, rfl, rfl, rfl, ?_, rfl⟩
  show (recvmsg socket (recv_request payload.length
    { buffer := buffer, fds := slots, bytes_read := 0, fds_read := 0 })).2 = socket1
  rw [hanswer]

theorem control_room_for_slots (st : ReceiveState) (bytes_requested : Nat)
    (hread : st.fds_read = 0) (hsize : st.fds.length < 2147483648) :
    st.fds.length ≤
      ((recv_request bytes_requested st).msg_controllen - cmsg_header_size) / sizeof_int := by
  have hbytes := fds_bytes_of_fits st (by omega) hsize
  have h16 : (CMSG_ALIGN cmsg_header_size : Int) = 16 := by decide
  have hspace : (recv_request bytes_requested st).msg_controllen =
      CMSG_SPACE (fds_bytes st) := rfl
  rw [hspace, hbytes, hread]
  unfold CMSG_SPACE
  rw [h16]
  simp only [CMSG_ALIGN, to_size_t, cmsg_header_size, sizeof_int]
  omega

theorem channel_recvmsg_whole (payload : List Nat) (fds : List Int) (rest : List Message)
    (request : RecvRequest) (hiov : request.iov_len = payload.length) (hfds : fds ≠ [])
    (hroom : fds.length ≤ (request.msg_controllen - cmsg_header_size) / sizeof_int) :
    channel_recvmsg ({ payload := payload, fds := fds } :: rest) request =
      (rights_answer payload fds, rest) := by
  have htake : List.take ((request.msg_controllen - cmsg_header_size) / sizeof_int) fds = fds :=
    List.take_of_length_le hroom
  have hnot : ¬ (request.msg_controllen - cmsg_header_size) / sizeof_int < fds.length := by
    omega
  simp only [channel_recvmsg, rights_answer, hiov, List.take_length, htake, hfds, if_false,
    hnot, decide_False, Nat.lt_irrefl]

theorem send_fds_over_channel (channel : List Message) (fds : List Int) (hfds : fds ≠ [])
    (hsize : fds.length < 2147483648) :
    (send_fds channel_sendmsg channel fds).result = Except.ok () ∧
      (send_fds channel_sendmsg channel fds).socket =
        channel ++ [{ payload := [111, 112], fds := fds }] := by
  obtain ⟨_, hsocket, hresult⟩ := send_fds_calls_once channel_sendmsg channel fds hfds
  have hcount : ((send_request fds).control.cmsg_len - cmsg_header_size) / sizeof_int =
      fds.length := by
    have h16 : (CMSG_ALIGN cmsg_header_size : Int) = 16 := by decide
    show (CMSG_LEN (to_size_t ((fds.length : Int) * sizeof_int)) - cmsg_header_size) /
      sizeof_int = fds.length
    unfold CMSG_LEN
    rw [h16]
    simp only [to_size_t, cmsg_header_size, sizeof_int]
    omega
  constructor
  · rw [hresult]
    have hsent : ¬ (channel_sendmsg channel (send_request fds)).1.sent < 0 := by
      show ¬ (((send_request fds).iov.length : Nat) : Int) < 0
      omega
    rw [if_neg hsent]
  · rw [hsocket]
    show channel ++ [Message.mk (send_request fds).iov
      (List.take (((send_request fds).control.cmsg_len - cmsg_header_size) / sizeof_int)
        (send_request fds).control.data)] = _
    rw [hcount]
    show channel ++ [({ payload := [111, 112], fds := List.take fds.length fds } : Message)] = _
    rw [List.take_length]

/-- C25 (amended). Round trip over a channel that delivers what was sent. For every
non-empty payload and every non-empty descriptor list of length n below 2^31 that are
under way as one message, `receive_data` asking for the payload's length with n
descriptor slots returns normally after one `recvmsg` call, the buffer holding the
payload from its start on and `fds` holding the n descriptors sent, in their order.
The message that `send_fds` itself sends for such a descriptor list has the two bytes
'o', 'p' as its payload, and `receive_data` asking for 2 bytes with n slots after it
returns normally with those two bytes and the n descriptors in their order. -/
theorem round_trip_over_channel (payload buffer : List Nat) (fds slots : List Int)
    (fuel : Nat) (rest : List Message)
    (hpayload : payload ≠ []) (hbytes : payload.length < 18446744073709551616)
    (hfds : fds ≠ []) (hslots : slots.length = fds.length)
    (hsize : fds.length < 2147483648) :
    (∃ out, receive_data channel_recvmsg (fuel + 1)
        ({ payload := payload, fds := fds } :: rest) buffer payload.length slots = some out ∧
      out.result = Except.ok () ∧
      out.state.buffer = payload ++ buffer.drop payload.length ∧
      out.state.fds = fds ∧ out.socket = rest ∧ out.calls.length = 1) ∧
    ((send_fds channel_sendmsg [] fds).result = Except.ok () ∧
      (send_fds channel_sendmsg [] fds).socket = [{ payload := [111, 112], fds := fds }]) ∧
    (∃ out, receive_data channel_recvmsg (fuel + 1)
        (send_fds channel_sendmsg [] fds).socket buffer 2 slots = some out ∧
      out.result = Except.ok () ∧
      out.state.buffer = [111, 112] ++ buffer.drop 2 ∧
      out.state.fds = fds ∧ out.socket = [] ∧ out.calls.length = 1) := by
  have hroom : ∀ bytes_requested : Nat, fds.length ≤
      ((recv_request bytes_requested
        { buffer := buffer, fds := slots, bytes_read := 0, fds_read := 0 }).msg_controllen -
          cmsg_header_size) / sizeof_int := by
    intro bytes_requested
    have h := control_room_for_slots
      { buffer := buffer, fds := slots, bytes_read := 0, fds_read := 0 } bytes_requested rfl
      (by show slots.length < 2147483648; omega)
    have hlen : ({ buffer := buffer, fds := slots, bytes_read := 0, fds_read := 0 } :
      ReceiveState).fds.length = fds.length := hslots
    rw [hlen] at h
    exact h
  obtain ⟨hsent, hchannel⟩ := send_fds_over_channel [] fds hfds hsize
  refine ⟨?_, ⟨hsent, hchannel⟩, ?_⟩
  · exact receive_data_one_answer channel_recvmsg fuel _ rest buffer payload fds slots
      hpayload hbytes hslots hsize
      (channel_recvmsg_whole payload fds rest _ rfl hfds (hroom payload.length))
  · rw [hchannel]
    exact receive_data_one_answer channel_recvmsg fuel _ [] buffer [111, 112] fds slots
      (by decide) (by decide) hslots hsize
      (channel_recvmsg_whole [111, 112] fds [] _ rfl hfds (hroom 2))

/-- C25 at a concrete input: the payload "hi" (104, 105) under way with the
descriptors 5 and 6 is received, with 2 bytes and 2 slots asked for, as the bytes
104, 105 and the descriptors 5, 6; and 5, 6 sent with `send_fds` arrive with the
bytes 'o', 'p' (111, 112). -/
theorem round_trip_over_channel_witness :
    (∃ out, receive_data channel_recvmsg 1 [{ payload := [104, 105], fds := [5, 6] }]
        [0, 0] 2 [0, 0] = some out ∧
      out.result = Except.ok () ∧ out.state.buffer = [104, 105] ∧
      out.state.fds = [5, 6] ∧ out.socket = [] ∧ out.calls.length = 1) ∧
    ((send_fds channel_sendmsg [] [5, 6]).result = Except.ok () ∧
      (send_fds channel_sendmsg [] [5, 6]).socket =
        [{ payload := [111, 112], fds := [5, 6] }]) ∧
    (∃ out, receive_data channel_recvmsg 1 (send_fds channel_sendmsg [] [5, 6]).socket
        [0, 0] 2 [0, 0] = some out ∧
      out.result = Except.ok () ∧ out.state.buffer = [111, 112] ∧
      out.state.fds = [5, 6] ∧ out.socket = [] ∧ out.calls.length = 1) :=
  round_trip_over_channel [104, 105] [0, 0] [5, 6] [0, 0] 0 [] (by decide) (by decide)
    (by decide) rfl (by decide)

/-- C25 as stated fails for the empty payload: with a message of no bytes and the
descriptors 5 and 6 under way, `receive_data` asking for the payload's length, 0,
with 2 descriptor slots fails with the logic error, makes no `recvmsg` call and
leaves the slots as they were. -/
theorem round_trip_empty_payload_counterexample :
    ∃ out, receive_data channel_recvmsg 5 [{ payload := [], fds := [5, 6] }] []
        ([] : List Nat).length [0, 0] = some out ∧
      out.result = Except.error ReceiveError.logic_error ∧
      out.calls = [] ∧ out.state.fds = [0, 0] :=
  ⟨_, rfl, rfl, rfl, rfl⟩

end mir
